import Mathlib

/-!
# PointCloudPoke: the cloud data model and point picking

A shallow embedding of `src/src/VisualizerData.h`, `src/src/VisualizerData.cpp`
and `src/src/Visualizer.hpp`.

Modelling conventions.

* A `float` or `double` value is the rational number (`ℚ`) it denotes; the
  values held by a cloud are finite (infinities and NaN are outside the model).
  The arithmetic of the nearest-neighbour search rounds to `float` (`roundFloat`,
  with underflow to 0 and overflow to infinity); the colour product `r * 255` of
  render preparation is taken exactly.
* `std::vector<T>` is `List T`, `std::string` is `String`, `int` is `Int`
  (container sizes are `Nat`).
* A `std::vector` element access `v[i]` is `v[i]?`; an access out of bounds
  (undefined behaviour in C++) yields `none` and the enclosing operation has no
  result.
* Logging (`logError`, `logWarning`) has no effect on the state and is omitted.
-/

namespace pcv

/-! ## Types (`VisualizerData.h`) -/

abbrev CloudName := String
abbrev FeatureName := String
abbrev FeatureData := List ℚ
abbrev Feature := FeatureName × FeatureData
abbrev ViewportIdx := Int

/-- One row of the `N x 3` matrix handed to the search tree. -/
abbrev Point3 := ℚ × ℚ × ℚ

/-- The address of a heap-allocated `Cloud` (`CloudPtr = std::shared_ptr<Cloud>`). -/
abbrev CloudPtr := Nat

/-- The colour of a cloud, `struct ColorRGB`. -/
structure ColorRGB where
  r : ℚ
  g : ℚ
  b : ℚ
deriving DecidableEq

/-- A space, `struct Space`: three feature names and the search tree, which is
represented by the rows it was built from. -/
structure Space where
  u1 : FeatureName
  u2 : FeatureName
  u3 : FeatureName
  mSearchTree : List Point3
deriving DecidableEq

/-- A cloud, `class Cloud`, with the member initialisers of the header. The
back pointer `mVisualizerPtr` is only used to forward `render` and is omitted. -/
structure Cloud where
  mViewport : Int := 0
  mSize : Int := 1
  mOpacity : ℚ := 1
  mRGB : ColorRGB := ⟨-1, -1, -1⟩
  mSpaces : List Space := []
  mIndexedClouds : List (Int × List (CloudName × CloudPtr)) := []
  mFeatures : List Feature := []
  mTimestamp : String := ""
deriving DecidableEq

namespace Cloud

/-! ## Features (`VisualizerData.cpp`, lines 152-180 and 299-326) -/

/-- `Cloud::getNbFeatures`. -/
def getNbFeatures (c : Cloud) : Nat := c.mFeatures.length

/-- `Cloud::getNbPoints`: `0` without features, else the size of the data of
`mFeatures.begin()`. -/
def getNbPoints (c : Cloud) : Nat :=
  if c.getNbFeatures ≤ 0 then 0
  else
    match c.mFeatures with
    | [] => 0
    | f :: _ => f.2.length

/-- `Cloud::getFeature`: `std::find_if` on the name, the first match or `end()`
(`none`). -/
def getFeature (c : Cloud) (name : FeatureName) : Option Feature :=
  c.mFeatures.find? (fun f => f.1 == name)

/-- `Cloud::hasFeature`: `getFeature(name) != mFeatures.end()`. -/
def hasFeature (c : Cloud) (name : FeatureName) : Bool :=
  (c.getFeature name).isSome

/-- `Cloud::getFeatureData` (the reading side): the data of the entry found by
`getFeature`; dereferencing `end()` has no result. -/
def getFeatureData (c : Cloud) (name : FeatureName) : Option FeatureData :=
  (c.getFeature name).map Prod.snd

/-- The assignment `getFeatureData(name) = data`: the data of the first entry
named `name` is replaced. -/
def assignFeatureData (name : FeatureName) (data : FeatureData) : List Feature → List Feature
  | [] => []
  | f :: fs => if f.1 == name then (f.1, data) :: fs else f :: assignFeatureData name data fs

/-- `Cloud::setViewport`. -/
def setViewport (c : Cloud) (viewport : ViewportIdx) : Cloud :=
  if viewport > 0 then { c with mViewport := viewport } else c

/-- `Cloud::setSize`. -/
def setSize (c : Cloud) (size : Int) : Cloud := { c with mSize := size }

/-- `Cloud::setOpacity`. -/
def setOpacity (c : Cloud) (opacity : ℚ) : Cloud := { c with mOpacity := opacity }

/-- `Cloud::setColor`. -/
def setColor (c : Cloud) (r g b : ℚ) : Cloud := { c with mRGB := ⟨r, g, b⟩ }

/-- `Cloud::addFeature(const FeatureData&, const FeatureName&, ViewportIdx)`;
the viewport argument defaults to `-1` in the header. -/
def addFeature (c : Cloud) (data : FeatureData) (name : FeatureName)
    (viewport : ViewportIdx := -1) : Cloud :=
  let c1 : Cloud :=
    if c.hasFeature name then
      { c with mFeatures := assignFeatureData name data c.mFeatures }
    else
      { c with mFeatures := c.mFeatures ++ [(name, data)] }
  c1.setViewport viewport

/-! ## Labels (`VisualizerData.cpp`, lines 260-288) -/

/-- The inner loop of `addLabelsFeature` over one component: every index `i`
with `i >= 0 && i < nbPoints` gets `labels[i] = label`, the others are skipped
(an error is logged). -/
def labelComponent (nbPoints : Nat) (label : Int) (labels : FeatureData)
    (componentIndices : List Int) : FeatureData :=
  componentIndices.foldl
    (fun ls i => if 0 ≤ i ∧ i < (nbPoints : Int) then ls.set i.toNat (label : ℚ) else ls)
    labels

/-- The outer loop of `addLabelsFeature`: the components in input order, the
label incremented after each one. -/
def labelComponents (nbPoints : Nat) : Int → FeatureData → List (List Int) → FeatureData
  | _, labels, [] => labels
  | label, labels, componentIndices :: rest =>
      labelComponents nbPoints (label + 1)
        (labelComponent nbPoints label labels componentIndices) rest

/-- The labels computed by `addLabelsFeature`: `FeatureData labels(nbPoints, -1)`
followed by the two loops, starting at `label = 0`. -/
def computeLabels (nbPoints : Nat) (componentsIndixes : List (List Int)) : FeatureData :=
  labelComponents nbPoints 0 (List.replicate nbPoints (-1)) componentsIndixes

/-- `Cloud::addLabelsFeature`. -/
def addLabelsFeature (c : Cloud) (componentsIndixes : List (List Int)) (name : FeatureName)
    (viewport : ViewportIdx := -1) : Cloud :=
  let nbPoints := c.getNbPoints
  if nbPoints ≤ 0 then c
  else c.addFeature (computeLabels nbPoints componentsIndixes) name viewport

end Cloud

/-! ## Spaces (`VisualizerData.cpp`, lines 290-297 and 390-437) -/

/-- The packing loop of `Space::Space` after `n` iterations: row `i` is
`(va[i], vb[i], vc[i])`. -/
def packLoop (va vb vc : FeatureData) : Nat → Option (List Point3)
  | 0 => some []
  | n + 1 =>
      match packLoop va vb vc n, va[n]?, vb[n]?, vc[n]? with
      | some data, some x, some y, some z => some (data ++ [(x, y, z)])
      | _, _, _, _ => none

/-- `Space::Space`: with `N = va.size()`, the index is built over the `N` packed
rows when `N > 0` and over nothing otherwise. The size test of the constructor
only logs. -/
def Space.build (a b c : Feature) : Option Space :=
  let N := a.2.length
  if N > 0 then
    (packLoop a.2 b.2 c.2 N).map (fun data => ⟨a.1, b.1, c.1, data⟩)
  else
    some ⟨a.1, b.1, c.1, []⟩

/-- `Cloud::addSpace`. -/
def Cloud.addSpace (cloud : Cloud) (a b c : FeatureName) : Option Cloud :=
  if !cloud.hasFeature a then some cloud
  else if !cloud.hasFeature b then some cloud
  else if !cloud.hasFeature c then some cloud
  else
    match cloud.getFeature a, cloud.getFeature b, cloud.getFeature c with
    | some fa, some fb, some fc =>
        (Space.build fa fb fc).map (fun s => { cloud with mSpaces := cloud.mSpaces ++ [s] })
    | _, _, _ => none

/-! ## Arithmetic in `float` (IEEE 754 binary32) -/

/-- The loop of `log2Nat`, with a bound on the number of halvings. -/
def log2Loop : Nat → Nat → Nat
  | 0, _ => 0
  | fuel + 1, n => if 2 ≤ n then log2Loop fuel (n / 2) + 1 else 0

/-- The position of the highest bit of `n`: the integer part of its binary
logarithm (0 for `n = 0`). -/
def log2Nat (n : Nat) : Nat := log2Loop n n

/-- The integer part of the binary logarithm of `|q|`, for `q ≠ 0`: the
difference of the bit positions of numerator and denominator, lowered by one
when that power of two exceeds `|q|`. -/
def floorLog2 (q : ℚ) : Int :=
  if (2 : ℚ) ^ ((log2Nat q.num.natAbs : Int) - (log2Nat q.den : Int)) ≤ |q| then
    (log2Nat q.num.natAbs : Int) - (log2Nat q.den : Int)
  else (log2Nat q.num.natAbs : Int) - (log2Nat q.den : Int) - 1

/-- The integer nearest to `m`, the even one of the two when `m` lies halfway. -/
def roundHalfEven (m : ℚ) : Int :=
  if m - ⌊m⌋ < 1 / 2 then ⌊m⌋
  else if 1 / 2 < m - ⌊m⌋ then ⌊m⌋ + 1
  else if ⌊m⌋ % 2 = 0 then ⌊m⌋ else ⌊m⌋ + 1

/-- The rounding of the exact result `q` of an operation to `float` (round to
nearest, ties to even): a significand of 24 bits, that is a multiple of
`2 ^ (e - 23)` where `e` is the binary exponent of `q`, and multiples of
`2 ^ (-149)` below `2 ^ (-126)` (subnormal numbers, underflow to 0). The upper
end of the exponent range is applied by `toFloat`. -/
def roundFloat (q : ℚ) : ℚ :=
  if q = 0 then 0
  else
    roundHalfEven (q / 2 ^ (max (floorLog2 q) (-126) - 23)) *
      2 ^ (max (floorLog2 q) (-126) - 23)

/-- The largest finite `float`, `(2 ^ 24 - 1) * 2 ^ 104`. -/
def maxFloat : ℚ := (2 ^ 24 - 1) * 2 ^ 104

/-- The `float` result of an operation with the exact result `q ≥ 0`: the
rounded value, or `+infinity` (`⊤`) when the rounded value exceeds the largest
finite `float`. -/
def toFloat (q : ℚ) : WithTop ℚ :=
  if maxFloat < roundFloat q then ⊤ else ((roundFloat q : ℚ) : WithTop ℚ)

/-- Modelled from the spec: one pass of the loop of the distance functor
`flann::L2<float>` of the flann library, `diff0 = a - b; result += diff0 * diff0`,
each of the three operations rounded to `float`. A difference beyond the
largest finite `float` is infinite, and so are its square and the sum. -/
def accumulate (result : WithTop ℚ) (a b : ℚ) : WithTop ℚ :=
  if maxFloat < |roundFloat (a - b)| then ⊤
  else
    match result, toFloat (roundFloat (a - b) * roundFloat (a - b)) with
    | some r, some s => toFloat (r + s)
    | _, _ => ⊤

/-- Modelled from the spec: the distance functor `flann::L2<float>` applied to
the query `q` and the row `p`, the squared Euclidean distance accumulated in
`float` over the three dimensions, starting from 0. The values of a cloud are
finite, so the distance is a finite `float` that is not negative or
`+infinity`. -/
def sqDist (p q : Point3) : WithTop ℚ :=
  accumulate (accumulate (accumulate 0 q.1 p.1) q.2.1 p.2.1) q.2.2 p.2.2

/-- A scan of the rows from position `i` on, keeping the best (index, distance)
found so far; a later row replaces the best one only when strictly closer. -/
def nearestFrom (query : Point3) :
    Nat → List Point3 → Option (Nat × WithTop ℚ) → Option (Nat × WithTop ℚ)
  | _, [], best => best
  | i, p :: ps, none => nearestFrom query (i + 1) ps (some (i, sqDist p query))
  | i, p :: ps, some (j, d) =>
      if sqDist p query < d then nearestFrom query (i + 1) ps (some (i, sqDist p query))
      else nearestFrom query (i + 1) ps (some (j, d))

/-- Modelled from the spec: the 1-nearest-neighbour query `mSearchTree.knnSearch`
of the flann library, which is not part of the repository. The spec (4.2) says
"runs a 1-nearest-neighbor search" and the source says of the index
"optimized for 3D, gives exact result": the result is the index of a row at
minimal squared distance from the query together with that distance, and on an
index without rows nothing is found (nothing is written to the output buffers).
Among rows at the same distance the first one is kept, as the result set of the
library does (a candidate is dropped unless it is strictly closer). -/
def knnSearch (tree : List Point3) (query : Point3) : Option (Nat × WithTop ℚ) :=
  nearestFrom query 0 tree none

/-- The tolerance of `findPickedPointIndex`, `const float eps = 1e-10`: the
`float` nearest to `1e-10`. -/
def eps : ℚ := roundFloat (1 / 10 ^ 10)

/-- `Space::findPickedPointIndex`: the output buffers `indicesData` and
`distsData` start at `0`, the search overwrites them with what it found, and
the picked index is accepted when the distance is below `eps`. -/
def Space.findPickedPointIndex (s : Space) (a b c : ℚ) : Int :=
  let found : Int × WithTop ℚ :=
    match knnSearch s.mSearchTree (a, b, c) with
    | some (j, d) => ((j : Int), d)
    | none => (0, 0)
  if found.2 < ((eps : ℚ) : WithTop ℚ) then found.1 else -1

/-! ## Saving (`VisualizerData.cpp`, lines 339-388) -/

/-- A `static_cast` from a floating-point value to an integer type: the
fractional part is discarded (truncation toward zero). -/
def truncate (q : ℚ) : Int := if 0 ≤ q then ⌊q⌋ else ⌈q⌉

/-- `static_cast<uint8_t>` of a floating-point value, reduced modulo `2 ^ 8`. -/
def toUInt8 (q : ℚ) : Nat := (truncate q % 2 ^ 8).toNat

/-- `static_cast<uint32_t>` of a floating-point value, reduced modulo `2 ^ 32`. -/
def toUInt32 (q : ℚ) : Nat := (truncate q % 2 ^ 32).toNat

namespace Cloud

/-- The line `FIELDS` of `save`: one name per feature, in the order of `mFeatures`. -/
def fieldsLine (c : Cloud) : String :=
  "FIELDS" ++ String.join (c.mFeatures.map (fun f => " " ++ f.1))

/-- The line `SIZE` of `save`. -/
def sizeLine (c : Cloud) : String :=
  "SIZE" ++ String.join (List.replicate c.getNbFeatures " 4")

/-- The line `TYPE` of `save`: the loop reads `mFeatures[i].first` for every
`i < getNbFeatures()`, that is every feature in order. -/
def typeLine (c : Cloud) : String :=
  "TYPE" ++ String.join (c.mFeatures.map (fun f => if f.1 == "rgb" then " U" else " F"))

/-- The line `COUNT` of `save`. -/
def countLine (c : Cloud) : String :=
  "COUNT" ++ String.join (List.replicate c.getNbFeatures " 1")

/-- The header written by `save`, one string per line. -/
def saveHeader (c : Cloud) : List String :=
  [ "# .PCD v.7 - Point Cloud Data file format",
    "VERSION .7",
    c.fieldsLine,
    c.sizeLine,
    c.typeLine,
    c.countLine,
    "WIDTH " ++ toString c.getNbPoints,
    "HEIGHT 1",
    "VIEWPOINT 0 0 0 1 0 0 0",
    "POINTS " ++ toString c.getNbPoints,
    "DATA ascii" ]

/-- The data line of point `i`: for every feature in order the value
`feature.second[i]` followed by a blank, the field "rgb" cast to `uint32_t`;
`fmt` is the text the stream writes for a `float`. -/
def dataLine (fmt : ℚ → String) (i : Nat) : List Feature → Option String
  | [] => some ""
  | f :: fs =>
      match f.2[i]?, dataLine fmt i fs with
      | some v, some line =>
          some ((if f.1 == "rgb" then toString (toUInt32 v) else fmt v) ++ " " ++ line)
      | _, _ => none

/-- The data lines of points `0 .. n - 1`. -/
def dataLines (fmt : ℚ → String) (c : Cloud) : Nat → Option (List String)
  | 0 => some []
  | n + 1 =>
      match dataLines fmt c n, dataLine fmt n c.mFeatures with
      | some ls, some l => some (ls ++ [l])
      | _, _ => none

/-- `Cloud::save`: the lines of the file, the header followed by one line per
point. -/
def save (fmt : ℚ → String) (c : Cloud) : Option (List String) :=
  (dataLines fmt c c.getNbPoints).map (fun ls => c.saveHeader ++ ls)

end Cloud

/-! ## Render preparation (`VisualizerData.cpp`, lines 51-89 and 144-147) -/

/-- `VisualizerData::sFilePrefix`. -/
def sFilePrefix : String := "visualizer."

/-- `VisualizerData::sFolder`. -/
def sFolder : String := "VisualizerData/"

/-- `VisualizerData::getCloudFilename`, `mName` being the name of the session. -/
def getCloudFilename (mName : String) (cloud : Cloud) (cloudName : String) : String :=
  sFolder ++ sFilePrefix ++ cloud.mTimestamp ++ "." ++ mName ++ "." ++
    toString cloud.mViewport ++ "-view." ++ cloudName ++ ".pcd"

/-- The packed colour of lines 68-71: the channels times 255 cast to `uint8_t`,
combined as `(r << 16) + (g << 8) + b` and cast to `float`. -/
def packedRGB (rgb : ColorRGB) : ℚ :=
  let r := toUInt8 (rgb.r * 255)
  let g := toUInt8 (rgb.g * 255)
  let b := toUInt8 (rgb.b * 255)
  (((r <<< 16) + (g <<< 8) + b : Nat) : ℚ)

/-- Lines 65-73 of `prepareCloudsForRender`: when a colour is set
(`mRGB.r >= 0.0`), the feature "rgb" is added with the packed colour at every
point. -/
def prepareColor (cloud : Cloud) : Cloud :=
  if cloud.mRGB.r ≥ 0 then
    cloud.addFeature (List.replicate cloud.getNbPoints (packedRGB cloud.mRGB)) "rgb" cloud.mViewport
  else cloud

/-- The body of the loop of `prepareCloudsForRender` for one registered cloud:
the cloud afterwards and the file written, if any (its name and its lines).
`dirOk` tells whether the output folder could be created or exists. -/
def prepareCloudForRender (fmt : ℚ → String) (mName : String) (dirOk : Bool)
    (name : CloudName) (cloud : Cloud) : Cloud × Option (String × Option (List String)) :=
  if cloud.mSpaces.length == 0 then (cloud, none)
  else
    let cloud1 := prepareColor cloud
    if dirOk then (cloud1, some (getCloudFilename mName cloud1 name, cloud1.save fmt))
    else (cloud1, none)

/-! ## Auxiliary definitions used to state the properties -/

/-- Applying `addFeature` for a list of additions, in order. -/
def addFeatures (c : Cloud) (adds : List (FeatureData × FeatureName × ViewportIdx)) : Cloud :=
  adds.foldl (fun acc a => acc.addFeature a.1 a.2.1 a.2.2) c

/-- The example cloud of the spec: x = y = z = [0, 1, 2], the space (x, y, z)
declared by `addSpace` and the colour (1, 0, 0). -/
def redCloud : Cloud :=
  { mRGB := ⟨1, 0, 0⟩
    mSpaces := [⟨"x", "y", "z", [(0, 0, 0), (1, 1, 1), (2, 2, 2)]⟩]
    mFeatures := [("x", [0, 1, 2]), ("y", [0, 1, 2]), ("z", [0, 1, 2])] }

/-- The contract of a 1-nearest-neighbour result `r = (index, distance)` over the
rows `tree`: the index denotes a row, the distance is the squared distance of
that row from the query, and no row is closer. -/
def IsNearest (tree : List Point3) (query : Point3) (r : Nat × WithTop ℚ) : Prop :=
  (∃ p, tree[r.1]? = some p ∧ r.2 = sqDist p query) ∧ ∀ x ∈ tree, r.2 ≤ sqDist x query

/-- A cloud whose features differ in length: x = [1], y = [1, 2], z = [1, 2, 3]. -/
def raggedCloud : Cloud :=
  { mFeatures := [("x", [1]), ("y", [1, 2]), ("z", [1, 2, 3])] }

/-! ## Point records and `addCloud` (`VisualizerData.cpp`, lines 182-248, `Visualizer.hpp`) -/

/-- The record `pcl::PointXYZ`, its fields as read by `addCloud`. -/
structure PointXYZ where
  x : ℚ
  y : ℚ
  z : ℚ
deriving DecidableEq

/-- The record `pcl::Normal`. -/
structure Normal where
  normal_x : ℚ
  normal_y : ℚ
  normal_z : ℚ
  curvature : ℚ
deriving DecidableEq

/-- The record `pcl::PointNormal`. -/
structure PointNormal where
  x : ℚ
  y : ℚ
  z : ℚ
  normal_x : ℚ
  normal_y : ℚ
  normal_z : ℚ
  curvature : ℚ
deriving DecidableEq

/-- The record `pcl::PrincipalCurvatures`. -/
structure PrincipalCurvatures where
  principal_curvature_x : ℚ
  principal_curvature_y : ℚ
  principal_curvature_z : ℚ
  pc1 : ℚ
  pc2 : ℚ
deriving DecidableEq

/-- A `pcl::PointCloud<T>` for one of the four record types for which
`Cloud::addCloud` is specialised. -/
inductive PointCloud where
  | xyz (points : List PointXYZ)
  | normal (points : List Normal)
  | pointNormal (points : List PointNormal)
  | principalCurvatures (points : List PrincipalCurvatures)
deriving DecidableEq

/-- The number of records, `data.size()`. -/
def PointCloud.size : PointCloud → Nat
  | .xyz ps => ps.length
  | .normal ps => ps.length
  | .pointNormal ps => ps.length
  | .principalCurvatures ps => ps.length

namespace Cloud

/-- `Cloud::addFeature(const T& data, const FeatureName&, F func, ViewportIdx)`
(`Visualizer.hpp`, lines 11-17): the values are `func` applied to the elements. -/
def addFeatureWith {T : Type} (c : Cloud) (data : List T) (featName : FeatureName)
    (func : T → ℚ) (viewport : ViewportIdx := -1) : Cloud :=
  c.addFeature (data.map func) featName viewport

/-- `Cloud::addCloudCommon`: `setViewport` and `createTimestamp`; `now` is the
string `VisualizerData::createTimestampString()` returns at that moment. -/
def addCloudCommon (c : Cloud) (viewport : ViewportIdx) (now : String) : Cloud :=
  { c.setViewport viewport with mTimestamp := now }

/-- `Cloud::addCloud` for `pcl::PointXYZ`. -/
def addCloudXYZ (c : Cloud) (data : List PointXYZ) (viewport : ViewportIdx) (now : String) :
    Option Cloud :=
  let c1 := c.addFeatureWith data "x" (fun p => p.x) viewport
  let c2 := c1.addFeatureWith data "y" (fun p => p.y) viewport
  let c3 := c2.addFeatureWith data "z" (fun p => p.z) viewport
  (c3.addSpace "x" "y" "z").map (fun c4 => c4.addCloudCommon viewport now)

/-- `Cloud::addCloud` for `pcl::Normal`. -/
def addCloudNormal (c : Cloud) (data : List Normal) (viewport : ViewportIdx) (now : String) :
    Option Cloud :=
  let c1 := c.addFeatureWith data "normal_x" (fun p => p.normal_x) viewport
  let c2 := c1.addFeatureWith data "normal_y" (fun p => p.normal_y) viewport
  let c3 := c2.addFeatureWith data "normal_z" (fun p => p.normal_z) viewport
  let c4 := c3.addFeatureWith data "curvature" (fun p => p.curvature) viewport
  (c4.addSpace "normal_x" "normal_y" "normal_z").map (fun c5 => c5.addCloudCommon viewport now)

/-- `Cloud::addCloud` for `pcl::PointNormal`. -/
def addCloudPointNormal (c : Cloud) (data : List PointNormal) (viewport : ViewportIdx)
    (now : String) : Option Cloud :=
  let c1 := c.addFeatureWith data "x" (fun p => p.x) viewport
  let c2 := c1.addFeatureWith data "y" (fun p => p.y) viewport
  let c3 := c2.addFeatureWith data "z" (fun p => p.z) viewport
  let c4 := c3.addFeatureWith data "normal_x" (fun p => p.normal_x) viewport
  let c5 := c4.addFeatureWith data "normal_y" (fun p => p.normal_y) viewport
  let c6 := c5.addFeatureWith data "normal_z" (fun p => p.normal_z) viewport
  let c7 := c6.addFeatureWith data "curvature" (fun p => p.curvature) viewport
  (c7.addSpace "x" "y" "z").bind (fun c8 =>
    (c8.addSpace "normal_x" "normal_y" "normal_z").map (fun c9 =>
      c9.addCloudCommon viewport now))

/-- `Cloud::addCloud` for `pcl::PrincipalCurvatures`. -/
def addCloudPrincipalCurvatures (c : Cloud) (data : List PrincipalCurvatures)
    (viewport : ViewportIdx) (now : String) : Option Cloud :=
  let c1 := c.addFeatureWith data "principal_curvature_x" (fun p => p.principal_curvature_x)
    viewport
  let c2 := c1.addFeatureWith data "principal_curvature_y" (fun p => p.principal_curvature_y)
    viewport
  let c3 := c2.addFeatureWith data "principal_curvature_z" (fun p => p.principal_curvature_z)
    viewport
  let c4 := c3.addFeatureWith data "pc1" (fun p => p.pc1) viewport
  let c5 := c4.addFeatureWith data "pc2" (fun p => p.pc2) viewport
  (c5.addSpace "principal_curvature_x" "principal_curvature_y" "principal_curvature_z").map
    (fun c6 => c6.addCloudCommon viewport now)

/-- `Cloud::addCloud(const pcl::PointCloud<T>&, ViewportIdx)`, by record type. -/
def addCloud (c : Cloud) (data : PointCloud) (viewport : ViewportIdx) (now : String) :
    Option Cloud :=
  match data with
  | .xyz ps => c.addCloudXYZ ps viewport now
  | .normal ps => c.addCloudNormal ps viewport now
  | .pointNormal ps => c.addCloudPointNormal ps viewport now
  | .principalCurvatures ps => c.addCloudPrincipalCurvatures ps viewport now

end Cloud

/-! ## Descriptions of `addCloud` used in the proofs -/

/-- The features `addCloud` sets for a point cloud, in the order of the calls. -/
def PointCloud.features : PointCloud → List Feature
  | .xyz ps => [("x", ps.map (fun p => p.x)), ("y", ps.map (fun p => p.y)),
      ("z", ps.map (fun p => p.z))]
  | .normal ps => [("normal_x", ps.map (fun p => p.normal_x)),
      ("normal_y", ps.map (fun p => p.normal_y)), ("normal_z", ps.map (fun p => p.normal_z)),
      ("curvature", ps.map (fun p => p.curvature))]
  | .pointNormal ps => [("x", ps.map (fun p => p.x)), ("y", ps.map (fun p => p.y)),
      ("z", ps.map (fun p => p.z)), ("normal_x", ps.map (fun p => p.normal_x)),
      ("normal_y", ps.map (fun p => p.normal_y)), ("normal_z", ps.map (fun p => p.normal_z)),
      ("curvature", ps.map (fun p => p.curvature))]
  | .principalCurvatures ps => [
      ("principal_curvature_x", ps.map (fun p => p.principal_curvature_x)),
      ("principal_curvature_y", ps.map (fun p => p.principal_curvature_y)),
      ("principal_curvature_z", ps.map (fun p => p.principal_curvature_z)),
      ("pc1", ps.map (fun p => p.pc1)), ("pc2", ps.map (fun p => p.pc2))]

/-- The spaces `addCloud` declares for a point cloud, in the order of the calls. -/
def PointCloud.spaces : PointCloud → List (FeatureName × FeatureName × FeatureName)
  | .xyz _ => [("x", "y", "z")]
  | .normal _ => [("normal_x", "normal_y", "normal_z")]
  | .pointNormal _ => [("x", "y", "z"), ("normal_x", "normal_y", "normal_z")]
  | .principalCurvatures _ =>
      [("principal_curvature_x", "principal_curvature_y", "principal_curvature_z")]

/-- Applying `addSpace` for a list of name triples, in order. -/
def addSpaces : Cloud → List (FeatureName × FeatureName × FeatureName) → Option Cloud
  | c, [] => some c
  | c, t :: ts => (c.addSpace t.1 t.2.1 t.2.2).bind (fun c1 => addSpaces c1 ts)

/-- The clouds a caller can reach from a newly created cloud with the operations
of `Cloud` and render preparation. -/
inductive Reachable : Cloud → Prop where
  | new : Reachable {}
  | addFeature (c : Cloud) (data : FeatureData) (name : FeatureName) (v : ViewportIdx) :
      Reachable c → Reachable (c.addFeature data name v)
  | addLabelsFeature (c : Cloud) (groups : List (List Int)) (name : FeatureName)
      (v : ViewportIdx) : Reachable c → Reachable (c.addLabelsFeature groups name v)
  | addSpace (c c1 : Cloud) (a b d : FeatureName) :
      Reachable c → c.addSpace a b d = some c1 → Reachable c1
  | addCloud (c c1 : Cloud) (data : PointCloud) (v : ViewportIdx) (now : String) :
      Reachable c → c.addCloud data v now = some c1 → Reachable c1
  | setViewport (c : Cloud) (v : ViewportIdx) : Reachable c → Reachable (c.setViewport v)
  | setSize (c : Cloud) (size : Int) : Reachable c → Reachable (c.setSize size)
  | setOpacity (c : Cloud) (opacity : ℚ) : Reachable c → Reachable (c.setOpacity opacity)
  | setColor (c : Cloud) (r g b : ℚ) : Reachable c → Reachable (c.setColor r g b)
  | prepare (c : Cloud) (fmt : ℚ → String) (mName : String) (dirOk : Bool) (name : CloudName) :
      Reachable c → Reachable (prepareCloudForRender fmt mName dirOk name c).1

/-- The clouds reached when every `addFeature` and `addCloud` on a cloud that
already has a feature supplies as many values (records) as `getNbPoints`. -/
inductive ReachableSameLength : Cloud → Prop where
  | new : ReachableSameLength {}
  | addFeature (c : Cloud) (data : FeatureData) (name : FeatureName) (v : ViewportIdx) :
      ReachableSameLength c → (c.mFeatures = [] ∨ data.length = c.getNbPoints) →
      ReachableSameLength (c.addFeature data name v)
  | addLabelsFeature (c : Cloud) (groups : List (List Int)) (name : FeatureName)
      (v : ViewportIdx) :
      ReachableSameLength c → ReachableSameLength (c.addLabelsFeature groups name v)
  | addSpace (c c1 : Cloud) (a b d : FeatureName) :
      ReachableSameLength c → c.addSpace a b d = some c1 → ReachableSameLength c1
  | addCloud (c c1 : Cloud) (data : PointCloud) (v : ViewportIdx) (now : String) :
      ReachableSameLength c → (c.mFeatures = [] ∨ data.size = c.getNbPoints) →
      c.addCloud data v now = some c1 → ReachableSameLength c1
  | setViewport (c : Cloud) (v : ViewportIdx) :
      ReachableSameLength c → ReachableSameLength (c.setViewport v)
  | setSize (c : Cloud) (size : Int) : ReachableSameLength c → ReachableSameLength (c.setSize size)
  | setOpacity (c : Cloud) (opacity : ℚ) :
      ReachableSameLength c → ReachableSameLength (c.setOpacity opacity)
  | setColor (c : Cloud) (r g b : ℚ) :
      ReachableSameLength c → ReachableSameLength (c.setColor r g b)
  | prepare (c : Cloud) (fmt : ℚ → String) (mName : String) (dirOk : Bool) (name : CloudName) :
      ReachableSameLength c →
      ReachableSameLength (prepareCloudForRender fmt mName dirOk name c).1

/-! ## The registry (`class VisualizerData`; `VisualizerData.cpp`, lines 46-101, and
`Visualizer.hpp`, lines 50-81) -/

/-- Lookup of a key in a `std::map`, which is represented by the list of its
entries. -/
def mapFind? {K V : Type} [DecidableEq K] (m : List (K × V)) (k : K) : Option V :=
  (m.find? (fun e => decide (e.1 = k))).map Prod.snd

/-- The assignment `m[k] = v` on a `std::map`: the value of an existing key is
replaced, a new key is inserted at its place in key order. -/
def mapSet {K V : Type} [DecidableEq K] [LT K] [DecidableRel (fun a b : K => a < b)]
    (k : K) (v : V) : List (K × V) → List (K × V)
  | [] => [(k, v)]
  | e :: es =>
      if e.1 = k then (k, v) :: es
      else if k < e.1 then (k, v) :: e :: es
      else e :: mapSet k v es

/-- The read `mIndexedClouds[i][name]`. -/
def indexedFind? (m : List (Int × List (CloudName × CloudPtr))) (i : Int) (name : CloudName) :
    Option CloudPtr :=
  (mapFind? m i).bind (fun inner => mapFind? inner name)

/-- The assignment `mIndexedClouds[i][name] = p`. -/
def indexedSet (m : List (Int × List (CloudName × CloudPtr))) (i : Int) (name : CloudName)
    (p : CloudPtr) : List (Int × List (CloudName × CloudPtr)) :=
  mapSet i (mapSet name p ((mapFind? m i).getD [])) m

/-- The registry, `class VisualizerData`: the session name, the map from cloud
names to shared pointers, and the clouds these pointers denote: `heap[p]` is the
cloud at address `p`, and `new Cloud()` takes the next free address. -/
structure VisualizerData where
  mName : String := ""
  mClouds : List (CloudName × CloudPtr) := []
  heap : List Cloud := []
deriving DecidableEq

/-- A file written during render preparation: its name and its lines. -/
abbrev SavedFile := String × Option (List String)

namespace VisualizerData

/-- `VisualizerData::getCloud`: the pointer registered under `name`, a new cloud
being created and registered first when there is none. -/
def getCloud (v : VisualizerData) (name : CloudName) : VisualizerData × CloudPtr :=
  match mapFind? v.mClouds name with
  | some p => (v, p)
  | none =>
      ({ v with mClouds := mapSet name v.heap.length v.mClouds, heap := v.heap ++ [{}] },
        v.heap.length)

end VisualizerData

/-- The loop of `prepareCloudsForRender` over the entries of the registry, in
order: the body `prepareCloudForRender` runs on the cloud each entry points to.
The result is the clouds afterwards and the files written, in order. `dirOk`
tells, for the iteration of a cloud, whether the output folder could be created
or exists. -/
def prepareLoop (fmt : ℚ → String) (mName : String) (dirOk : CloudName → Bool) :
    List (CloudName × CloudPtr) → List Cloud → List Cloud × List SavedFile
  | [], heap => (heap, [])
  | e :: rest, heap =>
      match heap[e.2]? with
      | none => prepareLoop fmt mName dirOk rest heap
      | some cloud =>
          let r := prepareCloudForRender fmt mName (dirOk e.1) e.1 cloud
          let out := prepareLoop fmt mName dirOk rest (heap.set e.2 r.1)
          (out.1, r.2.toList ++ out.2)

/-- `VisualizerData::prepareCloudsForRender` on the registered clouds, as called
by `VisualizerData::render`. -/
def VisualizerData.prepareCloudsForRender (fmt : ℚ → String) (dirOk : CloudName → Bool)
    (v : VisualizerData) : VisualizerData × List SavedFile :=
  let out := prepareLoop fmt v.mName dirOk v.mClouds v.heap
  ({ v with heap := out.1 }, out.2)

/-- `Cloud::addCloudIndexed` (`Visualizer.hpp`, lines 50-60) on the cloud at
address `self`: the child `mIndexedClouds[i][name]` is created when absent and
`addCloud` runs on it. The range test on `i` only logs. -/
def Cloud.addCloudIndexed (heap : List Cloud) (self : CloudPtr) (data : PointCloud) (i : Int)
    (name : CloudName) (viewport : ViewportIdx) (now : String) : Option (List Cloud) :=
  match heap[self]? with
  | none => none
  | some parent =>
      let created : List Cloud × CloudPtr :=
        match indexedFind? parent.mIndexedClouds i name with
        | some p => (heap, p)
        | none =>
            ((heap.set self
                { parent with
                  mIndexedClouds := indexedSet parent.mIndexedClouds i name heap.length }) ++ [{}],
              heap.length)
      match created.1[created.2]? with
      | none => none
      | some child =>
          (child.addCloud data viewport now).map (fun child1 => created.1.set created.2 child1)

/-- `Visualizer::addCloudIndexed` (`Visualizer.hpp`, lines 62-81): the child is
created inside the parent, then registered under its own name. -/
def VisualizerData.addCloudIndexed (v : VisualizerData) (data : PointCloud)
    (parentCloudName : CloudName) (i : Int) (indexedCloudName : CloudName)
    (viewport : ViewportIdx) (now : String) : Option VisualizerData :=
  let got := v.getCloud parentCloudName
  match Cloud.addCloudIndexed got.1.heap got.2 data i indexedCloudName viewport now with
  | none => none
  | some heap1 =>
      match heap1[got.2]? with
      | none => none
      | some parentCloud =>
          match indexedFind? parentCloud.mIndexedClouds i indexedCloudName with
          | none => none
          | some child =>
              let v1 : VisualizerData :=
                { got.1 with heap := heap1, mClouds := mapSet indexedCloudName child got.1.mClouds }
              some (v1.getCloud indexedCloudName).1

/-- The pointers of a registry are valid: every registered pointer and every
pointer of an index map denotes a cloud of the heap. -/
def VisualizerData.WellFormed (v : VisualizerData) : Prop :=
  (∀ e ∈ v.mClouds, e.2 < v.heap.length) ∧
  ∀ c ∈ v.heap, ∀ m ∈ c.mIndexedClouds, ∀ e ∈ m.2, e.2 < v.heap.length

/-- A registry with two clouds: "a" has a feature and a colour but no space, "b"
is the example cloud. -/
def spacelessRegistry : VisualizerData :=
  { mName := "session"
    mClouds := [("a", 0), ("b", 1)]
    heap := [(({} : Cloud).addFeature [1, 2] "x").setColor 0 1 0, redCloud] }

/-- The child registered in the index map of the cloud named `parentCloudName`
under `(i, indexedCloudName)`, if there is one. -/
def VisualizerData.indexedChild (v : VisualizerData) (parentCloudName : CloudName) (i : Int)
    (indexedCloudName : CloudName) : Option CloudPtr :=
  (mapFind? v.mClouds parentCloudName).bind (fun p =>
    v.heap[p]?.bind (fun parent => indexedFind? parent.mIndexedClouds i indexedCloudName))

/-- A registry whose only cloud is the example cloud, registered as "p". -/
def parentRegistry : VisualizerData :=
  { mName := "session"
    mClouds := [("p", 0)]
    heap := [redCloud] }

/-- The text of point `i` in a saved file, stated directly: for every feature in
insertion order its `i`-th value, the field "rgb" as an unsigned integer and the
others in the text `fmt` of a `float`, each followed by a blank. -/
def pointLine (fmt : ℚ → String) (fs : List Feature) (i : Nat) : String :=
  String.join (fs.map (fun f =>
    (if f.1 == "rgb" then toString (toUInt32 (f.2.getD i 0)) else fmt (f.2.getD i 0)) ++ " "))

/-- The spaces `addCloud` builds for a point cloud, stated directly: one Space
per declared triple of names, over the rows of the corresponding record fields. -/
def PointCloud.builtSpaces : PointCloud → List Space
  | .xyz ps => [⟨"x", "y", "z", ps.map (fun p => (p.x, p.y, p.z))⟩]
  | .normal ps =>
      [⟨"normal_x", "normal_y", "normal_z",
        ps.map (fun p => (p.normal_x, p.normal_y, p.normal_z))⟩]
  | .pointNormal ps =>
      [⟨"x", "y", "z", ps.map (fun p => (p.x, p.y, p.z))⟩,
       ⟨"normal_x", "normal_y", "normal_z",
        ps.map (fun p => (p.normal_x, p.normal_y, p.normal_z))⟩]
  | .principalCurvatures ps =>
      [⟨"principal_curvature_x", "principal_curvature_y", "principal_curvature_z",
        ps.map (fun p =>
          (p.principal_curvature_x, p.principal_curvature_y, p.principal_curvature_z))⟩]

/-! ## Timestamps and saved files -/

/-- The calendar date and time of a `std::tm` as `std::put_time` prints them: the
year is `tm_year + 1900`, the month `tm_mon + 1`. -/
@[ext] structure Tm where
  year : Int
  month : Nat
  day : Nat
  hour : Nat
  minute : Nat
  second : Nat
deriving DecidableEq

/-- The field ranges of a calendar date and time with a 4-digit year. -/
def Tm.InRange (t : Tm) : Prop :=
  1000 ≤ t.year ∧ t.year ≤ 9999 ∧ 1 ≤ t.month ∧ t.month ≤ 12 ∧ 1 ≤ t.day ∧ t.day ≤ 31 ∧
    t.hour ≤ 23 ∧ t.minute ≤ 59 ∧ t.second ≤ 60

/-- The output of `std::setfill('0') << std::setw(w)` for the text `s` of a
number, which is also how the two-digit conversions `%m %d %H %M %S` of
`std::put_time` print: `s` filled on the left with '0' up to `w` characters. -/
def zeroPad (w : Nat) (s : String) : String :=
  String.mk (List.replicate (w - s.length) '0') ++ s

/-- The conversion `std::put_time(tm, "%Y%m%d.%H%M%S.")`. -/
def putTime (tm : Tm) : String :=
  toString tm.year ++ zeroPad 2 (toString tm.month) ++ zeroPad 2 (toString tm.day) ++ "." ++
    zeroPad 2 (toString tm.hour) ++ zeroPad 2 (toString tm.minute) ++
    zeroPad 2 (toString tm.second) ++ "."

/-- The body of `createTimestampString` for the instant `t`, in milliseconds
since the epoch of the system clock: `to_time_t` and the cast to milliseconds
truncate toward zero, `%` is the remainder of that division, and the
milliseconds are written with `setfill('0') << setw(3)`. -/
def timestampAt (localtime : Int → Tm) (t : Int) : String :=
  let nowAsTimeT := Int.tdiv t 1000
  let nowMs := Int.tmod t 1000
  putTime (localtime nowAsTimeT) ++ zeroPad 3 (toString nowMs)

/-- `VisualizerData::createTimestampString(hrsBack)`: the timestamp of the
instant `now - hrsBack` hours, `now` being the reading of the system clock in
milliseconds since the epoch and `localtime` the conversion of the C library. -/
def createTimestampString (localtime : Int → Tm) (now : Int) (hrsBack : Int) : String :=
  timestampAt localtime (now - hrsBack * 3600000)

/-- A directory separator of a path: '/', and on Windows, the platform of the
program, also the backslash. -/
def isSeparator (ch : Char) : Bool :=
  ch == '/' || ch == '\\'

/-- A cloud built without `addCloud`: three `addFeature` calls on a new cloud
followed by `addSpace`. -/
def featuresOnlyCloud : Option Cloud :=
  ((((({} : Cloud).addFeature [0, 1, 2] "x").addFeature [0, 1, 2] "y").addFeature
    [0, 1, 2] "z").setColor 1 0 0).addSpace "x" "y" "z"

theorem setViewport_mFeatures (c : Cloud) (v : ViewportIdx) :
    (c.setViewport v).mFeatures = c.mFeatures := by
  unfold Cloud.setViewport
  split <;> rfl

theorem setViewport_mSpaces (c : Cloud) (v : ViewportIdx) :
    (c.setViewport v).mSpaces = c.mSpaces := by
  unfold Cloud.setViewport
  split <;> rfl

theorem hasFeature_iff_mem (c : Cloud) (name : FeatureName) :
    c.hasFeature name = true ↔ name ∈ c.mFeatures.map Prod.fst := by
  unfold Cloud.hasFeature Cloud.getFeature
  rw [List.find?_isSome]
  simp

theorem addFeature_mFeatures (c : Cloud) (data : FeatureData) (name : FeatureName)
    (v : ViewportIdx) :
    (c.addFeature data name v).mFeatures =
      if c.hasFeature name then Cloud.assignFeatureData name data c.mFeatures
      else c.mFeatures ++ [(name, data)] := by
  unfold Cloud.addFeature
  simp only [setViewport_mFeatures]
  split <;> rfl

theorem addFeature_mSpaces (c : Cloud) (data : FeatureData) (name : FeatureName)
    (v : ViewportIdx) : (c.addFeature data name v).mSpaces = c.mSpaces := by
  unfold Cloud.addFeature
  simp only [setViewport_mSpaces]
  split <;> rfl

theorem assignFeatureData_length (name : FeatureName) (data : FeatureData) (fs : List Feature) :
    (Cloud.assignFeatureData name data fs).length = fs.length := by
  induction fs with
  | nil => rfl
  | cons f fs ih =>
    unfold Cloud.assignFeatureData
    split <;> simp [ih]

theorem assignFeatureData_names (name : FeatureName) (data : FeatureData) (fs : List Feature) :
    (Cloud.assignFeatureData name data fs).map Prod.fst = fs.map Prod.fst := by
  induction fs with
  | nil => rfl
  | cons f fs ih =>
    unfold Cloud.assignFeatureData
    split <;> simp [ih]

/-- Pairwise distinct feature names stay pairwise distinct under `addFeature`. -/
theorem addFeature_nodup (c : Cloud) (data : FeatureData) (name : FeatureName)
    (v : ViewportIdx) (h : (c.mFeatures.map Prod.fst).Nodup) :
    ((c.addFeature data name v).mFeatures.map Prod.fst).Nodup := by
  rw [addFeature_mFeatures]
  by_cases hh : c.hasFeature name = true
  · rw [if_pos hh, assignFeatureData_names]
    exact h
  · rw [if_neg hh, List.map_append, List.nodup_append]
    refine ⟨h, by simp, ?_⟩
    intro a ha hb
    simp at hb
    rw [hb] at ha
    exact hh ((hasFeature_iff_mem c name).mpr ha)

theorem getNbPoints_cons (c : Cloud) (f : Feature) (fs : List Feature)
    (h : c.mFeatures = f :: fs) : c.getNbPoints = f.2.length := by
  simp [Cloud.getNbPoints, Cloud.getNbFeatures, h]

/-- The head of the feature list after `addFeature`: overwritten when it bears
the added name, kept otherwise. -/
theorem addFeature_head (c : Cloud) (f : Feature) (fs : List Feature)
    (h : c.mFeatures = f :: fs) (data : FeatureData) (name : FeatureName) (v : ViewportIdx) :
    ∃ fs1, (c.addFeature data name v).mFeatures =
      (if f.1 = name then (f.1, data) else f) :: fs1 := by
  rw [addFeature_mFeatures, h]
  by_cases hn : f.1 = name
  · have hh : c.hasFeature name = true := by
      rw [hasFeature_iff_mem, h]; simp [hn]
    refine ⟨fs, ?_⟩
    simp [hh, hn, Cloud.assignFeatureData]
  · by_cases hh : c.hasFeature name = true
    · refine ⟨Cloud.assignFeatureData name data fs, ?_⟩
      simp [hh, hn, Cloud.assignFeatureData]
    · refine ⟨fs ++ [(name, data)], ?_⟩
      simp [hh, hn]

theorem addFeatures_getNbPoints (adds : List (FeatureData × FeatureName × ViewportIdx)) :
    ∀ (c : Cloud) (f : Feature) (fs : List Feature), c.mFeatures = f :: fs →
      (∀ a ∈ adds, a.2.1 ≠ f.1 ∨ a.1.length = f.2.length) →
      (addFeatures c adds).getNbPoints = f.2.length := by
  induction adds with
  | nil =>
    intro c f fs h _
    exact getNbPoints_cons c f fs h
  | cons a adds ih =>
    intro c f fs h hadds
    obtain ⟨fs1, h1⟩ := addFeature_head c f fs h a.1 a.2.1 a.2.2
    have ha := hadds a (List.mem_cons_self _ _)
    have hrest : ∀ b ∈ adds, b.2.1 ≠ f.1 ∨ b.1.length = f.2.length :=
      fun b hb => hadds b (List.mem_cons_of_mem _ hb)
    show (addFeatures (c.addFeature a.1 a.2.1 a.2.2) adds).getNbPoints = f.2.length
    by_cases hn : f.1 = a.2.1
    · rw [if_pos hn] at h1
      have hl : a.1.length = f.2.length := by
        rcases ha with ha | ha
        · exact absurd hn.symm ha
        · exact ha
      have := ih (c.addFeature a.1 a.2.1 a.2.2) (f.1, a.1) fs1 h1 (by simpa [hl] using hrest)
      simpa [hl] using this
    · rw [if_neg hn] at h1
      exact ih (c.addFeature a.1 a.2.1 a.2.2) f fs1 h1 hrest

/-! ## Feature store: point count, overwriting, missing features, viewport -/

/-- C3 (the code at the failing input): `addFeature` stores the values without
the size check its comment announces (`// assert size if > 0`), so overwriting
the first feature with values of another length changes `getNbPoints`: after
`addFeature([1,2,3], "x")` and `addFeature([7], "x")` the point count is 1, not
the length 3 of the first feature ever added. -/
theorem getNbPoints_not_first_ever_added :
    (({} : Cloud).addFeature [1, 2, 3] "x").getNbFeatures = 1 ∧
    ((({} : Cloud).addFeature [1, 2, 3] "x").addFeature [7] "x").getNbPoints = 1 ∧
    ((({} : Cloud).addFeature [1, 2, 3] "x").addFeature [7] "x").getNbPoints ≠
      ([1, 2, 3] : FeatureData).length := by
  decide

/-- The point count under `addFeature`: in a cloud whose feature list starts with
the entry `first`, any number of `addFeature` calls, each under a name other than that of `first`
or with as many values as `first` holds, leaves `getNbPoints` equal to the
length of `first`; an `addFeature` under the name of `first` makes
`getNbPoints` the length of the new values. -/
theorem getNbPoints_addFeature (c : Cloud) (first : Feature) (rest : List Feature)
    (hc : c.mFeatures = first :: rest)
    (adds : List (FeatureData × FeatureName × ViewportIdx))
    (hadds : ∀ a ∈ adds, a.2.1 ≠ first.1 ∨ a.1.length = first.2.length) :
    (addFeatures c adds).getNbPoints = first.2.length ∧
    ∀ (data : FeatureData) (v : ViewportIdx),
      (c.addFeature data first.1 v).getNbPoints = data.length := by
  refine ⟨addFeatures_getNbPoints adds c first rest hc hadds, ?_⟩
  intro data v
  obtain ⟨fs1, h1⟩ := addFeature_head c first rest hc data first.1 v
  rw [if_pos rfl] at h1
  exact getNbPoints_cons _ _ _ h1

theorem getNbPoints_addFeature_witness :
    (addFeatures (({} : Cloud).addFeature [1, 2, 3] "x")
        [([4, 5], "y", -1), ([6, 7, 8], "x", 2), ([], "z", 0)]).getNbPoints = 3 ∧
    ∀ (data : FeatureData) (v : ViewportIdx),
      ((({} : Cloud).addFeature [1, 2, 3] "x").addFeature data "x" v).getNbPoints =
        data.length :=
  getNbPoints_addFeature (({} : Cloud).addFeature [1, 2, 3] "x") ("x", [1, 2, 3]) []
    (by decide) [([4, 5], "y", -1), ([6, 7, 8], "x", 2), ([], "z", 0)] (by decide)

theorem assignFeatureData_getElem? (name : FeatureName) (data : FeatureData) :
    ∀ (fs : List Feature), (fs.map Prod.fst).Nodup → ∀ (i : Nat) (f : Feature),
      fs[i]? = some f →
      (Cloud.assignFeatureData name data fs)[i]? = some (if f.1 = name then (name, data) else f) := by
  intro fs
  induction fs with
  | nil => intro _ i f h; simp at h
  | cons g gs ih =>
    intro hnd i f h
    have hnd' : (gs.map Prod.fst).Nodup := (List.nodup_cons.mp (by simpa using hnd)).2
    have hg : g.1 ∉ gs.map Prod.fst := (List.nodup_cons.mp (by simpa using hnd)).1
    unfold Cloud.assignFeatureData
    by_cases hgn : g.1 = name
    · simp only [hgn, beq_self_eq_true, if_true]
      cases i with
      | zero =>
        simp at h
        subst h
        simp [hgn]
      | succ j =>
        simp at h
        have hf : f.1 ∈ gs.map Prod.fst :=
          List.mem_map_of_mem Prod.fst (List.mem_iff_getElem?.mpr ⟨j, h⟩)
        have hne : f.1 ≠ name := by
          intro he; apply hg; rw [hgn, ← he]; exact hf
        simp [h, hne]
    · have hb : (g.1 == name) = false := by simpa using hgn
      simp only [hb]
      cases i with
      | zero =>
        simp at h
        subst h
        simp [hgn]
      | succ j =>
        simp at h
        simpa using ih hnd' j f h

theorem assignFeatureData_filter (name : FeatureName) (data : FeatureData) :
    ∀ (fs : List Feature), (fs.map Prod.fst).Nodup → name ∈ fs.map Prod.fst →
      (Cloud.assignFeatureData name data fs).filter (fun f => f.1 == name) = [(name, data)] := by
  intro fs
  induction fs with
  | nil => intro _ h; simp at h
  | cons g gs ih =>
    intro hnd hmem
    have hnd' : (gs.map Prod.fst).Nodup := (List.nodup_cons.mp (by simpa using hnd)).2
    have hg : g.1 ∉ gs.map Prod.fst := (List.nodup_cons.mp (by simpa using hnd)).1
    unfold Cloud.assignFeatureData
    by_cases hgn : g.1 = name
    · simp only [hgn, beq_self_eq_true, if_true]
      have hnone : gs.filter (fun f => f.1 == name) = [] := by
        rw [List.filter_eq_nil_iff]
        intro f hf hfn
        apply hg
        rw [hgn, ← (beq_iff_eq.mp hfn)]
        exact List.mem_map_of_mem Prod.fst hf
      simp [List.filter_cons, hnone]
    · have hb : (g.1 == name) = false := by simpa using hgn
      have hmem' : name ∈ gs.map Prod.fst := by
        rw [List.map_cons] at hmem
        rcases List.mem_cons.mp hmem with h | h
        · exact absurd h.symm hgn
        · exact h
      simp only [hb, Bool.false_eq_true, if_false]
      rw [List.filter_cons_of_neg (by simp [hgn])]
      exact ih hnd' hmem'

theorem assignFeatureData_find? (name : FeatureName) (data : FeatureData) :
    ∀ (fs : List Feature), name ∈ fs.map Prod.fst →
      (Cloud.assignFeatureData name data fs).find? (fun f => f.1 == name) = some (name, data) := by
  intro fs
  induction fs with
  | nil => intro h; simp at h
  | cons g gs ih =>
    intro hmem
    unfold Cloud.assignFeatureData
    by_cases hgn : g.1 = name
    · simp [hgn]
    · have hb : (g.1 == name) = false := by simpa using hgn
      have hmem' : name ∈ gs.map Prod.fst := by
        rw [List.map_cons] at hmem
        rcases List.mem_cons.mp hmem with h | h
        · exact absurd h.symm hgn
        · exact h
      simp only [hb, Bool.false_eq_true, if_false]
      rw [List.find?_cons_of_neg _ (by simp [hgn])]
      exact ih hmem'

/-- C4: in a cloud with pairwise distinct feature names, `addFeature(data, name)`
for a name already present keeps the number of features and the sequence of
names, leaves exactly one entry named `name`, which holds `data` and is the one
`getFeatureData` finds, and at every position the entry is `(name, data)` if it
bore that name and is unchanged otherwise. -/
theorem addFeature_overwrite (c : Cloud) (data : FeatureData) (name : FeatureName)
    (v : ViewportIdx) (hnodup : (c.mFeatures.map Prod.fst).Nodup)
    (hhas : c.hasFeature name = true) :
    (c.addFeature data name v).getNbFeatures = c.getNbFeatures ∧
    (c.addFeature data name v).mFeatures.map Prod.fst = c.mFeatures.map Prod.fst ∧
    (c.addFeature data name v).mFeatures.filter (fun f => f.1 == name) = [(name, data)] ∧
    (c.addFeature data name v).getFeatureData name = some data ∧
    ∀ (i : Nat) (f : Feature), c.mFeatures[i]? = some f →
      (c.addFeature data name v).mFeatures[i]? =
        some (if f.1 = name then (name, data) else f) := by
  have hmem := (hasFeature_iff_mem c name).mp hhas
  have hfs : (c.addFeature data name v).mFeatures =
      Cloud.assignFeatureData name data c.mFeatures := by
    rw [addFeature_mFeatures, if_pos hhas]
  refine ⟨?_, ?_, ?_, ?_, ?_⟩
  · simp [Cloud.getNbFeatures, hfs, assignFeatureData_length]
  · rw [hfs, assignFeatureData_names]
  · rw [hfs]; exact assignFeatureData_filter name data _ hnodup hmem
  · simp only [Cloud.getFeatureData, Cloud.getFeature, hfs,
      assignFeatureData_find? name data _ hmem, Option.map_some']
  · intro i f hi
    rw [hfs]
    exact assignFeatureData_getElem? name data _ hnodup i f hi

/-- Witness of C4: overwriting "y" in a cloud with the features x, y, z. -/
theorem addFeature_overwrite_witness :
    let c := ((({} : Cloud).addFeature [9, 9, 9] "x").addFeature [1, 2, 3] "y").addFeature [4] "z"
    (c.addFeature [5, 6] "y" 2).getNbFeatures = c.getNbFeatures ∧
    (c.addFeature [5, 6] "y" 2).mFeatures.map Prod.fst = c.mFeatures.map Prod.fst ∧
    (c.addFeature [5, 6] "y" 2).mFeatures.filter (fun f => f.1 == "y") = [("y", [5, 6])] ∧
    (c.addFeature [5, 6] "y" 2).getFeatureData "y" = some [5, 6] ∧
    ∀ (i : Nat) (f : Feature), c.mFeatures[i]? = some f →
      (c.addFeature [5, 6] "y" 2).mFeatures[i]? =
        some (if f.1 = "y" then ("y", [5, 6]) else f) :=
  addFeature_overwrite
    (((({} : Cloud).addFeature [9, 9, 9] "x").addFeature [1, 2, 3] "y").addFeature [4] "z")
    [5, 6] "y" 2 (by decide) (by decide)

/-- C5: when one of the three names is not a feature of the cloud, `addSpace`
returns the cloud as it was: spaces, features, viewport, size, opacity and
colour are all unchanged. -/
theorem addSpace_missing_feature (cloud : Cloud) (a b c : FeatureName)
    (h : cloud.hasFeature a = false ∨ cloud.hasFeature b = false ∨ cloud.hasFeature c = false) :
    cloud.addSpace a b c = some cloud := by
  unfold Cloud.addSpace
  rcases h with h | h | h
  · simp [h]
  · by_cases ha : cloud.hasFeature a = true <;> simp [ha, h]
  · by_cases ha : cloud.hasFeature a = true <;>
      by_cases hb : cloud.hasFeature b = true <;> simp [ha, hb, h]

/-- Witness of C5: a cloud with the features x and y and no feature w. -/
theorem addSpace_missing_feature_witness :
    ((({} : Cloud).addFeature [0, 1] "x").addFeature [0, 1] "y").addSpace "x" "y" "w" =
      some ((({} : Cloud).addFeature [0, 1] "x").addFeature [0, 1] "y") :=
  addSpace_missing_feature ((({} : Cloud).addFeature [0, 1] "x").addFeature [0, 1] "y")
    "x" "y" "w" (by decide)

/-- C8 (the code at the failing input): a cloud moved to viewport 1 and then sent
to viewport 0, by `setViewport(0)` or by `addFeature` with viewport 0, stays in
viewport 1, because `setViewport` tests `viewport > 0`. -/
theorem setViewport_zero_ignored :
    ((({} : Cloud).setViewport 1).setViewport 0).mViewport = 1 ∧
    ((({} : Cloud).setViewport 1).addFeature [] "x" 0).mViewport = 1 := by
  decide


/-! ## Labels: lemmas -/

theorem labelComponent_length (n : Nat) (L : Int) (g : List Int) :
    ∀ ls : FeatureData, (Cloud.labelComponent n L ls g).length = ls.length := by
  induction g with
  | nil => intro ls; rfl
  | cons j g ih =>
    intro ls
    simp only [Cloud.labelComponent, List.foldl_cons] at ih ⊢
    rw [ih]
    split <;> simp

theorem labelComponent_getElem? (n : Nat) (L : Int) (g : List Int) :
    ∀ (ls : FeatureData) (i : Nat),
      (Cloud.labelComponent n L ls g)[i]? =
        if (i : Int) ∈ g ∧ i < n ∧ i < ls.length then some (L : ℚ) else ls[i]? := by
  induction g with
  | nil => intro ls i; simp [Cloud.labelComponent]
  | cons j g ih =>
    intro ls i
    simp only [Cloud.labelComponent, List.foldl_cons] at ih ⊢
    rw [ih]
    by_cases hj : 0 ≤ j ∧ j < (n : Int)
    · rw [if_pos hj]
      simp only [List.length_set, List.mem_cons, List.getElem?_set]
      by_cases hji : (i : Int) = j
      · have h1 : j.toNat = i := by omega
        by_cases hlen : i < ls.length
        · have hn : i < n := by omega
          simp [hji, h1, hlen, hn]
        · have h2 : ls[i]? = none := List.getElem?_eq_none (by omega)
          simp [h1, hlen, h2]
      · have h1 : ¬ j.toNat = i := by omega
        simp [hji, h1]
    · rw [if_neg hj]
      by_cases hji : (i : Int) = j
      · have hn : ¬ i < n := by omega
        simp [hn]
      · simp [hji]

theorem labelComponents_length (n : Nat) (groups : List (List Int)) :
    ∀ (L : Int) (ls : FeatureData), (Cloud.labelComponents n L ls groups).length = ls.length := by
  induction groups with
  | nil => intro L ls; rfl
  | cons g rest ih =>
    intro L ls
    simp only [Cloud.labelComponents]
    rw [ih, labelComponent_length]

/-- A position that occurs in no component keeps its initial label. -/
theorem labelComponents_getElem?_of_not_mem (n : Nat) (i : Nat) (groups : List (List Int)) :
    ∀ (L : Int) (ls : FeatureData), (∀ g ∈ groups, (i : Int) ∉ g) →
      (Cloud.labelComponents n L ls groups)[i]? = ls[i]? := by
  induction groups with
  | nil => intro L ls _; rfl
  | cons g rest ih =>
    intro L ls h
    simp only [Cloud.labelComponents]
    rw [ih (L + 1) _ (fun g1 hg1 => h g1 (List.mem_cons_of_mem _ hg1)), labelComponent_getElem?]
    have : (i : Int) ∉ g := h g (List.mem_cons_self _ _)
    simp [this]

/-- A position receives the label of the last component in which it occurs. -/
theorem labelComponents_getElem?_of_last (n : Nat) (i : Nat) (hi : i < n)
    (groups : List (List Int)) :
    ∀ (L : Int) (ls : FeatureData) (k : Nat) (g : List Int), i < ls.length →
      groups[k]? = some g → (i : Int) ∈ g →
      (∀ (k1 : Nat) (g1 : List Int), k < k1 → groups[k1]? = some g1 → (i : Int) ∉ g1) →
      (Cloud.labelComponents n L ls groups)[i]? = some (((L + (k : Int) : Int)) : ℚ) := by
  induction groups with
  | nil => intro L ls k g _ hk; simp at hk
  | cons g0 rest ih =>
    intro L ls k g hlen hk hmem hlast
    simp only [Cloud.labelComponents]
    cases k with
    | zero =>
      simp at hk
      subst hk
      rw [labelComponents_getElem?_of_not_mem, labelComponent_getElem?]
      · simp [hmem, hi, hlen]
      · intro g1 hg1
        obtain ⟨k1, hk1⟩ := List.mem_iff_getElem?.mp hg1
        exact hlast (k1 + 1) g1 (by omega) (by simpa using hk1)
    | succ k0 =>
      simp at hk
      have := ih (L + 1) (Cloud.labelComponent n L ls g0) k0 g
        (by rw [labelComponent_length]; exact hlen) hk hmem
        (fun k1 g1 hlt hg1 => hlast (k1 + 1) g1 (by omega) (by simpa using hg1))
      rw [this]
      congr 2
      push_cast
      ring

/-- Indices out of range can be removed from a component beforehand. -/
theorem labelComponent_filter (n : Nat) (L : Int) (g : List Int) :
    ∀ ls : FeatureData,
      Cloud.labelComponent n L ls g =
        Cloud.labelComponent n L ls (g.filter (fun i => decide (0 ≤ i ∧ i < (n : Int)))) := by
  induction g with
  | nil => intro ls; rfl
  | cons j g ih =>
    intro ls
    by_cases hj : 0 ≤ j ∧ j < (n : Int)
    · rw [List.filter_cons_of_pos (by simpa using hj)]
      simp only [Cloud.labelComponent, List.foldl_cons] at ih ⊢
      rw [if_pos hj, ih]
    · rw [List.filter_cons_of_neg (by simpa using hj)]
      simp only [Cloud.labelComponent, List.foldl_cons] at ih ⊢
      rw [if_neg hj, ih]

theorem labelComponents_filter (n : Nat) (groups : List (List Int)) :
    ∀ (L : Int) (ls : FeatureData),
      Cloud.labelComponents n L ls groups =
        Cloud.labelComponents n L ls
          (groups.map (fun g => g.filter (fun i => decide (0 ≤ i ∧ i < (n : Int))))) := by
  induction groups with
  | nil => intro L ls; rfl
  | cons g rest ih =>
    intro L ls
    simp only [Cloud.labelComponents, List.map_cons]
    rw [← labelComponent_filter, ih]

theorem getFeatureData_addFeature (c : Cloud) (data : FeatureData) (name : FeatureName)
    (v : ViewportIdx) : (c.addFeature data name v).getFeatureData name = some data := by
  simp only [Cloud.getFeatureData, Cloud.getFeature, addFeature_mFeatures]
  by_cases hh : c.hasFeature name = true
  · rw [if_pos hh, assignFeatureData_find? name data _ ((hasFeature_iff_mem c name).mp hh)]
    rfl
  · rw [if_neg hh]
    have hnone : c.mFeatures.find? (fun f => f.1 == name) = none := by
      unfold Cloud.hasFeature Cloud.getFeature at hh
      exact Option.not_isSome_iff_eq_none.mp hh
    simp [List.find?_append, hnone]

/-- C6: on a cloud with `n > 0` points and pairwise disjoint groups,
`addLabelsFeature(groups, name)` sets the feature `name` to a sequence of length
`n` whose value at `i` is `k` when `i` belongs to group `k` and `-1` when `i`
belongs to no group. (Indices outside `[0, n)` play no part at the positions
`i < n`, so the groups need not be assumed in range.) -/
theorem addLabelsFeature_labels (c : Cloud) (groups : List (List Int)) (name : FeatureName)
    (v : ViewportIdx) (hn : 0 < c.getNbPoints)
    (hdisj : ∀ (k1 k2 : Nat) (g1 g2 : List Int), groups[k1]? = some g1 →
      groups[k2]? = some g2 → k1 ≠ k2 → ∀ j ∈ g1, j ∉ g2) :
    ∃ labels : FeatureData,
      (c.addLabelsFeature groups name v).getFeatureData name = some labels ∧
      labels.length = c.getNbPoints ∧
      ∀ i : Nat, i < c.getNbPoints →
        (∀ (k : Nat) (g : List Int), groups[k]? = some g → (i : Int) ∈ g →
          labels[i]? = some (k : ℚ)) ∧
        ((∀ g ∈ groups, (i : Int) ∉ g) → labels[i]? = some (-1)) := by
  refine ⟨Cloud.computeLabels c.getNbPoints groups, ?_, ?_, ?_⟩
  · unfold Cloud.addLabelsFeature
    simp only [Nat.le_zero_eq, Nat.ne_of_gt hn, if_false]
    exact getFeatureData_addFeature _ _ _ _
  · simp [Cloud.computeLabels, labelComponents_length]
  · intro i hi
    constructor
    · intro k g hk hmem
      have := labelComponents_getElem?_of_last c.getNbPoints i hi groups 0
        (List.replicate c.getNbPoints (-1)) k g (by simpa using hi) hk hmem
        (fun k1 g1 hlt hg1 hmem1 => hdisj k k1 g g1 hk hg1 (by omega) _ hmem hmem1)
      simpa [Cloud.computeLabels] using this
    · intro hnot
      unfold Cloud.computeLabels
      rw [labelComponents_getElem?_of_not_mem _ _ _ _ _ hnot]
      simp [hi]

/-- Witness of C6: the groups `[[0,2],[1]]` on a cloud of 3 points. -/
theorem addLabelsFeature_labels_witness :
    (∃ labels : FeatureData,
      ((({} : Cloud).addFeature [7, 8, 9] "x").addLabelsFeature [[0, 2], [1]] "labels"
        (-1)).getFeatureData "labels" = some labels ∧
      labels.length = (({} : Cloud).addFeature [7, 8, 9] "x").getNbPoints ∧
      ∀ i : Nat, i < (({} : Cloud).addFeature [7, 8, 9] "x").getNbPoints →
        (∀ (k : Nat) (g : List Int), [[0, 2], [1]][k]? = some g → (i : Int) ∈ g →
          labels[i]? = some (k : ℚ)) ∧
        ((∀ g ∈ [[0, 2], [1]], (i : Int) ∉ g) → labels[i]? = some (-1))) ∧
    ((({} : Cloud).addFeature [7, 8, 9] "x").addLabelsFeature [[0, 2], [1]]
        "labels").getFeatureData "labels" = some [0, 1, 0] :=
  ⟨addLabelsFeature_labels (({} : Cloud).addFeature [7, 8, 9] "x") [[0, 2], [1]] "labels" (-1)
    (by decide)
    (by
      intro k1 k2 g1 g2 h1 h2 hne j hj1 hj2
      match k1, k2 with
      | 0, 0 => exact hne rfl
      | 0, 1 => simp at h1 h2; subst h1 h2; simp at hj1 hj2; omega
      | 1, 0 => simp at h1 h2; subst h1 h2; simp at hj1 hj2; omega
      | 1, 1 => exact hne rfl
      | 0, k + 2 => simp at h2
      | 1, k + 2 => simp at h2
      | k + 2, _ => simp at h1),
    by decide!⟩

/-- C7: `addLabelsFeature(groups, name)` does exactly what it does for the same
groups with every index outside `[0, n)` removed, `n` being the point count and
the groups keeping their positions: an index out of range is skipped, changes no
label and does not stop the processing of the other indices and groups. -/
theorem addLabelsFeature_out_of_range (c : Cloud) (groups : List (List Int))
    (name : FeatureName) (v : ViewportIdx) :
    c.addLabelsFeature groups name v =
        c.addLabelsFeature
          (groups.map (fun g => g.filter (fun i => decide (0 ≤ i ∧ i < (c.getNbPoints : Int)))))
          name v ∧
    Cloud.computeLabels c.getNbPoints groups =
        Cloud.computeLabels c.getNbPoints
          (groups.map
            (fun g => g.filter (fun i => decide (0 ≤ i ∧ i < (c.getNbPoints : Int))))) := by
  have h := labelComponents_filter c.getNbPoints groups 0 (List.replicate c.getNbPoints (-1))
  refine ⟨?_, h⟩
  unfold Cloud.addLabelsFeature Cloud.computeLabels
  simp only []
  rw [← h]


/-! ## Spaces: lemmas -/

/-! ### Rounding to `float` -/

theorem log2Loop_spec : ∀ (fuel n : Nat), n ≤ fuel → 1 ≤ n →
    2 ^ log2Loop fuel n ≤ n ∧ n < 2 ^ (log2Loop fuel n + 1)
  | 0, n, h, h1 => by omega
  | fuel + 1, n, h, h1 => by
    unfold log2Loop
    by_cases h2 : 2 ≤ n
    · rw [if_pos h2]
      obtain ⟨ih1, ih2⟩ := log2Loop_spec fuel (n / 2) (by omega) (by omega)
      rw [pow_succ, pow_succ]
      constructor <;> omega
    · rw [if_neg h2]
      constructor <;> simp <;> omega

theorem log2Nat_spec (n : Nat) (h : 1 ≤ n) :
    2 ^ log2Nat n ≤ n ∧ n < 2 ^ (log2Nat n + 1) :=
  log2Loop_spec n n (le_refl _) h

theorem floorLog2_le (q : ℚ) (hq : q ≠ 0) : (2 : ℚ) ^ floorLog2 q ≤ |q| := by
  unfold floorLog2
  split
  · assumption
  · have hn : 1 ≤ q.num.natAbs := Nat.one_le_iff_ne_zero.mpr (by simpa using hq)
    have hd : 1 ≤ q.den := q.den_pos
    obtain ⟨hn1, -⟩ := log2Nat_spec _ hn
    obtain ⟨-, hd2⟩ := log2Nat_spec _ hd
    have habs : |q| = (q.num.natAbs : ℚ) / (q.den : ℚ) := by
      conv_lhs => rw [← Rat.num_div_den q]
      rw [abs_div, Nat.abs_cast, Nat.cast_natAbs, Int.cast_abs]
    rw [habs, le_div_iff₀ (by exact_mod_cast hd)]
    have h1 : ((2 : ℚ) ^ log2Nat q.num.natAbs) ≤ (q.num.natAbs : ℚ) := by exact_mod_cast hn1
    have h2 : (q.den : ℚ) ≤ (2 : ℚ) ^ (log2Nat q.den + 1) := by exact_mod_cast le_of_lt hd2
    calc (2 : ℚ) ^ ((log2Nat q.num.natAbs : Int) - (log2Nat q.den : Int) - 1) * (q.den : ℚ)
        ≤ (2 : ℚ) ^ ((log2Nat q.num.natAbs : Int) - (log2Nat q.den : Int) - 1) *
            (2 : ℚ) ^ (log2Nat q.den + 1) := by
          apply mul_le_mul_of_nonneg_left h2
          positivity
      _ = (2 : ℚ) ^ log2Nat q.num.natAbs := by
          rw [← zpow_natCast, ← zpow_natCast, ← zpow_add₀ (by norm_num)]
          congr 1
          push_cast
          ring
      _ ≤ (q.num.natAbs : ℚ) := h1

theorem floor_le_roundHalfEven (m : ℚ) : ⌊m⌋ ≤ roundHalfEven m := by
  unfold roundHalfEven
  split
  · exact le_refl _
  · split
    · omega
    · split <;> omega

theorem roundHalfEven_le_floor_add_one (m : ℚ) : roundHalfEven m ≤ ⌊m⌋ + 1 := by
  unfold roundHalfEven
  split
  · omega
  · split
    · omega
    · split <;> omega

theorem le_roundHalfEven (N : Int) (m : ℚ) (h : (N : ℚ) ≤ m) : N ≤ roundHalfEven m :=
  le_trans (Int.le_floor.mpr h) (floor_le_roundHalfEven m)

theorem roundHalfEven_le (N : Int) (m : ℚ) (h : m ≤ (N : ℚ)) : roundHalfEven m ≤ N := by
  rcases eq_or_lt_of_le h with he | hlt
  · have hf : ⌊m⌋ = N := by rw [he]; exact Int.floor_intCast N
    unfold roundHalfEven
    rw [hf, he]
    simp
  · have hf : ⌊m⌋ < N := Int.floor_lt.mpr hlt
    have := roundHalfEven_le_floor_add_one m
    omega

theorem roundFloat_zero : roundFloat 0 = 0 := by simp [roundFloat]

theorem roundFloat_nonneg (q : ℚ) (h : 0 ≤ q) : 0 ≤ roundFloat q := by
  unfold roundFloat
  split
  · exact le_refl _
  · apply mul_nonneg
    · have : (0 : Int) ≤ roundHalfEven (q / 2 ^ (max (floorLog2 q) (-126) - 23)) :=
        le_roundHalfEven 0 _ (by simpa using div_nonneg h (by positivity))
      exact_mod_cast this
    · positivity

/-- The exponent used for a number of magnitude at least `2 ^ k`: a power of two
`2 ^ j` between `2 ^ k` and the magnitude that is a multiple of the spacing. -/
theorem exists_exponent (k : Int) (hk : -149 ≤ k) (q : ℚ) (hq : q ≠ 0)
    (h : (2 : ℚ) ^ k ≤ |q|) :
    ∃ j : Int, max (floorLog2 q) (-126) - 23 ≤ j ∧ (2 : ℚ) ^ j ≤ |q| ∧ (2 : ℚ) ^ k ≤ (2 : ℚ) ^ j := by
  by_cases hc : max (floorLog2 q) (-126) - 23 ≤ k
  · exact ⟨k, hc, h, le_refl _⟩
  · have hlt : k < max (floorLog2 q) (-126) - 23 := not_le.mp hc
    have he : max (floorLog2 q) (-126) = floorLog2 q := by
      apply max_eq_left
      by_contra hcon
      have : max (floorLog2 q) (-126) = -126 := max_eq_right (by omega)
      omega
    refine ⟨floorLog2 q, by omega, floorLog2_le q hq, ?_⟩
    apply zpow_le_zpow_right₀ (by norm_num)
    omega

theorem le_roundFloat (k : Int) (hk : -149 ≤ k) (q : ℚ) (h : (2 : ℚ) ^ k ≤ q) :
    (2 : ℚ) ^ k ≤ roundFloat q := by
  have hq0 : 0 < q := lt_of_lt_of_le (by positivity) h
  have hqne : q ≠ 0 := ne_of_gt hq0
  obtain ⟨j, hj1, hj2, hj3⟩ := exists_exponent k hk q hqne (by rwa [abs_of_pos hq0])
  rw [abs_of_pos hq0] at hj2
  unfold roundFloat
  rw [if_neg hqne]
  generalize max (floorLog2 q) (-126) - 23 = e at hj1
  have hu : (0 : ℚ) < 2 ^ e := by positivity
  obtain ⟨n, hn⟩ : ∃ n : Nat, j - e = (n : Int) := ⟨(j - e).toNat, (Int.toNat_of_nonneg (by omega)).symm⟩
  have hN : (((2 ^ n : Nat) : Int) : ℚ) * 2 ^ e = 2 ^ j := by
    push_cast
    rw [← zpow_natCast, ← hn, ← zpow_add₀ (by norm_num)]
    congr 1
    ring
  have hle : (((2 ^ n : Nat) : Int) : ℚ) ≤ q / 2 ^ e := by
    rw [le_div_iff₀ hu, hN]
    exact hj2
  have hr := le_roundHalfEven _ _ hle
  calc (2 : ℚ) ^ k ≤ 2 ^ j := hj3
    _ = (((2 ^ n : Nat) : Int) : ℚ) * 2 ^ e := hN.symm
    _ ≤ (roundHalfEven (q / 2 ^ e) : ℚ) * 2 ^ e := by
        apply mul_le_mul_of_nonneg_right _ (le_of_lt hu)
        exact_mod_cast hr

theorem roundFloat_le_neg (k : Int) (hk : -149 ≤ k) (q : ℚ) (h : q ≤ -(2 : ℚ) ^ k) :
    roundFloat q ≤ -(2 : ℚ) ^ k := by
  have hq0 : q < 0 := lt_of_le_of_lt h (by simp; positivity)
  have hqne : q ≠ 0 := ne_of_lt hq0
  obtain ⟨j, hj1, hj2, hj3⟩ := exists_exponent k hk q hqne
    (by rw [abs_of_neg hq0]; linarith)
  rw [abs_of_neg hq0] at hj2
  unfold roundFloat
  rw [if_neg hqne]
  generalize max (floorLog2 q) (-126) - 23 = e at hj1
  have hu : (0 : ℚ) < 2 ^ e := by positivity
  obtain ⟨n, hn⟩ : ∃ n : Nat, j - e = (n : Int) := ⟨(j - e).toNat, (Int.toNat_of_nonneg (by omega)).symm⟩
  have hN : (((2 ^ n : Nat) : Int) : ℚ) * 2 ^ e = 2 ^ j := by
    push_cast
    rw [← zpow_natCast, ← hn, ← zpow_add₀ (by norm_num)]
    congr 1
    ring
  have hle : q / 2 ^ e ≤ ((-((2 ^ n : Nat) : Int) : Int) : ℚ) := by
    rw [div_le_iff₀ hu]
    push_cast
    have : -((2 : ℚ) ^ n) * 2 ^ e = -(2 ^ j) := by
      rw [neg_mul]
      congr 1
      exact_mod_cast hN
    rw [this]
    linarith
  have hr := roundHalfEven_le _ _ hle
  have hr' : (roundHalfEven (q / 2 ^ e) : ℚ) ≤ -(((2 ^ n : Nat) : Int) : ℚ) := by exact_mod_cast hr
  calc (roundHalfEven (q / 2 ^ e) : ℚ) * 2 ^ e
      ≤ -(((2 ^ n : Nat) : Int) : ℚ) * 2 ^ e := mul_le_mul_of_nonneg_right hr' (le_of_lt hu)
    _ = -(2 ^ j) := by rw [neg_mul, hN]
    _ ≤ -(2 : ℚ) ^ k := by linarith

theorem maxFloat_pos : 0 < maxFloat := by
  unfold maxFloat
  norm_num

theorem toFloat_cases (q : ℚ) :
    toFloat q = ⊤ ∨ toFloat q = ((roundFloat q : ℚ) : WithTop ℚ) := by
  unfold toFloat
  split
  · exact Or.inl rfl
  · exact Or.inr rfl

theorem toFloat_zero : toFloat 0 = 0 := by
  unfold toFloat
  rw [roundFloat_zero, if_neg (not_lt.mpr (le_of_lt maxFloat_pos))]
  rfl

/-- A `float` result is at least the power of two that its exact value reaches. -/
theorem le_toFloat (k : Int) (hk : -149 ≤ k) (q : ℚ) (h : (2 : ℚ) ^ k ≤ q) :
    (((2 : ℚ) ^ k : ℚ) : WithTop ℚ) ≤ toFloat q := by
  rcases toFloat_cases q with h1 | h1
  · rw [h1]
    exact le_top
  · rw [h1]
    exact WithTop.coe_le_coe.mpr (le_roundFloat k hk q h)

theorem toFloat_nonneg (q : ℚ) (h : 0 ≤ q) : 0 ≤ toFloat q := by
  rcases toFloat_cases q with h1 | h1
  · rw [h1]
    exact le_top
  · rw [h1]
    exact WithTop.coe_le_coe.mpr (roundFloat_nonneg q h)

/-- The result of one pass of the distance loop: infinite, or the rounded sum of
the finite result so far and the rounded square of the rounded difference. -/
theorem accumulate_cases (result : WithTop ℚ) (a b : ℚ) :
    accumulate result a b = ⊤ ∨
      ∃ r : ℚ, result = (r : WithTop ℚ) ∧
        accumulate result a b =
          toFloat (r + roundFloat (roundFloat (a - b) * roundFloat (a - b))) := by
  unfold accumulate
  split
  · exact Or.inl rfl
  · rcases toFloat_cases (roundFloat (a - b) * roundFloat (a - b)) with h1 | h1
    · left
      rw [h1]
      cases result <;> rfl
    · induction result using WithTop.recTopCoe with
      | top => exact Or.inl rfl
      | coe r =>
        right
        refine ⟨r, rfl, ?_⟩
        rw [h1]

theorem accumulate_self (a : ℚ) : accumulate 0 a a = 0 := by
  unfold accumulate
  have h0 : roundFloat (a - a) = 0 := by rw [sub_self, roundFloat_zero]
  rw [h0, abs_zero, if_neg (not_lt.mpr (le_of_lt maxFloat_pos)), mul_zero, toFloat_zero]
  show toFloat (0 + 0) = 0
  rw [add_zero, toFloat_zero]

theorem sq_roundFloat_nonneg (a b : ℚ) :
    0 ≤ roundFloat (roundFloat (a - b) * roundFloat (a - b)) :=
  roundFloat_nonneg _ (mul_self_nonneg _)

theorem accumulate_nonneg (result : WithTop ℚ) (a b : ℚ) (h : 0 ≤ result) :
    0 ≤ accumulate result a b := by
  rcases accumulate_cases result a b with h1 | ⟨r, hr, h1⟩
  · rw [h1]
    exact le_top
  · rw [h1]
    apply toFloat_nonneg
    rw [hr] at h
    have hr0 : 0 ≤ r := WithTop.coe_le_coe.mp h
    exact add_nonneg hr0 (sq_roundFloat_nonneg a b)

/-- The result so far is kept, up to a power of two, by a further pass. -/
theorem accumulate_ge (k : Int) (hk : -149 ≤ k) (result : WithTop ℚ) (a b : ℚ)
    (h : (((2 : ℚ) ^ k : ℚ) : WithTop ℚ) ≤ result) :
    (((2 : ℚ) ^ k : ℚ) : WithTop ℚ) ≤ accumulate result a b := by
  rcases accumulate_cases result a b with h1 | ⟨r, hr, h1⟩
  · rw [h1]
    exact le_top
  · rw [h1]
    apply le_toFloat k hk
    rw [hr] at h
    have hr0 : (2 : ℚ) ^ k ≤ r := WithTop.coe_le_coe.mp h
    linarith [sq_roundFloat_nonneg a b]

/-- A pass over two coordinates at least `2 ^ (-74)` apart gives at least
`2 ^ (-148)`. -/
theorem accumulate_ge_of_apart (result : WithTop ℚ) (a b : ℚ) (h : 0 ≤ result)
    (hab : (2 : ℚ) ^ (-74 : Int) ≤ |a - b|) :
    (((2 : ℚ) ^ (-148 : Int) : ℚ) : WithTop ℚ) ≤ accumulate result a b := by
  rcases accumulate_cases result a b with h1 | ⟨r, hr, h1⟩
  · rw [h1]
    exact le_top
  · rw [h1]
    apply le_toFloat (-148) (by decide)
    rw [hr] at h
    have hr0 : 0 ≤ r := WithTop.coe_le_coe.mp h
    have hsq : (2 : ℚ) ^ (-148 : Int) ≤ roundFloat (a - b) * roundFloat (a - b) := by
      have e : (2 : ℚ) ^ (-148 : Int) = 2 ^ (-74 : Int) * 2 ^ (-74 : Int) := by
        rw [← zpow_add₀ (by norm_num)]
        rfl
      have hp : (0 : ℚ) ≤ 2 ^ (-74 : Int) := by positivity
      rw [e]
      rcases le_abs.mp hab with h2 | h2
      · have := le_roundFloat (-74) (by decide) _ h2
        exact mul_le_mul this this hp (le_trans hp this)
      · have := roundFloat_le_neg (-74) (by decide) (a - b) (by linarith)
        nlinarith
    have := le_roundFloat (-148) (by decide) _ hsq
    linarith

theorem sqDist_nonneg (p q : Point3) : 0 ≤ sqDist p q := by
  unfold sqDist
  exact accumulate_nonneg _ _ _ (accumulate_nonneg _ _ _ (accumulate_nonneg _ _ _ (le_refl _)))

theorem sqDist_self (p : Point3) : sqDist p p = 0 := by
  unfold sqDist
  rw [accumulate_self, accumulate_self, accumulate_self]

/-- Two rows at least `2 ^ (-74)` apart in some coordinate are at a positive
distance. -/
theorem sqDist_pos_of_apart (p q : Point3)
    (h : (2 : ℚ) ^ (-74 : Int) ≤ |p.1 - q.1| ∨ (2 : ℚ) ^ (-74 : Int) ≤ |p.2.1 - q.2.1| ∨
      (2 : ℚ) ^ (-74 : Int) ≤ |p.2.2 - q.2.2|) :
    0 < sqDist p q := by
  have hpos : (0 : WithTop ℚ) < (((2 : ℚ) ^ (-148 : Int) : ℚ) : WithTop ℚ) :=
    WithTop.coe_lt_coe.mpr (by positivity)
  apply lt_of_lt_of_le hpos
  unfold sqDist
  rcases h with h | h | h
  · exact accumulate_ge _ (by decide) _ _ _ (accumulate_ge _ (by decide) _ _ _
      (accumulate_ge_of_apart _ _ _ (le_refl _) (by rwa [abs_sub_comm])))
  · exact accumulate_ge _ (by decide) _ _ _
      (accumulate_ge_of_apart _ _ _ (accumulate_nonneg _ _ _ (le_refl _))
        (by rwa [abs_sub_comm]))
  · exact accumulate_ge_of_apart _ _ _
      (accumulate_nonneg _ _ _ (accumulate_nonneg _ _ _ (le_refl _))) (by rwa [abs_sub_comm])

theorem eps_pos : (0 : WithTop ℚ) < ((eps : ℚ) : WithTop ℚ) := by
  apply WithTop.coe_lt_coe.mpr
  have h : (2 : ℚ) ^ (-40 : Int) ≤ roundFloat (1 / 10 ^ 10) :=
    le_roundFloat (-40) (by decide) _ (by norm_num)
  unfold eps
  exact lt_of_lt_of_le (by positivity) h

/-- The scan keeps a nearest row: started with a nearest row of the rows already
seen, it ends with a nearest row of all rows. -/
theorem nearestFrom_some (query : Point3) (ps : List Point3) :
    ∀ (pre : List Point3) (best : Nat × WithTop ℚ), IsNearest pre query best →
      ∃ r, nearestFrom query pre.length ps (some best) = some r ∧
        IsNearest (pre ++ ps) query r := by
  induction ps with
  | nil =>
    intro pre best h
    exact ⟨best, by simp [nearestFrom], by simpa using h⟩
  | cons p ps ih =>
    intro pre best h
    obtain ⟨j, d⟩ := best
    obtain ⟨⟨p0, hp0, hd⟩, hmin⟩ := h
    simp only at hp0 hd hmin
    have hj : j < pre.length := by
      by_contra hcon
      rw [List.getElem?_eq_none (by omega)] at hp0
      exact Option.noConfusion hp0
    unfold nearestFrom
    by_cases hlt : sqDist p query < d
    · rw [if_pos hlt]
      have hnear : IsNearest (pre ++ [p]) query (pre.length, sqDist p query) := by
        refine ⟨⟨p, by simp, rfl⟩, ?_⟩
        intro x hx
        rcases List.mem_append.mp hx with hx | hx
        · exact le_of_lt (lt_of_lt_of_le hlt (hmin x hx))
        · simp at hx
          rw [hx]
      obtain ⟨r, hr, hnr⟩ := ih (pre ++ [p]) _ hnear
      refine ⟨r, ?_, by simpa using hnr⟩
      simpa using hr
    · rw [if_neg hlt]
      have hnear : IsNearest (pre ++ [p]) query (j, d) := by
        refine ⟨⟨p0, ?_, hd⟩, ?_⟩
        · simp only
          rw [List.getElem?_append_left hj]
          exact hp0
        · intro x hx
          rcases List.mem_append.mp hx with hx | hx
          · exact hmin x hx
          · simp at hx
            rw [hx]
            exact not_lt.mp hlt
      obtain ⟨r, hr, hnr⟩ := ih (pre ++ [p]) _ hnear
      refine ⟨r, ?_, by simpa using hnr⟩
      simpa using hr

/-- On an index with at least one row the search finds a nearest row. -/
theorem knnSearch_isNearest (tree : List Point3) (query : Point3) (h : tree ≠ []) :
    ∃ r, knnSearch tree query = some r ∧ IsNearest tree query r := by
  cases tree with
  | nil => exact absurd rfl h
  | cons p ps =>
    have hnear : IsNearest [p] query (0, sqDist p query) := by
      refine ⟨⟨p, by simp, rfl⟩, ?_⟩
      intro x hx
      simp at hx
      rw [hx]
    obtain ⟨r, hr, hnr⟩ := nearestFrom_some query ps [p] _ hnear
    refine ⟨r, ?_, by simpa using hnr⟩
    unfold knnSearch nearestFrom
    simpa using hr

theorem knnSearch_nil (query : Point3) : knnSearch [] query = none := rfl

/-- The packing loop succeeds when the three features hold at least `n` values,
and then row `k` is the triple of the values at `k`. -/
theorem packLoop_spec (va vb vc : FeatureData) :
    ∀ n : Nat, n ≤ va.length → n ≤ vb.length → n ≤ vc.length →
      ∃ data, packLoop va vb vc n = some data ∧ data.length = n ∧
        ∀ k : Nat, k < n →
          ∃ x y z, va[k]? = some x ∧ vb[k]? = some y ∧ vc[k]? = some z ∧
            data[k]? = some (x, y, z) := by
  intro n
  induction n with
  | zero =>
    intro _ _ _
    exact ⟨[], rfl, rfl, fun k hk => absurd hk (Nat.not_lt_zero k)⟩
  | succ n ih =>
    intro ha hb hc
    obtain ⟨data, hdata, hlen, hrows⟩ := ih (by omega) (by omega) (by omega)
    have hx : va[n]? = some (va[n]) := List.getElem?_eq_getElem (by omega)
    have hy : vb[n]? = some (vb[n]) := List.getElem?_eq_getElem (by omega)
    have hz : vc[n]? = some (vc[n]) := List.getElem?_eq_getElem (by omega)
    refine ⟨data ++ [(va[n], vb[n], vc[n])], ?_, by simp [hlen], ?_⟩
    · unfold packLoop
      rw [hdata, hx, hy, hz]
    · intro k hk
      by_cases hkn : k < n
      · obtain ⟨x, y, z, h1, h2, h3, h4⟩ := hrows k hkn
        refine ⟨x, y, z, h1, h2, h3, ?_⟩
        rw [List.getElem?_append_left (by omega)]
        exact h4
      · have hk' : k = n := by omega
        subst hk'
        refine ⟨va[k], vb[k], vc[k], hx, hy, hz, ?_⟩
        rw [List.getElem?_append_right (by omega)]
        simp [hlen]

/-- On an index with at least one row, `findPickedPointIndex` returns the index
of a nearest row when its distance is below `eps`, and `-1` otherwise. -/
theorem findPickedPointIndex_of_rows (s : Space) (a b c : ℚ) (h : s.mSearchTree ≠ []) :
    ∃ r, IsNearest s.mSearchTree (a, b, c) r ∧
      s.findPickedPointIndex a b c =
        if r.2 < ((eps : ℚ) : WithTop ℚ) then (r.1 : Int) else -1 := by
  obtain ⟨r, hr, hnr⟩ := knnSearch_isNearest s.mSearchTree (a, b, c) h
  refine ⟨r, hnr, ?_⟩
  unfold Space.findPickedPointIndex
  rw [hr]

/-- The exact-match behaviour on an index with at least one row: `-1` when no row
is within `eps` of the query, and a returned index `j >= 0` denotes a row within
`eps` of the query. -/
theorem findPickedPointIndex_exact_match (s : Space) (a b c : ℚ) (h : s.mSearchTree ≠ []) :
    ((∀ p ∈ s.mSearchTree, ¬ sqDist p (a, b, c) < ((eps : ℚ) : WithTop ℚ)) →
      s.findPickedPointIndex a b c = -1) ∧
    (∀ j : Int, s.findPickedPointIndex a b c = j → 0 ≤ j →
      ∃ p, s.mSearchTree[j.toNat]? = some p ∧
        sqDist p (a, b, c) < ((eps : ℚ) : WithTop ℚ)) := by
  obtain ⟨r, ⟨⟨p, hp, hd⟩, hmin⟩, hres⟩ := findPickedPointIndex_of_rows s a b c h
  constructor
  · intro hfar
    have hmem : p ∈ s.mSearchTree := List.mem_iff_getElem?.mpr ⟨r.1, hp⟩
    have : ¬ r.2 < ((eps : ℚ) : WithTop ℚ) := by rw [hd]; exact hfar p hmem
    rw [hres, if_neg this]
  · intro j hj hj0
    by_cases hlt : r.2 < ((eps : ℚ) : WithTop ℚ)
    · rw [hres, if_pos hlt] at hj
      refine ⟨p, ?_, by rw [← hd]; exact hlt⟩
      rw [← hj]
      simpa using hp
    · rw [hres, if_neg hlt] at hj
      omega

/-- C1 (as stated, refuted): with x = [2^(-100), 0], y = z = [0, 0] the rows are
(2^(-100), 0, 0) and (0, 0, 0). The query at the coordinates of point 1 finds
row 0 at the distance 0, since the square 2^(-200) underflows to 0 in `float`,
and returns the index 0, whose coordinates are not those of point 1. -/
theorem findPickedPointIndex_underflow :
    ((((({} : Cloud).addFeature [1 / 2 ^ 100, 0] "x").addFeature [0, 0] "y").addFeature
          [0, 0] "z").addSpace "x" "y" "z").map
        (fun c => c.mSpaces.map (fun s => (s.mSearchTree, s.findPickedPointIndex 0 0 0))) =
      some [([(1 / 2 ^ 100, 0, 0), (0, 0, 0)], 0)] ∧
    sqDist (1 / 2 ^ 100, 0, 0) (0, 0, 0) = 0 ∧
    ((1 / 2 ^ 100, 0, 0) : Point3) ≠ (0, 0, 0) := by
  decide!

/-- C1 (amended): when the features `a`, `b`, `c` of a cloud have the same length
`N > 0`, `addSpace(a, b, c)` appends a Space on which the query at the
coordinates of point `i < N` returns an index `j < N`, never `-1`, of a row whose
squared distance from point `i`, computed in `float`, is 0; `j = i`, and the
coordinates of row `j` are those of point `i`, when every other row is at least
`2 ^ (-74)` away from point `i` in some coordinate. -/
theorem findPickedPointIndex_roundtrip (cloud : Cloud) (a b c : FeatureName)
    (va vb vc : FeatureData)
    (ha : cloud.getFeatureData a = some va) (hb : cloud.getFeatureData b = some vb)
    (hc : cloud.getFeatureData c = some vc)
    (hN : 0 < va.length) (hab : vb.length = va.length) (hac : vc.length = va.length)
    (i : Nat) (x y z : ℚ)
    (hx : va[i]? = some x) (hy : vb[i]? = some y) (hz : vc[i]? = some z) :
    ∃ (cloud1 : Cloud) (s : Space) (j : Nat) (x1 y1 z1 : ℚ),
      cloud.addSpace a b c = some cloud1 ∧ cloud1.mSpaces = cloud.mSpaces ++ [s] ∧
      s.findPickedPointIndex x y z = (j : Int) ∧ j < va.length ∧
      va[j]? = some x1 ∧ vb[j]? = some y1 ∧ vc[j]? = some z1 ∧
      sqDist (x1, y1, z1) (x, y, z) = 0 ∧
      ((∀ (k : Nat) (x2 y2 z2 : ℚ), k ≠ i →
          va[k]? = some x2 → vb[k]? = some y2 → vc[k]? = some z2 →
          (2 : ℚ) ^ (-74 : Int) ≤ |x2 - x| ∨ (2 : ℚ) ^ (-74 : Int) ≤ |y2 - y| ∨
            (2 : ℚ) ^ (-74 : Int) ≤ |z2 - z|) →
        j = i ∧ (x1, y1, z1) = (x, y, z)) := by
  -- the three features are found
  obtain ⟨fa, hfa, hfa2⟩ : ∃ fa, cloud.getFeature a = some fa ∧ fa.2 = va := by
    unfold Cloud.getFeatureData at ha
    cases hg : cloud.getFeature a with
    | none => rw [hg] at ha; exact Option.noConfusion ha
    | some fa => rw [hg] at ha; exact ⟨fa, rfl, by simpa using ha⟩
  obtain ⟨fb, hfb, hfb2⟩ : ∃ fb, cloud.getFeature b = some fb ∧ fb.2 = vb := by
    unfold Cloud.getFeatureData at hb
    cases hg : cloud.getFeature b with
    | none => rw [hg] at hb; exact Option.noConfusion hb
    | some fb => rw [hg] at hb; exact ⟨fb, rfl, by simpa using hb⟩
  obtain ⟨fc, hfc, hfc2⟩ : ∃ fc, cloud.getFeature c = some fc ∧ fc.2 = vc := by
    unfold Cloud.getFeatureData at hc
    cases hg : cloud.getFeature c with
    | none => rw [hg] at hc; exact Option.noConfusion hc
    | some fc => rw [hg] at hc; exact ⟨fc, rfl, by simpa using hc⟩
  -- the rows of the index
  obtain ⟨data, hdata, hlen, hrows⟩ :=
    packLoop_spec va vb vc va.length (le_refl _) (by omega) (by omega)
  have hbuild : Space.build fa fb fc = some ⟨fa.1, fb.1, fc.1, data⟩ := by
    unfold Space.build
    simp only [hfa2, hfb2, hfc2, gt_iff_lt, hN, if_true, hdata, Option.map_some']
  have hadd : cloud.addSpace a b c =
      some { cloud with mSpaces := cloud.mSpaces ++ [⟨fa.1, fb.1, fc.1, data⟩] } := by
    unfold Cloud.addSpace
    simp [Cloud.hasFeature, hfa, hfb, hfc, hbuild]
  have hi : i < va.length := by
    by_contra hcon
    rw [List.getElem?_eq_none (by omega)] at hx
    exact Option.noConfusion hx
  have hrow_i : data[i]? = some (x, y, z) := by
    obtain ⟨x1, y1, z1, h1, h2, h3, h4⟩ := hrows i hi
    rw [hx] at h1; rw [hy] at h2; rw [hz] at h3
    cases h1; cases h2; cases h3
    exact h4
  have hne : data ≠ [] := by
    intro he
    rw [he] at hlen
    simp at hlen
    omega
  obtain ⟨r, ⟨⟨p, hp, hd⟩, hmin⟩, hres⟩ :=
    findPickedPointIndex_of_rows ⟨fa.1, fb.1, fc.1, data⟩ x y z hne
  simp only at hp hmin
  -- the nearest row is at the distance 0, as point `i` is
  have hr0 : r.2 = 0 := by
    have h1 : r.2 ≤ sqDist (x, y, z) (x, y, z) :=
      hmin (x, y, z) (List.mem_iff_getElem?.mpr ⟨i, hrow_i⟩)
    rw [sqDist_self] at h1
    have h2 : 0 ≤ r.2 := by rw [hd]; exact sqDist_nonneg _ _
    exact le_antisymm h1 h2
  have hj : r.1 < va.length := by
    by_contra hcon
    rw [List.getElem?_eq_none (by omega)] at hp
    exact Option.noConfusion hp
  obtain ⟨x1, y1, z1, h1, h2, h3, h4⟩ := hrows r.1 hj
  have hp1 : p = (x1, y1, z1) := by
    rw [hp] at h4
    exact Option.some.inj h4
  have hzero : sqDist (x1, y1, z1) (x, y, z) = 0 := by
    rw [← hp1, ← hd]
    exact hr0
  refine ⟨_, ⟨fa.1, fb.1, fc.1, data⟩, r.1, x1, y1, z1, hadd, rfl, ?_, hj, h1, h2, h3,
    hzero, ?_⟩
  · rw [hres, hr0, if_pos eps_pos]
  · intro hapart
    have hji : r.1 = i := by
      by_contra hcon
      have hpos := sqDist_pos_of_apart (x1, y1, z1) (x, y, z) (hapart r.1 x1 y1 z1 hcon h1 h2 h3)
      rw [hzero] at hpos
      exact lt_irrefl _ hpos
    refine ⟨hji, ?_⟩
    rw [hji, hx] at h1
    rw [hji, hy] at h2
    rw [hji, hz] at h3
    cases h1; cases h2; cases h3
    rfl

/-- Witness of C1 (amended): the cloud x = y = z = [0, 1, 2] and the query at
point 1, which returns 1. -/
theorem findPickedPointIndex_roundtrip_witness :
    (∃ (cloud1 : Cloud) (s : Space) (j : Nat) (x1 y1 z1 : ℚ),
      (((({} : Cloud).addFeature [0, 1, 2] "x").addFeature [0, 1, 2] "y").addFeature
          [0, 1, 2] "z").addSpace "x" "y" "z" = some cloud1 ∧
      cloud1.mSpaces =
        (((({} : Cloud).addFeature [0, 1, 2] "x").addFeature [0, 1, 2] "y").addFeature
          [0, 1, 2] "z").mSpaces ++ [s] ∧
      s.findPickedPointIndex 1 1 1 = (j : Int) ∧ j < ([0, 1, 2] : FeatureData).length ∧
      ([0, 1, 2] : FeatureData)[j]? = some x1 ∧ ([0, 1, 2] : FeatureData)[j]? = some y1 ∧
      ([0, 1, 2] : FeatureData)[j]? = some z1 ∧
      sqDist (x1, y1, z1) (1, 1, 1) = 0 ∧
      ((∀ (k : Nat) (x2 y2 z2 : ℚ), k ≠ 1 →
          ([0, 1, 2] : FeatureData)[k]? = some x2 → ([0, 1, 2] : FeatureData)[k]? = some y2 →
          ([0, 1, 2] : FeatureData)[k]? = some z2 →
          (2 : ℚ) ^ (-74 : Int) ≤ |x2 - 1| ∨ (2 : ℚ) ^ (-74 : Int) ≤ |y2 - 1| ∨
            (2 : ℚ) ^ (-74 : Int) ≤ |z2 - 1|) →
        j = 1 ∧ (x1, y1, z1) = (1, 1, 1))) ∧
    ((((({} : Cloud).addFeature [0, 1, 2] "x").addFeature [0, 1, 2] "y").addFeature
          [0, 1, 2] "z").addSpace "x" "y" "z").map
        (fun c => c.mSpaces.map (fun s => s.findPickedPointIndex 1 1 1)) = some [1] ∧
    sqDist (0, 0, 0) (1, 1, 1) = 3 ∧ sqDist (2, 2, 2) (1, 1, 1) = 3 :=
  ⟨findPickedPointIndex_roundtrip
      (((({} : Cloud).addFeature [0, 1, 2] "x").addFeature [0, 1, 2] "y").addFeature
        [0, 1, 2] "z")
      "x" "y" "z" [0, 1, 2] [0, 1, 2] [0, 1, 2] (by decide!) (by decide!) (by decide!)
      (by decide) (by decide) (by decide) 1 1 1 1 (by decide!) (by decide!) (by decide!),
    by decide!, by decide!, by decide!⟩

/-- C2 (the code at the failing input): on the Space declared over three empty
features the index has no row, the search finds nothing, the output buffers keep
their initial zeros and `0 < eps` holds, so the query (5, 5, 5) returns the index
0 and not `-1`; over x = y = z = [0, 1, 2] the same query returns `-1`. -/
theorem findPickedPointIndex_empty_index :
    ((((({} : Cloud).addFeature [] "x").addFeature [] "y").addFeature [] "z").addSpace
        "x" "y" "z").map
      (fun c => c.mSpaces.map (fun s => (s.mSearchTree, s.findPickedPointIndex 5 5 5))) =
        some [([], 0)] ∧
    ((((({} : Cloud).addFeature [0, 1, 2] "x").addFeature [0, 1, 2] "y").addFeature
          [0, 1, 2] "z").addSpace "x" "y" "z").map
        (fun c => c.mSpaces.map (fun s => s.findPickedPointIndex 5 5 5)) = some [-1] := by
  decide!


/-! ## Render preparation: lemmas -/

theorem shift_add_eq_or (R G B : Nat) (hG : G < 256) (hB : B < 256) :
    (R <<< 16) + (G <<< 8) + B = (R <<< 16) ||| (G <<< 8) ||| B := by
  have h1 : (R <<< 16) + (G <<< 8) = (R <<< 16) ||| (G <<< 8) := by
    have hlt : G <<< 8 < 2 ^ 16 := by
      rw [Nat.shiftLeft_eq]; omega
    have := Nat.mul_add_lt_is_or hlt R
    rw [Nat.shiftLeft_eq R 16, Nat.mul_comm R (2 ^ 16)]
    exact this
  have h2 : (R <<< 16) + (G <<< 8) + B = ((R <<< 16) + (G <<< 8)) ||| B := by
    have hB' : B < 2 ^ 8 := by omega
    have := Nat.mul_add_lt_is_or hB' (R * 2 ^ 8 + G)
    have e : (R <<< 16) + (G <<< 8) = 2 ^ 8 * (R * 2 ^ 8 + G) := by
      rw [Nat.shiftLeft_eq, Nat.shiftLeft_eq]; omega
    rw [e]
    exact this
  rw [h2, h1]

theorem toUInt8_of_unit (r : ℚ) (h0 : 0 ≤ r) (h1 : r ≤ 1) :
    toUInt8 (r * 255) = ⌊r * 255⌋.toNat ∧ ⌊r * 255⌋.toNat ≤ 255 := by
  have hq0 : 0 ≤ r * 255 := by positivity
  have hq1 : r * 255 ≤ 255 := by linarith
  have hf0 : 0 ≤ ⌊r * 255⌋ := Int.floor_nonneg.mpr hq0
  have hf1 : ⌊r * 255⌋ ≤ 255 := by
    have : ⌊r * 255⌋ ≤ ⌊(255 : ℚ)⌋ := Int.floor_le_floor hq1
    simpa using this
  constructor
  · unfold toUInt8 truncate
    rw [if_pos hq0]
    congr 1
    omega
  · omega

theorem getNbPoints_addFeature_replicate (c : Cloud) (q : ℚ) (name : FeatureName)
    (v : ViewportIdx) :
    (c.addFeature (List.replicate c.getNbPoints q) name v).getNbPoints = c.getNbPoints := by
  cases hfs : c.mFeatures with
  | nil =>
    have hh : c.hasFeature name = false := by
      simp [Cloud.hasFeature, Cloud.getFeature, hfs]
    have h0 : c.getNbPoints = 0 := by simp [Cloud.getNbPoints, Cloud.getNbFeatures, hfs]
    have := addFeature_mFeatures c (List.replicate c.getNbPoints q) name v
    rw [hh, hfs] at this
    rw [getNbPoints_cons _ _ _ (by simpa using this), h0]
    simp
  | cons f fs =>
    obtain ⟨fs1, h1⟩ := addFeature_head c f fs hfs (List.replicate c.getNbPoints q) name v
    rw [getNbPoints_cons _ _ _ h1]
    split
    · simp
    · exact (getNbPoints_cons c f fs hfs).symm

/-- C9: for a cloud with at least one space whose colour `(r, g, b)` has every
channel in `[0, 1]`, render preparation sets the feature "rgb" to `getNbPoints`
copies of the integer `(R << 16) | (G << 8) | B`, where `R`, `G`, `B` are the
channels times 255 truncated to integers, which lie in `0..255`; the point count
is the one before the preparation. -/
theorem prepare_rgb_feature (fmt : ℚ → String) (mName : String) (dirOk : Bool)
    (name : CloudName) (c : Cloud) (r g b : ℚ) (hs : c.mSpaces ≠ [])
    (hcol : c.mRGB = ⟨r, g, b⟩)
    (hr : 0 ≤ r ∧ r ≤ 1) (hg : 0 ≤ g ∧ g ≤ 1) (hb : 0 ≤ b ∧ b ≤ 1) :
    ⌊r * 255⌋.toNat ≤ 255 ∧ ⌊g * 255⌋.toNat ≤ 255 ∧ ⌊b * 255⌋.toNat ≤ 255 ∧
    (prepareCloudForRender fmt mName dirOk name c).1.getNbPoints = c.getNbPoints ∧
    (prepareCloudForRender fmt mName dirOk name c).1.getFeatureData "rgb" =
      some (List.replicate (prepareCloudForRender fmt mName dirOk name c).1.getNbPoints
        (((⌊r * 255⌋.toNat <<< 16) ||| (⌊g * 255⌋.toNat <<< 8) ||| ⌊b * 255⌋.toNat : Nat) : ℚ)) := by
  obtain ⟨er, hR⟩ := toUInt8_of_unit r hr.1 hr.2
  obtain ⟨eg, hG⟩ := toUInt8_of_unit g hg.1 hg.2
  obtain ⟨eb, hB⟩ := toUInt8_of_unit b hb.1 hb.2
  have hlen : ¬ (c.mSpaces.length == 0) = true := by
    simpa using hs
  have hcr : c.mRGB.r ≥ 0 := by rw [hcol]; exact hr.1
  have hprep : (prepareCloudForRender fmt mName dirOk name c).1 =
      c.addFeature (List.replicate c.getNbPoints (packedRGB c.mRGB)) "rgb" c.mViewport := by
    unfold prepareCloudForRender prepareColor
    rw [if_neg hlen, if_pos hcr]
    cases dirOk <;> rfl
  have hpack : packedRGB c.mRGB =
      (((⌊r * 255⌋.toNat <<< 16) ||| (⌊g * 255⌋.toNat <<< 8) ||| ⌊b * 255⌋.toNat : Nat) : ℚ) := by
    unfold packedRGB
    rw [hcol]
    simp only [er, eg, eb]
    rw [shift_add_eq_or _ _ _ (by omega) (by omega)]
  refine ⟨hR, hG, hB, ?_, ?_⟩
  · rw [hprep, getNbPoints_addFeature_replicate]
  · rw [hprep, getNbPoints_addFeature_replicate, getFeatureData_addFeature, hpack]

/-- Witness of C9: the colour (1, 0, 0) on the cloud x = y = z = [0, 1, 2] with
the space (x, y, z) gives 16711680 at each of the 3 points. -/
theorem prepare_rgb_feature_witness :
    (⌊(1 : ℚ) * 255⌋.toNat ≤ 255 ∧ ⌊(0 : ℚ) * 255⌋.toNat ≤ 255 ∧ ⌊(0 : ℚ) * 255⌋.toNat ≤ 255 ∧
    (prepareCloudForRender (fun _ => "0") "session" true "cloud" redCloud).1.getNbPoints =
      redCloud.getNbPoints ∧
    (prepareCloudForRender (fun _ => "0") "session" true "cloud" redCloud).1.getFeatureData
        "rgb" =
      some (List.replicate
        (prepareCloudForRender (fun _ => "0") "session" true "cloud" redCloud).1.getNbPoints
        (((⌊(1 : ℚ) * 255⌋.toNat <<< 16) ||| (⌊(0 : ℚ) * 255⌋.toNat <<< 8) |||
          ⌊(0 : ℚ) * 255⌋.toNat : Nat) : ℚ))) ∧
    ((((({} : Cloud).addFeature [0, 1, 2] "x").addFeature [0, 1, 2] "y").addFeature
        [0, 1, 2] "z").setColor 1 0 0).addSpace "x" "y" "z" = some redCloud ∧
    (prepareCloudForRender (fun _ => "0") "session" true "cloud" redCloud).1.getFeatureData
        "rgb" = some [16711680, 16711680, 16711680] :=
  ⟨prepare_rgb_feature (fun _ => "0") "session" true "cloud" redCloud
      1 0 0 (by decide) rfl (by norm_num) (by norm_num) (by norm_num),
    by decide!, by decide!⟩

theorem mem_assignFeatureData (name : FeatureName) (data : FeatureData) (f : Feature) :
    ∀ fs : List Feature, f ∈ Cloud.assignFeatureData name data fs → f ∈ fs ∨ f.2 = data := by
  intro fs
  induction fs with
  | nil => intro h; simp [Cloud.assignFeatureData] at h
  | cons g gs ih =>
    intro h
    unfold Cloud.assignFeatureData at h
    split at h
    · rcases List.mem_cons.mp h with h | h
      · right; rw [h]
      · left; exact List.mem_cons_of_mem _ h
    · rcases List.mem_cons.mp h with h | h
      · left; rw [h]; exact List.mem_cons_self _ _
      · rcases ih h with h | h
        · left; exact List.mem_cons_of_mem _ h
        · right; exact h

theorem dataLine_isSome (fmt : ℚ → String) (i : Nat) :
    ∀ fs : List Feature, (∀ f ∈ fs, i < f.2.length) → ∃ line, Cloud.dataLine fmt i fs = some line := by
  intro fs
  induction fs with
  | nil => intro _; exact ⟨"", rfl⟩
  | cons f fs ih =>
    intro h
    obtain ⟨line, hline⟩ := ih (fun g hg => h g (List.mem_cons_of_mem _ hg))
    obtain ⟨v, hv⟩ : ∃ v, f.2[i]? = some v :=
      ⟨_, List.getElem?_eq_getElem (h f (List.mem_cons_self _ _))⟩
    unfold Cloud.dataLine
    rw [hv, hline]
    exact ⟨_, rfl⟩

theorem dataLines_isSome (fmt : ℚ → String) (c : Cloud) :
    ∀ n : Nat, (∀ f ∈ c.mFeatures, n ≤ f.2.length) → ∃ ls, Cloud.dataLines fmt c n = some ls := by
  intro n
  induction n with
  | zero => intro _; exact ⟨[], rfl⟩
  | succ n ih =>
    intro h
    obtain ⟨ls, hls⟩ := ih (fun f hf => Nat.le_of_succ_le (h f hf))
    obtain ⟨l, hl⟩ := dataLine_isSome fmt n c.mFeatures (fun f hf => h f hf)
    unfold Cloud.dataLines
    rw [hls, hl]
    exact ⟨_, rfl⟩

/-- In a cloud whose features all hold `getNbPoints` values, `save` writes the
header followed by the data lines. -/
theorem save_of_uniform (fmt : ℚ → String) (c : Cloud)
    (h : ∀ f ∈ c.mFeatures, f.2.length = c.getNbPoints) :
    ∃ data, c.save fmt = some (c.saveHeader ++ data) := by
  obtain ⟨ls, hls⟩ := dataLines_isSome fmt c c.getNbPoints (fun f hf => le_of_eq (h f hf).symm)
  exact ⟨ls, by unfold Cloud.save; rw [hls]; rfl⟩

/-- The feature names after the colour step: "rgb" keeps its place when the
cloud already has it and is appended otherwise. -/
theorem prepareColor_names (c : Cloud) (hcol : c.mRGB.r ≥ 0) :
    (prepareColor c).mFeatures.map Prod.fst =
      if c.hasFeature "rgb" then c.mFeatures.map Prod.fst
      else c.mFeatures.map Prod.fst ++ ["rgb"] := by
  unfold prepareColor
  rw [if_pos hcol, addFeature_mFeatures]
  split
  · exact assignFeatureData_names _ _ _
  · simp

theorem prepareColor_uniform (c : Cloud) (h : ∀ f ∈ c.mFeatures, f.2.length = c.getNbPoints) :
    ∀ f ∈ (prepareColor c).mFeatures, f.2.length = (prepareColor c).getNbPoints := by
  unfold prepareColor
  split
  · rw [getNbPoints_addFeature_replicate]
    intro f hf
    rw [addFeature_mFeatures] at hf
    split at hf
    · rcases mem_assignFeatureData _ _ _ _ hf with hf | hf
      · exact h f hf
      · rw [hf]; simp
    · rcases List.mem_append.mp hf with hf | hf
      · exact h f hf
      · simp at hf
        rw [hf]; simp
  · exact h

/-- C10 (as stated, refuted): a cloud with the features x, y, z, the space
(x, y, z) and the colour (1, 0, 0) is prepared for render, receives a further
feature "w" and is prepared again; the FIELDS line of the file then written is
"FIELDS x y z rgb w": the synthesized "rgb" is not the last name. -/
theorem fields_line_rgb_not_last :
    ((((({} : Cloud).addFeature [0, 1, 2] "x").addFeature [0, 1, 2] "y").addFeature
        [0, 1, 2] "z").setColor 1 0 0).addSpace "x" "y" "z" = some redCloud ∧
    (prepareCloudForRender (fun _ => "0") "session" true "cloud"
        (((prepareCloudForRender (fun _ => "0") "session" true "cloud" redCloud).1).addFeature
          [5, 6, 7] "w")).2.bind (fun file => file.2.bind (fun lines => lines[2]?)) =
      some "FIELDS x y z rgb w" ∧
    ((prepareCloudForRender (fun _ => "0") "session" true "cloud"
        (((prepareCloudForRender (fun _ => "0") "session" true "cloud" redCloud).1).addFeature
          [5, 6, 7] "w")).1.mFeatures.map Prod.fst).getLast? ≠ some "rgb" := by
  decide!

/-- C10 (amended): for a cloud with a colour set, at least one space and features
that all hold `getNbPoints` values, render preparation with a usable output
folder writes a file whose third line is "FIELDS" followed by the names of the
features in insertion order; these are the names the cloud had, followed by
"rgb" when the cloud had no feature "rgb" (so the synthesized field is last),
and unchanged when it had one (the field keeps its place). -/
theorem prepare_fields_line (fmt : ℚ → String) (mName : String) (name : CloudName)
    (c : Cloud) (hs : c.mSpaces ≠ []) (hcol : c.mRGB.r ≥ 0)
    (hlen : ∀ f ∈ c.mFeatures, f.2.length = c.getNbPoints) :
    ∃ (c1 : Cloud) (file : String) (lines : List String),
      prepareCloudForRender fmt mName true name c = (c1, some (file, some lines)) ∧
      lines[2]? = some ("FIELDS" ++ String.join ((c1.mFeatures.map Prod.fst).map (" " ++ ·))) ∧
      c1.mFeatures.map Prod.fst =
        (if c.hasFeature "rgb" then c.mFeatures.map Prod.fst
         else c.mFeatures.map Prod.fst ++ ["rgb"]) := by
  have hne : ¬ (c.mSpaces.length == 0) = true := by simpa using hs
  obtain ⟨data, hdata⟩ := save_of_uniform fmt (prepareColor c) (prepareColor_uniform c hlen)
  refine ⟨prepareColor c, getCloudFilename mName (prepareColor c) name,
    (prepareColor c).saveHeader ++ data, ?_, ?_, prepareColor_names c hcol⟩
  · unfold prepareCloudForRender
    rw [if_neg hne]
    simp only [if_true, hdata]
  · simp [Cloud.saveHeader, Cloud.fieldsLine, List.map_map, Function.comp_def]

/-- Witness of C10: the example cloud, which has no feature "rgb" yet. -/
theorem prepare_fields_line_witness :
    (∃ (c1 : Cloud) (file : String) (lines : List String),
      prepareCloudForRender (fun _ => "0") "session" true "cloud" redCloud =
        (c1, some (file, some lines)) ∧
      lines[2]? = some ("FIELDS" ++ String.join ((c1.mFeatures.map Prod.fst).map (" " ++ ·))) ∧
      c1.mFeatures.map Prod.fst =
        (if redCloud.hasFeature "rgb" then redCloud.mFeatures.map Prod.fst
         else redCloud.mFeatures.map Prod.fst ++ ["rgb"])) ∧
    (prepareCloudForRender (fun _ => "0") "session" true "cloud" redCloud).2.bind
        (fun file => file.2.bind (fun lines => lines[2]?)) = some "FIELDS x y z rgb" :=
  ⟨prepare_fields_line (fun _ => "0") "session" "cloud" redCloud (by decide) (by decide!)
      (by decide),
    by decide!⟩


/-! ## Spaces: what `addSpace` builds -/

/-- When the packing loop ends, it has read `n` values of each feature and row
`k` is the triple of the values at `k`. -/
theorem packLoop_some (va vb vc : FeatureData) :
    ∀ (n : Nat) (data : List Point3), packLoop va vb vc n = some data →
      data.length = n ∧ n ≤ va.length ∧ n ≤ vb.length ∧ n ≤ vc.length ∧
        ∀ k : Nat, k < n →
          ∃ x y z, va[k]? = some x ∧ vb[k]? = some y ∧ vc[k]? = some z ∧
            data[k]? = some (x, y, z) := by
  intro n
  induction n with
  | zero =>
    intro data h
    simp only [packLoop, Option.some.injEq] at h
    subst h
    exact ⟨rfl, Nat.zero_le _, Nat.zero_le _, Nat.zero_le _,
      fun k hk => absurd hk (Nat.not_lt_zero k)⟩
  | succ n ih =>
    intro data h
    unfold packLoop at h
    cases hp : packLoop va vb vc n with
    | none => rw [hp] at h; simp at h
    | some d0 =>
      cases hx : va[n]? with
      | none => rw [hp, hx] at h; simp at h
      | some x =>
        cases hy : vb[n]? with
        | none => rw [hp, hx, hy] at h; simp at h
        | some y =>
          cases hz : vc[n]? with
          | none => rw [hp, hx, hy, hz] at h; simp at h
          | some z =>
            rw [hp, hx, hy, hz] at h
            simp only [Option.some.injEq] at h
            subst h
            obtain ⟨hlen, ha, hb, hc, hrows⟩ := ih d0 hp
            have hxa : n < va.length := by
              by_contra hcon
              rw [List.getElem?_eq_none (by omega)] at hx
              exact Option.noConfusion hx
            have hyb : n < vb.length := by
              by_contra hcon
              rw [List.getElem?_eq_none (by omega)] at hy
              exact Option.noConfusion hy
            have hzc : n < vc.length := by
              by_contra hcon
              rw [List.getElem?_eq_none (by omega)] at hz
              exact Option.noConfusion hz
            refine ⟨by simp [hlen], hxa, hyb, hzc, ?_⟩
            intro k hk
            by_cases hkn : k < n
            · obtain ⟨x1, y1, z1, h1, h2, h3, h4⟩ := hrows k hkn
              refine ⟨x1, y1, z1, h1, h2, h3, ?_⟩
              rw [List.getElem?_append_left (by omega)]
              exact h4
            · have hk' : k = n := by omega
              subst hk'
              refine ⟨x, y, z, hx, hy, hz, ?_⟩
              rw [List.getElem?_append_right (by omega)]
              simp [hlen]

theorem getFeature_name (c : Cloud) (name : FeatureName) (f : Feature)
    (h : c.getFeature name = some f) : f.1 = name ∧ f ∈ c.mFeatures := by
  unfold Cloud.getFeature at h
  have h1 := List.find?_some h
  exact ⟨by simpa using h1, List.mem_of_find?_eq_some h⟩

/-- The three cases of `addSpace`: a name is missing and the cloud is returned
as it is, or the three features are found and the constructor of `Space` runs
on them. -/
theorem addSpace_cases (cloud : Cloud) (a b c : FeatureName) :
    ((cloud.hasFeature a = false ∨ cloud.hasFeature b = false ∨ cloud.hasFeature c = false) ∧
      cloud.addSpace a b c = some cloud) ∨
    ∃ va vb vc, cloud.getFeature a = some (a, va) ∧ cloud.getFeature b = some (b, vb) ∧
      cloud.getFeature c = some (c, vc) ∧
      cloud.addSpace a b c =
        (Space.build (a, va) (b, vb) (c, vc)).map
          (fun s => { cloud with mSpaces := cloud.mSpaces ++ [s] }) := by
  by_cases ha : cloud.hasFeature a = true
  · by_cases hb : cloud.hasFeature b = true
    · by_cases hc : cloud.hasFeature c = true
      · right
        obtain ⟨fa, hfa⟩ := Option.isSome_iff_exists.mp ha
        obtain ⟨fb, hfb⟩ := Option.isSome_iff_exists.mp hb
        obtain ⟨fc, hfc⟩ := Option.isSome_iff_exists.mp hc
        have ea := (getFeature_name cloud a fa hfa).1
        have eb := (getFeature_name cloud b fb hfb).1
        have ec := (getFeature_name cloud c fc hfc).1
        obtain ⟨na, va⟩ := fa
        obtain ⟨nb, vb⟩ := fb
        obtain ⟨nc, vc⟩ := fc
        simp only at ea eb ec
        subst ea eb ec
        refine ⟨va, vb, vc, hfa, hfb, hfc, ?_⟩
        unfold Cloud.addSpace
        simp [ha, hb, hc, hfa, hfb, hfc]
      · left
        exact ⟨Or.inr (Or.inr (by simpa using hc)), by unfold Cloud.addSpace; simp [ha, hb, hc]⟩
    · left
      exact ⟨Or.inr (Or.inl (by simpa using hb)), by unfold Cloud.addSpace; simp [ha, hb]⟩
  · left
    exact ⟨Or.inl (by simpa using ha), by unfold Cloud.addSpace; simp [ha]⟩


theorem getFeatureData_of_getFeature (c : Cloud) (name : FeatureName) (va : FeatureData) :
    c.getFeatureData name = some va ↔ c.getFeature name = some (name, va) := by
  unfold Cloud.getFeatureData
  constructor
  · intro h
    cases hg : c.getFeature name with
    | none => rw [hg] at h; exact Option.noConfusion h
    | some f =>
      rw [hg] at h
      have hn := (getFeature_name c name f hg).1
      obtain ⟨n, d⟩ := f
      simp only [Option.map_some', Option.some.injEq] at h
      simp only at hn
      rw [hn, h]
  · intro h
    rw [h]
    rfl

theorem addFeatures_mSpaces (adds : List (FeatureData × FeatureName × ViewportIdx)) :
    ∀ c : Cloud, (addFeatures c adds).mSpaces = c.mSpaces := by
  induction adds with
  | nil => intro c; rfl
  | cons a adds ih =>
    intro c
    show (addFeatures (c.addFeature a.1 a.2.1 a.2.2) adds).mSpaces = c.mSpaces
    rw [ih, addFeature_mSpaces]

/-- C15 (the code at the failing input): the constructor of `Space` compares the
sizes only to log "All features must have the same size. Will crash." and goes
on; on the features x = [1], y = [1, 2], z = [1, 2, 3] every read of the packing
loop is in bounds and `addSpace("x", "y", "z")` appends a Space, built from the
first value of each, although the three lengths differ. -/
theorem addSpace_unequal_lengths :
    ((({} : Cloud).addFeature [1] "x").addFeature [1, 2] "y").addFeature [1, 2, 3] "z" =
      raggedCloud ∧
    raggedCloud.addSpace "x" "y" "z" =
      some { raggedCloud with mSpaces := [⟨"x", "y", "z", [(1, 1, 1)]⟩] } := by
  decide!

/-- A result of `addSpace(a, b, c)` is the cloud itself or the cloud with one
more Space, named after three existing features and indexing the first `N`
values of each, `N` being the length of the first. -/
theorem addSpace_of_some (cloud : Cloud) (a b c : FeatureName) (cloud1 : Cloud)
    (h : cloud.addSpace a b c = some cloud1) :
    cloud1 = cloud ∨
      ∃ (va vb vc : FeatureData) (s : Space),
        cloud.getFeatureData a = some va ∧ cloud.getFeatureData b = some vb ∧
        cloud.getFeatureData c = some vc ∧
        cloud1 = { cloud with mSpaces := cloud.mSpaces ++ [s] } ∧
        s.u1 = a ∧ s.u2 = b ∧ s.u3 = c ∧
        va.length ≤ vb.length ∧ va.length ≤ vc.length ∧ s.mSearchTree.length = va.length ∧
        ∀ k : Nat, k < va.length →
          ∃ x y z, va[k]? = some x ∧ vb[k]? = some y ∧ vc[k]? = some z ∧
            s.mSearchTree[k]? = some (x, y, z) := by
  rcases addSpace_cases cloud a b c with ⟨_, hsame⟩ | ⟨va, vb, vc, hfa, hfb, hfc, hadd⟩
  · left
    rw [hsame] at h
    exact (Option.some.inj h).symm
  · right
    rw [hadd] at h
    unfold Space.build at h
    by_cases hN : va.length > 0
    · simp only [hN, if_true] at h
      cases hp : packLoop va vb vc va.length with
      | none => rw [hp] at h; simp at h
      | some data =>
        rw [hp] at h
        simp only [Option.map_some', Option.some.injEq] at h
        obtain ⟨hlen, _, hb, hc, hrows⟩ := packLoop_some va vb vc va.length data hp
        exact ⟨va, vb, vc, ⟨a, b, c, data⟩,
          (getFeatureData_of_getFeature cloud a va).mpr hfa,
          (getFeatureData_of_getFeature cloud b vb).mpr hfb,
          (getFeatureData_of_getFeature cloud c vc).mpr hfc,
          h.symm, rfl, rfl, rfl, hb, hc, hlen, hrows⟩
    · simp only [hN, if_false, Option.map_some', Option.some.injEq] at h
      have h0 : va.length = 0 := by omega
      exact ⟨va, vb, vc, ⟨a, b, c, []⟩,
        (getFeatureData_of_getFeature cloud a va).mpr hfa,
        (getFeatureData_of_getFeature cloud b vb).mpr hfb,
        (getFeatureData_of_getFeature cloud c vc).mpr hfc,
        h.symm, rfl, rfl, rfl, by omega, by omega, by simp [h0],
        fun k hk => absurd hk (by omega)⟩

/-- `addSpace(a, b, c)` appends a Space whenever the three features exist and the
second and third hold at least as many values as the first. -/
theorem addSpace_of_lengths (cloud : Cloud) (a b c : FeatureName) (va vb vc : FeatureData)
    (ha : cloud.getFeatureData a = some va) (hb : cloud.getFeatureData b = some vb)
    (hc : cloud.getFeatureData c = some vc)
    (hab : va.length ≤ vb.length) (hac : va.length ≤ vc.length) :
    ∃ s : Space, cloud.addSpace a b c = some { cloud with mSpaces := cloud.mSpaces ++ [s] } ∧
      s.mSearchTree.length = va.length := by
  have hfa := (getFeatureData_of_getFeature cloud a va).mp ha
  have hfb := (getFeatureData_of_getFeature cloud b vb).mp hb
  have hfc := (getFeatureData_of_getFeature cloud c vc).mp hc
  obtain ⟨data, hdata, hlen, _⟩ := packLoop_spec va vb vc va.length (le_refl _) hab hac
  by_cases hN : va.length > 0
  · refine ⟨⟨a, b, c, data⟩, ?_, hlen⟩
    unfold Cloud.addSpace Space.build
    simp [Cloud.hasFeature, hfa, hfb, hfc, hN, hdata]
  · refine ⟨⟨a, b, c, []⟩, ?_, by simp; omega⟩
    unfold Cloud.addSpace Space.build
    simp [Cloud.hasFeature, hfa, hfb, hfc, hN]

/-- C16: when `addSpace(a, b, c)` declares a Space (the features exist and the
second and third hold at least as many values as the first), the rows of its
index are the values the three features hold at that moment, and any sequence of
later `addFeature` calls, overwriting `a`, `b`, `c` or not, leaves the space list
as it is: every query on the Space has the same result as before. -/
theorem addSpace_snapshot (cloud : Cloud) (a b c : FeatureName) (va vb vc : FeatureData)
    (ha : cloud.getFeatureData a = some va) (hb : cloud.getFeatureData b = some vb)
    (hc : cloud.getFeatureData c = some vc)
    (hab : va.length ≤ vb.length) (hac : va.length ≤ vc.length)
    (adds : List (FeatureData × FeatureName × ViewportIdx)) :
    ∃ (cloud1 : Cloud) (s : Space),
      cloud.addSpace a b c = some cloud1 ∧ cloud1.mSpaces = cloud.mSpaces ++ [s] ∧
      s.mSearchTree.length = va.length ∧
      (∀ k : Nat, k < va.length →
        ∃ x y z, va[k]? = some x ∧ vb[k]? = some y ∧ vc[k]? = some z ∧
          s.mSearchTree[k]? = some (x, y, z)) ∧
      (addFeatures cloud1 adds).mSpaces = cloud.mSpaces ++ [s] ∧
      ∀ x y z : ℚ,
        (addFeatures cloud1 adds).mSpaces.map (fun t => t.findPickedPointIndex x y z) =
          cloud1.mSpaces.map (fun t => t.findPickedPointIndex x y z) := by
  obtain ⟨s, hadd, _⟩ := addSpace_of_lengths cloud a b c va vb vc ha hb hc hab hac
  rcases addSpace_of_some cloud a b c _ hadd with hsame | h
  · exfalso
    have := congrArg (fun t => t.mSpaces.length) hsame
    simp at this
  · obtain ⟨va1, vb1, vc1, s1, ha1, hb1, hc1, heq, _, _, _, _, _, hlen, hrows⟩ := h
    rw [ha] at ha1; rw [hb] at hb1; rw [hc] at hc1
    cases ha1; cases hb1; cases hc1
    have hs : s1 = s := by
      have := congrArg (fun t => t.mSpaces) heq
      simpa using this.symm
    subst hs
    refine ⟨_, s1, hadd, rfl, hlen, hrows, ?_, ?_⟩
    · rw [addFeatures_mSpaces]
    · intro x y z
      rw [addFeatures_mSpaces]

/-- Witness of C16: on x = y = z = [0, 1, 2] the Space (x, y, z) is declared and
"x" is then overwritten with [9, 9, 9]; the query (1, 1, 1) still returns 1. -/
theorem addSpace_snapshot_witness :
    (∃ (cloud1 : Cloud) (s : Space),
      { redCloud with mSpaces := [] }.addSpace "x" "y" "z" = some cloud1 ∧
      cloud1.mSpaces = ({ redCloud with mSpaces := [] } : Cloud).mSpaces ++ [s] ∧
      s.mSearchTree.length = ([0, 1, 2] : FeatureData).length ∧
      (∀ k : Nat, k < ([0, 1, 2] : FeatureData).length →
        ∃ x y z, ([0, 1, 2] : FeatureData)[k]? = some x ∧
          ([0, 1, 2] : FeatureData)[k]? = some y ∧ ([0, 1, 2] : FeatureData)[k]? = some z ∧
          s.mSearchTree[k]? = some (x, y, z)) ∧
      (addFeatures cloud1 [([9, 9, 9], "x", -1)]).mSpaces =
        ({ redCloud with mSpaces := [] } : Cloud).mSpaces ++ [s] ∧
      ∀ x y z : ℚ,
        (addFeatures cloud1 [([9, 9, 9], "x", -1)]).mSpaces.map
            (fun t => t.findPickedPointIndex x y z) =
          cloud1.mSpaces.map (fun t => t.findPickedPointIndex x y z)) ∧
    (({ redCloud with mSpaces := [] } : Cloud).addSpace "x" "y" "z").map
        (fun c => ((c.addFeature [9, 9, 9] "x").getFeatureData "x",
          (c.addFeature [9, 9, 9] "x").mSpaces.map (fun t => t.findPickedPointIndex 1 1 1))) =
      some (some [9, 9, 9], [1]) :=
  ⟨addSpace_snapshot { redCloud with mSpaces := [] } "x" "y" "z" [0, 1, 2] [0, 1, 2] [0, 1, 2]
      (by decide!) (by decide!) (by decide!) (by decide) (by decide) [([9, 9, 9], "x", -1)],
    by decide!⟩

/-- C17 (the code at the failing input): the Space built from three empty
features has an index without rows; on it the search finds nothing, the distance
buffer keeps its initial 0, which is below `eps`, and every query returns the
index 0 instead of `-1`. -/
theorem findPickedPointIndex_no_rows (n1 n2 n3 : FeatureName) (a b c : ℚ) :
    (Space.build (n1, []) (n2, []) (n3, [])).map (fun s => s.mSearchTree) = some [] ∧
    (Space.build (n1, []) (n2, []) (n3, [])).map (fun s => s.findPickedPointIndex a b c) =
      some 0 := by
  constructor
  · simp [Space.build]
  · simp only [Space.build, Space.findPickedPointIndex, knnSearch, nearestFrom,
      List.length_nil, gt_iff_lt, lt_self_iff_false, if_false, Option.map_some']
    rw [if_pos eps_pos]

/-- C18 (the code at the failing input): the example cloud has the features x,
y, z and no feature "w"; `hasFeature("w")` is false and `getFeature("w")` is
`end()`. `getFeatureData("w")` logs and then dereferences that iterator, which
has no result: no value sequence and no failure that a caller could observe. -/
theorem getFeatureData_dereferences_end :
    redCloud.mFeatures.map Prod.fst = ["x", "y", "z"] ∧
    redCloud.hasFeature "w" = false ∧
    redCloud.getFeature "w" = none ∧
    redCloud.getFeatureData "w" = none := by
  decide

/-- C19: when `getNbPoints` is 0, `addLabelsFeature` returns the cloud as it was:
no feature is created or modified and spaces and viewport are unchanged. -/
theorem addLabelsFeature_no_points (c : Cloud) (groups : List (List Int)) (name : FeatureName)
    (v : ViewportIdx) (h : c.getNbPoints = 0) : c.addLabelsFeature groups name v = c := by
  unfold Cloud.addLabelsFeature
  simp [h]

/-- Witness of C19: a cloud whose first feature is empty (and, second, a cloud
without any feature). -/
theorem addLabelsFeature_no_points_witness :
    ((({} : Cloud).addFeature [] "x").addFeature [4, 5] "y").addLabelsFeature [[0, 1], [2]]
        "labels" 3 = (({} : Cloud).addFeature [] "x").addFeature [4, 5] "y" ∧
    ({} : Cloud).addLabelsFeature [[0, 1], [2]] "labels" 3 = {} :=
  ⟨addLabelsFeature_no_points ((({} : Cloud).addFeature [] "x").addFeature [4, 5] "y")
      [[0, 1], [2]] "labels" 3 (by decide),
    by decide⟩

/-- C20: for a name not yet present, `addFeature(data, name)` appends
`(name, data)` at the end of the feature list: the count grows by one, the earlier
entries are the same at the same positions, and the space list is unchanged. -/
theorem addFeature_new (c : Cloud) (data : FeatureData) (name : FeatureName)
    (v : ViewportIdx) (h : c.hasFeature name = false) :
    (c.addFeature data name v).mFeatures = c.mFeatures ++ [(name, data)] ∧
    (c.addFeature data name v).getNbFeatures = c.getNbFeatures + 1 ∧
    (∀ (i : Nat) (f : Feature), c.mFeatures[i]? = some f →
      (c.addFeature data name v).mFeatures[i]? = some f) ∧
    (c.addFeature data name v).mSpaces = c.mSpaces := by
  have hfs : (c.addFeature data name v).mFeatures = c.mFeatures ++ [(name, data)] := by
    rw [addFeature_mFeatures, h]
    rfl
  refine ⟨hfs, ?_, ?_, addFeature_mSpaces c data name v⟩
  · simp [Cloud.getNbFeatures, hfs]
  · intro i f hi
    have hlt : i < c.mFeatures.length := by
      by_contra hcon
      rw [List.getElem?_eq_none (by omega)] at hi
      exact Option.noConfusion hi
    rw [hfs, List.getElem?_append_left hlt]
    exact hi

/-- Witness of C20: adding "w" to the example cloud. -/
theorem addFeature_new_witness :
    (redCloud.addFeature [7, 8, 9] "w" 2).mFeatures = redCloud.mFeatures ++ [("w", [7, 8, 9])] ∧
    (redCloud.addFeature [7, 8, 9] "w" 2).getNbFeatures = redCloud.getNbFeatures + 1 ∧
    (∀ (i : Nat) (f : Feature), redCloud.mFeatures[i]? = some f →
      (redCloud.addFeature [7, 8, 9] "w" 2).mFeatures[i]? = some f) ∧
    (redCloud.addFeature [7, 8, 9] "w" 2).mSpaces = redCloud.mSpaces :=
  addFeature_new redCloud [7, 8, 9] "w" 2 (by decide)


/-! ## `addCloud`: lemmas -/

/-- `addCloud` is: the features of the point cloud added in order, its spaces
declared in order, and the viewport and timestamp set. -/
theorem addCloud_eq (c : Cloud) (data : PointCloud) (v : ViewportIdx) (now : String) :
    c.addCloud data v now =
      (addSpaces (addFeatures c (data.features.map (fun f => (f.2, f.1, v)))) data.spaces).map
        (fun c1 => c1.addCloudCommon v now) := by
  cases data <;>
    simp [Cloud.addCloud, Cloud.addCloudXYZ, Cloud.addCloudNormal, Cloud.addCloudPointNormal,
      Cloud.addCloudPrincipalCurvatures, Cloud.addFeatureWith, PointCloud.features,
      PointCloud.spaces, addSpaces, addFeatures, Option.map_bind']

theorem addFeatures_nodup (adds : List (FeatureData × FeatureName × ViewportIdx)) :
    ∀ c : Cloud, (c.mFeatures.map Prod.fst).Nodup →
      ((addFeatures c adds).mFeatures.map Prod.fst).Nodup := by
  induction adds with
  | nil => intro c h; exact h
  | cons a adds ih =>
    intro c h
    exact ih (c.addFeature a.1 a.2.1 a.2.2) (addFeature_nodup c a.1 a.2.1 a.2.2 h)

/-- `addSpace` changes nothing but the space list. -/
theorem addSpace_frame (c c1 : Cloud) (a b d : FeatureName) (h : c.addSpace a b d = some c1) :
    ∃ spaces, c1 = { c with mSpaces := spaces } := by
  rcases addSpace_of_some c a b d c1 h with h1 | ⟨_, _, _, s, _, _, _, h1, _⟩
  · exact ⟨c.mSpaces, by rw [h1]⟩
  · exact ⟨_, h1⟩

theorem addSpaces_frame (ts : List (FeatureName × FeatureName × FeatureName)) :
    ∀ (c c1 : Cloud), addSpaces c ts = some c1 → ∃ spaces, c1 = { c with mSpaces := spaces } := by
  induction ts with
  | nil =>
    intro c c1 h
    simp only [addSpaces, Option.some.injEq] at h
    exact ⟨c.mSpaces, by rw [← h]⟩
  | cons t ts ih =>
    intro c c1 h
    simp only [addSpaces] at h
    cases h0 : c.addSpace t.1 t.2.1 t.2.2 with
    | none => rw [h0] at h; simp at h
    | some c0 =>
      rw [h0] at h
      simp only [Option.some_bind] at h
      obtain ⟨sp0, e0⟩ := addSpace_frame c c0 _ _ _ h0
      obtain ⟨sp1, e1⟩ := ih c0 c1 h
      exact ⟨sp1, by rw [e1, e0]⟩

/-- `addCloud` leaves the feature list that its `addFeature` calls produce, and
does not touch the indexed clouds. -/
theorem addCloud_frame (c c1 : Cloud) (data : PointCloud) (v : ViewportIdx) (now : String)
    (h : c.addCloud data v now = some c1) :
    c1.mFeatures = (addFeatures c (data.features.map (fun f => (f.2, f.1, v)))).mFeatures ∧
    c1.mIndexedClouds =
      (addFeatures c (data.features.map (fun f => (f.2, f.1, v)))).mIndexedClouds := by
  rw [addCloud_eq] at h
  cases h0 : addSpaces (addFeatures c (data.features.map (fun f => (f.2, f.1, v)))) data.spaces with
  | none => rw [h0] at h; simp at h
  | some c0 =>
    rw [h0] at h
    simp only [Option.map_some', Option.some.injEq] at h
    obtain ⟨sp, e⟩ := addSpaces_frame _ _ _ h0
    rw [← h, e]
    unfold Cloud.addCloudCommon Cloud.setViewport
    constructor <;> (split <;> rfl)

theorem prepareColor_nodup (c : Cloud) (h : (c.mFeatures.map Prod.fst).Nodup) :
    ((prepareColor c).mFeatures.map Prod.fst).Nodup := by
  unfold prepareColor
  split
  · exact addFeature_nodup _ _ _ _ h
  · exact h

theorem prepareCloudForRender_cases (fmt : ℚ → String) (mName : String) (dirOk : Bool)
    (name : CloudName) (c : Cloud) :
    (prepareCloudForRender fmt mName dirOk name c).1 = c ∨
    (prepareCloudForRender fmt mName dirOk name c).1 = prepareColor c := by
  unfold prepareCloudForRender
  split
  · left; rfl
  · right
    cases dirOk <;> rfl

/-- C13: in every cloud reachable from a newly created cloud by `addFeature`,
`addLabelsFeature`, `addSpace`, `addCloud`, the setters and render preparation,
the names of the feature list are pairwise distinct. -/
theorem reachable_names_nodup (c : Cloud) (h : Reachable c) :
    (c.mFeatures.map Prod.fst).Nodup := by
  induction h with
  | new => simp
  | addFeature c data name v _ ih => exact addFeature_nodup c data name v ih
  | addLabelsFeature c groups name v _ ih =>
    unfold Cloud.addLabelsFeature
    simp only []
    split
    · exact ih
    · exact addFeature_nodup _ _ _ _ ih
  | addSpace c c1 a b d _ hadd ih =>
    obtain ⟨sp, e⟩ := addSpace_frame c c1 a b d hadd
    rw [e]
    exact ih
  | addCloud c c1 data v now _ hadd ih =>
    rw [(addCloud_frame c c1 data v now hadd).1]
    exact addFeatures_nodup _ c ih
  | setViewport c v _ ih =>
    rw [setViewport_mFeatures]
    exact ih
  | setSize c size _ ih => exact ih
  | setOpacity c opacity _ ih => exact ih
  | setColor c r g b _ ih => exact ih
  | prepare c fmt mName dirOk name _ ih =>
    rcases prepareCloudForRender_cases fmt mName dirOk name c with e | e
    · rw [e]; exact ih
    · rw [e]; exact prepareColor_nodup c ih

/-- Witness of C13: the example cloud, built with `addFeature`, `setColor` and
`addSpace`, is prepared for render and its "rgb" feature is added once more. -/
theorem reachable_names_nodup_witness :
    ((((prepareCloudForRender (fun _ => "0") "session" true "cloud" redCloud).1.addFeature
        [1, 1, 1] "rgb" (-1)).mFeatures.map Prod.fst).Nodup) ∧
    ((prepareCloudForRender (fun _ => "0") "session" true "cloud" redCloud).1.addFeature
        [1, 1, 1] "rgb" (-1)).mFeatures.map Prod.fst = ["x", "y", "z", "rgb"] :=
  ⟨reachable_names_nodup _
      (Reachable.addFeature _ [1, 1, 1] "rgb" (-1)
        (Reachable.prepare redCloud (fun _ => "0") "session" true "cloud"
          (Reachable.addSpace
            (((((({} : Cloud).addFeature [0, 1, 2] "x" (-1)).addFeature [0, 1, 2] "y"
              (-1)).addFeature [0, 1, 2] "z" (-1))).setColor 1 0 0)
            redCloud "x" "y" "z"
            (Reachable.setColor _ 1 0 0
              (Reachable.addFeature _ [0, 1, 2] "z" (-1)
                (Reachable.addFeature _ [0, 1, 2] "y" (-1)
                  (Reachable.addFeature _ [0, 1, 2] "x" (-1) Reachable.new))))
            (by decide!)))),
    by decide!⟩

/-! ## Lengths of the features -/

theorem getNbPoints_congr (c1 c2 : Cloud) (h : c1.mFeatures = c2.mFeatures) :
    c1.getNbPoints = c2.getNbPoints := by
  simp [Cloud.getNbPoints, Cloud.getNbFeatures, h]

theorem getNbPoints_addFeature_of_length (c : Cloud) (data : FeatureData) (name : FeatureName)
    (v : ViewportIdx) (h : c.mFeatures = [] ∨ data.length = c.getNbPoints) :
    (c.addFeature data name v).getNbPoints = data.length := by
  cases hfs : c.mFeatures with
  | nil =>
    have hh : c.hasFeature name = false := by
      simp [Cloud.hasFeature, Cloud.getFeature, hfs]
    have := addFeature_mFeatures c data name v
    rw [hh, hfs] at this
    exact getNbPoints_cons _ _ _ (by simpa using this)
  | cons f fs =>
    have hlen : data.length = c.getNbPoints := by
      rcases h with h | h
      · rw [hfs] at h; exact absurd h (List.cons_ne_nil _ _)
      · exact h
    obtain ⟨fs1, h1⟩ := addFeature_head c f fs hfs data name v
    rw [getNbPoints_cons _ _ _ h1]
    split
    · rfl
    · rw [hlen]; exact (getNbPoints_cons c f fs hfs).symm

/-- `addFeature` with as many values as the cloud has points (or on a cloud
without features) keeps all features at the same length. -/
theorem addFeature_sameLength (c : Cloud) (data : FeatureData) (name : FeatureName)
    (v : ViewportIdx) (hc : ∀ f ∈ c.mFeatures, f.2.length = c.getNbPoints)
    (h : c.mFeatures = [] ∨ data.length = c.getNbPoints) :
    ∀ f ∈ (c.addFeature data name v).mFeatures,
      f.2.length = (c.addFeature data name v).getNbPoints := by
  rw [getNbPoints_addFeature_of_length c data name v h]
  intro f hf
  rw [addFeature_mFeatures] at hf
  have hold : ∀ g ∈ c.mFeatures, g.2.length = data.length := by
    intro g hg
    rcases h with h | h
    · rw [h] at hg; simp at hg
    · rw [h]; exact hc g hg
  split at hf
  · rcases mem_assignFeatureData _ _ _ _ hf with hf | hf
    · exact hold f hf
    · rw [hf]
  · rcases List.mem_append.mp hf with hf | hf
    · exact hold f hf
    · simp at hf
      rw [hf]

theorem addFeatures_sameLength (N : Nat) (adds : List (FeatureData × FeatureName × ViewportIdx))
    (hadds : ∀ a ∈ adds, a.1.length = N) :
    ∀ c : Cloud, (∀ f ∈ c.mFeatures, f.2.length = c.getNbPoints) →
      (c.mFeatures = [] ∨ N = c.getNbPoints) →
      ∀ f ∈ (addFeatures c adds).mFeatures, f.2.length = (addFeatures c adds).getNbPoints := by
  induction adds with
  | nil => intro c hc _; exact hc
  | cons a adds ih =>
    intro c hc h
    have ha : a.1.length = N := hadds a (List.mem_cons_self _ _)
    have h1 : c.mFeatures = [] ∨ a.1.length = c.getNbPoints := by rw [ha]; exact h
    exact ih (fun b hb => hadds b (List.mem_cons_of_mem _ hb))
      (c.addFeature a.1 a.2.1 a.2.2) (addFeature_sameLength c a.1 a.2.1 a.2.2 hc h1)
      (Or.inr (by rw [getNbPoints_addFeature_of_length c a.1 a.2.1 a.2.2 h1, ha]))

theorem features_length (data : PointCloud) : ∀ f ∈ data.features, f.2.length = data.size := by
  cases data <;> simp [PointCloud.features, PointCloud.size]

theorem computeLabels_length (n : Nat) (groups : List (List Int)) :
    (Cloud.computeLabels n groups).length = n := by
  simp [Cloud.computeLabels, labelComponents_length]

/-- C14 (the code at the failing input): `addFeature` stores the values without
the size check its comment announces (`// assert size if > 0`), so after
`addFeature([1,2,3], "x")` and `addFeature([1], "y")` the reachable cloud has
features of lengths 3 and 1. -/
theorem reachable_lengths_differ :
    Reachable ((({} : Cloud).addFeature [1, 2, 3] "x" (-1)).addFeature [1] "y" (-1)) ∧
    ((({} : Cloud).addFeature [1, 2, 3] "x" (-1)).addFeature [1] "y" (-1)).mFeatures =
      [("x", [1, 2, 3]), ("y", [1])] ∧
    ¬ (∀ f ∈ ((({} : Cloud).addFeature [1, 2, 3] "x" (-1)).addFeature [1] "y" (-1)).mFeatures,
        f.2.length =
          ((({} : Cloud).addFeature [1, 2, 3] "x" (-1)).addFeature [1] "y" (-1)).getNbPoints) :=
  ⟨Reachable.addFeature _ [1] "y" (-1) (Reachable.addFeature _ [1, 2, 3] "x" (-1) Reachable.new),
    by decide!, by decide⟩

/-- Equal lengths under callers that respect the size: in every cloud reachable
through the public operations, when each `addFeature` and `addCloud` on a cloud that already has a feature supplies
as many values (records) as `getNbPoints`, all feature value sequences have the
same length, equal to `getNbPoints`. -/
theorem reachable_same_length (c : Cloud) (h : ReachableSameLength c) :
    ∀ f ∈ c.mFeatures, f.2.length = c.getNbPoints := by
  induction h with
  | new => intro f hf; simp at hf
  | addFeature c data name v _ hlen ih => exact addFeature_sameLength c data name v ih hlen
  | addLabelsFeature c groups name v _ ih =>
    unfold Cloud.addLabelsFeature
    simp only []
    split
    · exact ih
    · exact addFeature_sameLength _ _ _ _ ih (Or.inr (computeLabels_length _ _))
  | addSpace c c1 a b d _ hadd ih =>
    obtain ⟨sp, e⟩ := addSpace_frame c c1 a b d hadd
    rw [e]
    exact ih
  | addCloud c c1 data v now _ hlen hadd ih =>
    have hf := (addCloud_frame c c1 data v now hadd).1
    rw [getNbPoints_congr _ _ hf, hf]
    refine addFeatures_sameLength data.size _ ?_ c ih hlen
    intro a ha
    obtain ⟨f, hf1, hf2⟩ := List.mem_map.mp ha
    rw [← hf2]
    exact features_length data f hf1
  | setViewport c v _ ih =>
    rw [getNbPoints_congr _ c (setViewport_mFeatures c v), setViewport_mFeatures]
    exact ih
  | setSize c size _ ih => exact ih
  | setOpacity c opacity _ ih => exact ih
  | setColor c r g b _ ih => exact ih
  | prepare c fmt mName dirOk name _ ih =>
    rcases prepareCloudForRender_cases fmt mName dirOk name c with e | e
    · rw [e]; exact ih
    · rw [e]; exact prepareColor_uniform c ih

/-- An instance of `reachable_same_length`: the example cloud receives a point cloud of 3 records, labels
and a further feature of 3 values, and is prepared for render. -/
theorem reachable_same_length_witness :
    (∀ f ∈ (prepareCloudForRender (fun _ => "0") "session" true "cloud"
        ((({ redCloud with
              mViewport := 1
              mTimestamp := "20240101.120000.000"
              mFeatures := [("x", [5, 1, 0]), ("y", [6, 2, 0]), ("z", [7, 3, 0])]
              mSpaces := redCloud.mSpaces ++ [⟨"x", "y", "z", [(5, 6, 7), (1, 2, 3), (0, 0, 0)]⟩] }
            : Cloud).addLabelsFeature [[0, 2], [1]] "labels" (-1)).addFeature [4, 4, 4] "w"
            (-1))).1.mFeatures,
      f.2.length = (prepareCloudForRender (fun _ => "0") "session" true "cloud"
        ((({ redCloud with
              mViewport := 1
              mTimestamp := "20240101.120000.000"
              mFeatures := [("x", [5, 1, 0]), ("y", [6, 2, 0]), ("z", [7, 3, 0])]
              mSpaces := redCloud.mSpaces ++ [⟨"x", "y", "z", [(5, 6, 7), (1, 2, 3), (0, 0, 0)]⟩] }
            : Cloud).addLabelsFeature [[0, 2], [1]] "labels" (-1)).addFeature [4, 4, 4] "w"
            (-1))).1.getNbPoints) ∧
    (prepareCloudForRender (fun _ => "0") "session" true "cloud"
        ((({ redCloud with
              mViewport := 1
              mTimestamp := "20240101.120000.000"
              mFeatures := [("x", [5, 1, 0]), ("y", [6, 2, 0]), ("z", [7, 3, 0])]
              mSpaces := redCloud.mSpaces ++ [⟨"x", "y", "z", [(5, 6, 7), (1, 2, 3), (0, 0, 0)]⟩] }
            : Cloud).addLabelsFeature [[0, 2], [1]] "labels" (-1)).addFeature [4, 4, 4] "w"
            (-1))).1.mFeatures.map
        (fun f => (f.1, f.2.length)) =
      [("x", 3), ("y", 3), ("z", 3), ("labels", 3), ("w", 3), ("rgb", 3)] :=
  ⟨reachable_same_length _
    (ReachableSameLength.prepare _ (fun _ => "0") "session" true "cloud"
      (ReachableSameLength.addFeature _ [4, 4, 4] "w" (-1)
        (ReachableSameLength.addLabelsFeature _ [[0, 2], [1]] "labels" (-1)
          (ReachableSameLength.addCloud redCloud _
            (PointCloud.xyz [⟨5, 6, 7⟩, ⟨1, 2, 3⟩, ⟨0, 0, 0⟩]) 1 "20240101.120000.000"
            (ReachableSameLength.addSpace
              (((((({} : Cloud).addFeature [0, 1, 2] "x" (-1)).addFeature [0, 1, 2] "y"
                (-1)).addFeature [0, 1, 2] "z" (-1))).setColor 1 0 0)
              redCloud "x" "y" "z"
              (ReachableSameLength.setColor _ 1 0 0
                (ReachableSameLength.addFeature _ [0, 1, 2] "z" (-1)
                  (ReachableSameLength.addFeature _ [0, 1, 2] "y" (-1)
                    (ReachableSameLength.addFeature _ [0, 1, 2] "x" (-1)
                      ReachableSameLength.new (Or.inl rfl))
                    (Or.inr (by decide)))
                  (Or.inr (by decide))))
              (by decide!))
            (Or.inr (by decide)) (by decide!)))
        (Or.inr (by decide!)))),
    by decide!⟩


/-! ## Render preparation over the registry -/

theorem prepareCloudForRender_mSpaces (fmt : ℚ → String) (mName : String) (dirOk : Bool)
    (name : CloudName) (c : Cloud) :
    (prepareCloudForRender fmt mName dirOk name c).1.mSpaces = c.mSpaces := by
  rcases prepareCloudForRender_cases fmt mName dirOk name c with e | e
  · rw [e]
  · rw [e]
    unfold prepareColor
    split
    · exact addFeature_mSpaces _ _ _ _
    · rfl

theorem prepareCloudForRender_spaceless (fmt : ℚ → String) (mName : String) (dirOk : Bool)
    (name : CloudName) (c : Cloud) (h : c.mSpaces = []) :
    prepareCloudForRender fmt mName dirOk name c = (c, none) := by
  unfold prepareCloudForRender
  simp [h]

theorem lt_of_getElem?_eq_some {α : Type} (l : List α) (p : Nat) (a : α) (h : l[p]? = some a) :
    p < l.length := by
  by_contra hcon
  rw [List.getElem?_eq_none (by omega)] at h
  exact Option.noConfusion h

theorem set_of_getElem? (heap : List Cloud) (p : Nat) (c : Cloud) (h : heap[p]? = some c) :
    heap.set p c = heap := by
  apply List.ext_getElem?
  intro i
  rw [List.getElem?_set]
  by_cases hi : p = i
  · subst hi
    have hlt : p < heap.length := by
      by_contra hcon
      rw [List.getElem?_eq_none (by omega)] at h
      exact Option.noConfusion h
    simp [hlt, h]
  · simp [hi]

/-- The test of the loop: an entry is processed unless its cloud has no space. -/
theorem prepareLoop_filter (fmt : ℚ → String) (mName : String) (dirOk : CloudName → Bool)
    (reg : List (CloudName × CloudPtr)) :
    ∀ heap : List Cloud,
      prepareLoop fmt mName dirOk reg heap =
        prepareLoop fmt mName dirOk
          (reg.filter (fun e =>
            match heap[e.2]? with
            | some c => !(c.mSpaces.length == 0)
            | none => true))
          heap := by
  induction reg with
  | nil => intro heap; rfl
  | cons e rest ih =>
    intro heap
    cases hc : heap[e.2]? with
    | none =>
      rw [List.filter_cons_of_pos (by simp [hc])]
      simp only [prepareLoop, hc]
      exact ih heap
    | some cloud =>
      by_cases hs : cloud.mSpaces = []
      · rw [List.filter_cons_of_neg (by simp [hc, hs])]
        simp only [prepareLoop, hc]
        rw [prepareCloudForRender_spaceless _ _ _ _ _ hs, set_of_getElem? heap e.2 cloud hc]
        simp only [Option.toList, List.nil_append]
        exact ih heap
      · rw [List.filter_cons_of_pos (by simp [hc, hs])]
        simp only [prepareLoop, hc]
        rw [ih (heap.set e.2 (prepareCloudForRender fmt mName (dirOk e.1) e.1 cloud).1)]
        have hfilter :
            rest.filter (fun e1 =>
              match (heap.set e.2
                (prepareCloudForRender fmt mName (dirOk e.1) e.1 cloud).1)[e1.2]? with
              | some c => !(c.mSpaces.length == 0)
              | none => true) =
            rest.filter (fun e1 =>
              match heap[e1.2]? with
              | some c => !(c.mSpaces.length == 0)
              | none => true) := by
          apply List.filter_congr
          intro e1 _
          rw [List.getElem?_set]
          by_cases hp : e.2 = e1.2
          · have hlt : e.2 < heap.length := lt_of_getElem?_eq_some heap e.2 cloud hc
            rw [← hp]
            simp [hlt, hc, prepareCloudForRender_mSpaces]
          · simp [hp]
        rw [hfilter]

/-- A cloud without spaces is the same after the loop. -/
theorem prepareLoop_spaceless (fmt : ℚ → String) (mName : String) (dirOk : CloudName → Bool)
    (reg : List (CloudName × CloudPtr)) :
    ∀ (heap : List Cloud) (p : CloudPtr) (c : Cloud), heap[p]? = some c → c.mSpaces = [] →
      (prepareLoop fmt mName dirOk reg heap).1[p]? = some c := by
  induction reg with
  | nil => intro heap p c h _; exact h
  | cons e rest ih =>
    intro heap p c h hs
    cases hc : heap[e.2]? with
    | none =>
      simp only [prepareLoop, hc]
      exact ih heap p c h hs
    | some cloud =>
      simp only [prepareLoop, hc]
      apply ih _ p c _ hs
      rw [List.getElem?_set]
      by_cases hp : e.2 = p
      · subst hp
        rw [hc] at h
        cases h
        have hlt : e.2 < heap.length := lt_of_getElem?_eq_some heap e.2 _ hc
        simp [hlt, prepareCloudForRender_spaceless _ _ _ _ _ hs]
      · simp [hp, h]

/-- C11: `prepareCloudsForRender` leaves every cloud that has no space as it is
(no "rgb" feature, also when a colour is set), and the clouds afterwards and the
files written are those of the same pass over the registry without the entries
of the space-less clouds. -/
theorem prepareCloudsForRender_skips_spaceless (fmt : ℚ → String) (dirOk : CloudName → Bool)
    (v : VisualizerData) :
    (∀ (p : CloudPtr) (c : Cloud), v.heap[p]? = some c → c.mSpaces = [] →
      (v.prepareCloudsForRender fmt dirOk).1.heap[p]? = some c) ∧
    (v.prepareCloudsForRender fmt dirOk).1.heap =
      (VisualizerData.prepareCloudsForRender fmt dirOk
        { v with mClouds := v.mClouds.filter (fun e =>
            match v.heap[e.2]? with
            | some c => !(c.mSpaces.length == 0)
            | none => true) }).1.heap ∧
    (v.prepareCloudsForRender fmt dirOk).2 =
      (VisualizerData.prepareCloudsForRender fmt dirOk
        { v with mClouds := v.mClouds.filter (fun e =>
            match v.heap[e.2]? with
            | some c => !(c.mSpaces.length == 0)
            | none => true) }).2 := by
  have h := prepareLoop_filter fmt v.mName dirOk v.mClouds v.heap
  refine ⟨?_, ?_, ?_⟩
  · intro p c hp hs
    exact prepareLoop_spaceless fmt v.mName dirOk v.mClouds v.heap p c hp hs
  · simp only [VisualizerData.prepareCloudsForRender]
    rw [h]
  · simp only [VisualizerData.prepareCloudsForRender]
    rw [h]

/-- Witness of C11: a registry with the cloud "a", which has a colour and a
feature but no space, and the example cloud "b": "a" is unchanged, one file is
written, for "b", and "b" receives its "rgb" feature. -/
theorem prepareCloudsForRender_skips_spaceless_witness :
    ((∀ (p : CloudPtr) (c : Cloud), spacelessRegistry.heap[p]? = some c → c.mSpaces = [] →
      (spacelessRegistry.prepareCloudsForRender (fun _ => "0") (fun _ => true)).1.heap[p]? =
        some c) ∧
    (spacelessRegistry.prepareCloudsForRender (fun _ => "0") (fun _ => true)).1.heap =
      (VisualizerData.prepareCloudsForRender (fun _ => "0") (fun _ => true)
        { spacelessRegistry with mClouds := spacelessRegistry.mClouds.filter (fun e =>
            match spacelessRegistry.heap[e.2]? with
            | some c => !(c.mSpaces.length == 0)
            | none => true) }).1.heap ∧
    (spacelessRegistry.prepareCloudsForRender (fun _ => "0") (fun _ => true)).2 =
      (VisualizerData.prepareCloudsForRender (fun _ => "0") (fun _ => true)
        { spacelessRegistry with mClouds := spacelessRegistry.mClouds.filter (fun e =>
            match spacelessRegistry.heap[e.2]? with
            | some c => !(c.mSpaces.length == 0)
            | none => true) }).2) ∧
    spacelessRegistry.mClouds.filter (fun e =>
        match spacelessRegistry.heap[e.2]? with
        | some c => !(c.mSpaces.length == 0)
        | none => true) = [("b", 1)] ∧
    (spacelessRegistry.prepareCloudsForRender (fun _ => "0") (fun _ => true)).1.heap.map
        (fun c => c.mFeatures.map Prod.fst) = [["x"], ["x", "y", "z", "rgb"]] ∧
    (spacelessRegistry.prepareCloudsForRender (fun _ => "0") (fun _ => true)).2.map Prod.fst =
      ["VisualizerData/visualizer..session.0-view.b.pcd"] :=
  ⟨prepareCloudsForRender_skips_spaceless (fun _ => "0") (fun _ => true) spacelessRegistry,
    by decide!, by decide!, by decide!⟩


/-! ## Indexed clouds: lemmas -/

theorem mapFind?_mapSet_self {K V : Type} [DecidableEq K] [LT K]
    [DecidableRel (fun a b : K => a < b)] (k : K) (v : V) :
    ∀ m : List (K × V), mapFind? (mapSet k v m) k = some v := by
  intro m
  induction m with
  | nil => simp [mapSet, mapFind?]
  | cons e es ih =>
    unfold mapSet
    by_cases h1 : e.1 = k
    · simp [h1, mapFind?]
    · by_cases h2 : k < e.1
      · simp [h1, h2, mapFind?]
      · simp only [h1, h2, if_false]
        unfold mapFind? at ih ⊢
        rw [List.find?_cons_of_neg _ (by simpa using h1)]
        exact ih

theorem mapFind?_mapSet_ne {K V : Type} [DecidableEq K] [LT K]
    [DecidableRel (fun a b : K => a < b)] (k k1 : K) (v : V) (hne : k1 ≠ k) :
    ∀ m : List (K × V), mapFind? (mapSet k v m) k1 = mapFind? m k1 := by
  intro m
  induction m with
  | nil =>
    simp only [mapSet, mapFind?]
    rw [List.find?_cons_of_neg _ (by simpa using hne.symm)]
  | cons e es ih =>
    unfold mapSet
    by_cases h1 : e.1 = k
    · simp only [h1, if_true]
      unfold mapFind?
      rw [List.find?_cons_of_neg _ (by simpa using hne.symm),
        List.find?_cons_of_neg _ (by rw [h1]; simpa using hne.symm)]
    · by_cases h2 : k < e.1
      · simp only [h1, h2, if_true, if_false]
        unfold mapFind?
        rw [List.find?_cons_of_neg _ (by simpa using hne.symm)]
      · simp only [h1, h2, if_false]
        unfold mapFind? at ih ⊢
        by_cases h3 : e.1 = k1
        · rw [List.find?_cons_of_pos _ (by simpa using h3),
            List.find?_cons_of_pos _ (by simpa using h3)]
        · rw [List.find?_cons_of_neg _ (by simpa using h3),
            List.find?_cons_of_neg _ (by simpa using h3)]
          exact ih

theorem mem_of_mapFind? {K V : Type} [DecidableEq K] (m : List (K × V)) (k : K) (v : V)
    (h : mapFind? m k = some v) : (k, v) ∈ m := by
  unfold mapFind? at h
  cases hf : m.find? (fun e => decide (e.1 = k)) with
  | none => rw [hf] at h; simp at h
  | some e =>
    rw [hf] at h
    simp only [Option.map_some', Option.some.injEq] at h
    have h1 := List.find?_some hf
    have h2 := List.mem_of_find?_eq_some hf
    simp only [decide_eq_true_eq] at h1
    obtain ⟨a, b⟩ := e
    simp only at h h1
    subst h h1
    exact h2

theorem indexedFind?_indexedSet_self (m : List (Int × List (CloudName × CloudPtr))) (i : Int)
    (name : CloudName) (p : CloudPtr) : indexedFind? (indexedSet m i name p) i name = some p := by
  unfold indexedFind? indexedSet
  rw [mapFind?_mapSet_self]
  simp only [Option.some_bind]
  exact mapFind?_mapSet_self name p _

theorem mem_of_indexedFind? (m : List (Int × List (CloudName × CloudPtr))) (i : Int)
    (name : CloudName) (p : CloudPtr) (h : indexedFind? m i name = some p) :
    ∃ inner, (i, inner) ∈ m ∧ (name, p) ∈ inner := by
  unfold indexedFind? at h
  cases hf : mapFind? m i with
  | none => rw [hf] at h; simp at h
  | some inner =>
    rw [hf] at h
    simp only [Option.some_bind] at h
    exact ⟨inner, mem_of_mapFind? m i inner hf, mem_of_mapFind? inner name p h⟩

theorem assignFeatureData_find?_ne (name name1 : FeatureName) (data : FeatureData)
    (hne : name1 ≠ name) :
    ∀ fs : List Feature,
      (Cloud.assignFeatureData name data fs).find? (fun f => f.1 == name1) =
        fs.find? (fun f => f.1 == name1) := by
  intro fs
  induction fs with
  | nil => rfl
  | cons g gs ih =>
    unfold Cloud.assignFeatureData
    by_cases hg : g.1 = name
    · simp only [hg, beq_self_eq_true, if_true]
      rw [List.find?_cons_of_neg _ (by simpa using hne.symm),
        List.find?_cons_of_neg _ (by rw [hg]; simpa using hne.symm)]
    · have hb : (g.1 == name) = false := by simpa using hg
      simp only [hb, Bool.false_eq_true, if_false]
      by_cases h1 : g.1 = name1
      · rw [List.find?_cons_of_pos _ (by simpa using h1),
          List.find?_cons_of_pos _ (by simpa using h1)]
      · rw [List.find?_cons_of_neg _ (by simpa using h1),
          List.find?_cons_of_neg _ (by simpa using h1)]
        exact ih

theorem getFeatureData_addFeature_ne (c : Cloud) (data : FeatureData) (name name1 : FeatureName)
    (v : ViewportIdx) (hne : name1 ≠ name) :
    (c.addFeature data name v).getFeatureData name1 = c.getFeatureData name1 := by
  simp only [Cloud.getFeatureData, Cloud.getFeature, addFeature_mFeatures]
  split
  · rw [assignFeatureData_find?_ne name name1 data hne]
  · rw [List.find?_append]
    have : List.find? (fun f : Feature => f.1 == name1) [(name, data)] = none := by
      rw [List.find?_cons_of_neg _ (by simpa using hne.symm)]
      rfl
    rw [this]
    simp

theorem getFeatureData_addFeatures_not_mem (name : FeatureName)
    (adds : List (FeatureData × FeatureName × ViewportIdx)) :
    ∀ c : Cloud, (∀ a ∈ adds, a.2.1 ≠ name) →
      (addFeatures c adds).getFeatureData name = c.getFeatureData name := by
  induction adds with
  | nil => intro c _; rfl
  | cons a adds ih =>
    intro c h
    show (addFeatures (c.addFeature a.1 a.2.1 a.2.2) adds).getFeatureData name = _
    rw [ih _ (fun b hb => h b (List.mem_cons_of_mem _ hb)),
      getFeatureData_addFeature_ne c a.1 a.2.1 name a.2.2 (h a (List.mem_cons_self _ _)).symm]

/-- After additions under pairwise distinct names, each added name holds the
values added under it. -/
theorem getFeatureData_addFeatures (adds : List (FeatureData × FeatureName × ViewportIdx)) :
    ∀ c : Cloud, (adds.map (fun a => a.2.1)).Nodup → ∀ a ∈ adds,
      (addFeatures c adds).getFeatureData a.2.1 = some a.1 := by
  induction adds with
  | nil => intro c _ a ha; simp at ha
  | cons b adds ih =>
    intro c hnd a ha
    rw [List.map_cons, List.nodup_cons] at hnd
    show (addFeatures (c.addFeature b.1 b.2.1 b.2.2) adds).getFeatureData a.2.1 = some a.1
    rcases List.mem_cons.mp ha with h | h
    · subst h
      rw [getFeatureData_addFeatures_not_mem]
      · exact getFeatureData_addFeature c a.1 a.2.1 a.2.2
      · intro b hb hbn
        exact hnd.1 (List.mem_map.mpr ⟨b, hb, hbn⟩)
    · exact ih _ hnd.2 a h

theorem features_names_nodup (data : PointCloud) : (data.features.map Prod.fst).Nodup := by
  cases data <;> simp [PointCloud.features]

theorem spaces_in_features (data : PointCloud) :
    ∀ t ∈ data.spaces, ∃ va vb vc, (t.1, va) ∈ data.features ∧ (t.2.1, vb) ∈ data.features ∧
      (t.2.2, vc) ∈ data.features := by
  cases data <;> simp [PointCloud.features, PointCloud.spaces]

theorem addSpaces_isSome (ts : List (FeatureName × FeatureName × FeatureName)) :
    ∀ c : Cloud,
      (∀ t ∈ ts, ∃ va vb vc, c.getFeatureData t.1 = some va ∧ c.getFeatureData t.2.1 = some vb ∧
        c.getFeatureData t.2.2 = some vc ∧ va.length ≤ vb.length ∧ va.length ≤ vc.length) →
      ∃ c1, addSpaces c ts = some c1 := by
  induction ts with
  | nil => intro c _; exact ⟨c, rfl⟩
  | cons t ts ih =>
    intro c h
    obtain ⟨va, vb, vc, ha, hb, hc, hab, hac⟩ := h t (List.mem_cons_self _ _)
    obtain ⟨s, hadd, _⟩ := addSpace_of_lengths c t.1 t.2.1 t.2.2 va vb vc ha hb hc hab hac
    simp only [addSpaces, hadd, Option.some_bind]
    apply ih
    intro t1 ht1
    exact h t1 (List.mem_cons_of_mem _ ht1)

/-- `addCloud` always has a result: the features it declares spaces on are the
ones it has just set, all with one value per record. -/
theorem addCloud_isSome (c : Cloud) (data : PointCloud) (v : ViewportIdx) (now : String) :
    ∃ c1, c.addCloud data v now = some c1 := by
  rw [addCloud_eq]
  have hnd : ((data.features.map (fun f => (f.2, f.1, v))).map (fun a => a.2.1)).Nodup := by
    rw [List.map_map]
    exact features_names_nodup data
  obtain ⟨c0, h0⟩ := addSpaces_isSome data.spaces
    (addFeatures c (data.features.map (fun f => (f.2, f.1, v)))) (by
      intro t ht
      obtain ⟨va, vb, vc, h1, h2, h3⟩ := spaces_in_features data t ht
      have e1 := getFeatureData_addFeatures _ c hnd (va, t.1, v)
        (List.mem_map.mpr ⟨(t.1, va), h1, rfl⟩)
      have e2 := getFeatureData_addFeatures _ c hnd (vb, t.2.1, v)
        (List.mem_map.mpr ⟨(t.2.1, vb), h2, rfl⟩)
      have e3 := getFeatureData_addFeatures _ c hnd (vc, t.2.2, v)
        (List.mem_map.mpr ⟨(t.2.2, vc), h3, rfl⟩)
      refine ⟨va, vb, vc, e1, e2, e3, ?_, ?_⟩
      · rw [features_length data _ h1, features_length data _ h2]
      · rw [features_length data _ h1, features_length data _ h3])
  exact ⟨_, by rw [h0]; rfl⟩

theorem addFeatures_mIndexedClouds (adds : List (FeatureData × FeatureName × ViewportIdx)) :
    ∀ c : Cloud, (addFeatures c adds).mIndexedClouds = c.mIndexedClouds := by
  induction adds with
  | nil => intro c; rfl
  | cons a adds ih =>
    intro c
    show (addFeatures (c.addFeature a.1 a.2.1 a.2.2) adds).mIndexedClouds = c.mIndexedClouds
    rw [ih]
    unfold Cloud.addFeature Cloud.setViewport
    simp only []
    split <;> split <;> rfl

theorem addCloud_mIndexedClouds (c c1 : Cloud) (data : PointCloud) (v : ViewportIdx)
    (now : String) (h : c.addCloud data v now = some c1) :
    c1.mIndexedClouds = c.mIndexedClouds := by
  rw [(addCloud_frame c c1 data v now h).2, addFeatures_mIndexedClouds]

/-- `Cloud::addCloudIndexed` on a valid heap: afterwards the parent has the child
under `(i, name)` and the child is the result of `addCloud` on the child that was
there before, or on a new cloud. -/
theorem cloud_addCloudIndexed_spec (heap : List Cloud) (self : CloudPtr) (parent : Cloud)
    (data : PointCloud) (i : Int) (name : CloudName) (viewport : ViewportIdx) (now : String)
    (hself : heap[self]? = some parent)
    (hwf : ∀ c ∈ heap, ∀ m ∈ c.mIndexedClouds, ∀ e ∈ m.2, e.2 < heap.length) :
    ∃ (heap1 : List Cloud) (parent1 : Cloud) (cp : CloudPtr) (child0 child : Cloud),
      Cloud.addCloudIndexed heap self data i name viewport now = some heap1 ∧
      heap1[self]? = some parent1 ∧ indexedFind? parent1.mIndexedClouds i name = some cp ∧
      heap1[cp]? = some child ∧ child0.addCloud data viewport now = some child ∧
      (indexedFind? parent.mIndexedClouds i name = none → child0 = {}) ∧
      (∀ p0, indexedFind? parent.mIndexedClouds i name = some p0 → heap[p0]? = some child0) := by
  have hselflt : self < heap.length := lt_of_getElem?_eq_some heap self parent hself
  cases hfind : indexedFind? parent.mIndexedClouds i name with
  | some p0 =>
    have hp0 : p0 < heap.length := by
      obtain ⟨inner, h1, h2⟩ := mem_of_indexedFind? _ _ _ _ hfind
      exact hwf parent (List.mem_iff_getElem?.mpr ⟨self, hself⟩) (i, inner) h1 (name, p0) h2
    obtain ⟨child0, hchild0⟩ : ∃ child0, heap[p0]? = some child0 :=
      ⟨_, List.getElem?_eq_getElem hp0⟩
    obtain ⟨child, hchild⟩ := addCloud_isSome child0 data viewport now
    have hrun : Cloud.addCloudIndexed heap self data i name viewport now =
        some (heap.set p0 child) := by
      simp only [Cloud.addCloudIndexed, hself, hfind, hchild0, hchild, Option.map_some']
    by_cases hps : p0 = self
    · subst hps
      rw [hself] at hchild0
      cases hchild0
      refine ⟨_, child, p0, parent, child, hrun, ?_, ?_, ?_, hchild, ?_, ?_⟩
      · rw [List.getElem?_set_self hp0]
      · rw [addCloud_mIndexedClouds _ _ _ _ _ hchild]
        exact hfind
      · rw [List.getElem?_set_self hp0]
      · intro h; exact Option.noConfusion h
      · intro q hq
        cases hq
        exact hself
    · refine ⟨_, parent, p0, child0, child, hrun, ?_, hfind, ?_, hchild, ?_, ?_⟩
      · rw [List.getElem?_set_ne hps]
        exact hself
      · rw [List.getElem?_set_self hp0]
      · intro h; exact Option.noConfusion h
      · intro q hq
        cases hq
        exact hchild0
  | none =>
    obtain ⟨child, hchild⟩ := addCloud_isSome ({} : Cloud) data viewport now
    have hnew : ((heap.set self
        { parent with
          mIndexedClouds := indexedSet parent.mIndexedClouds i name heap.length }) ++
          [({} : Cloud)])[heap.length]? = some {} := by
      rw [List.getElem?_append_right (by simp)]
      simp
    have hrun : Cloud.addCloudIndexed heap self data i name viewport now =
        some (((heap.set self
          { parent with
            mIndexedClouds := indexedSet parent.mIndexedClouds i name heap.length }) ++
            [({} : Cloud)]).set heap.length child) := by
      simp only [Cloud.addCloudIndexed, hself, hfind, hnew, hchild, Option.map_some']
    refine ⟨_, { parent with
        mIndexedClouds := indexedSet parent.mIndexedClouds i name heap.length },
      heap.length, {}, child, hrun, ?_, indexedFind?_indexedSet_self _ _ _ _, ?_, hchild, ?_, ?_⟩
    · rw [List.getElem?_set_ne (Nat.ne_of_gt hselflt),
        List.getElem?_append_left (by simpa using hselflt),
        List.getElem?_set_self hselflt]
    · rw [List.getElem?_set_self (by simp)]
    · intro _; rfl
    · intro q hq; exact Option.noConfusion hq

/-- `getCloud` on a registry with valid pointers: the name is registered
afterwards, to a cloud of a heap with valid pointers; a registered name keeps
its cloud and the registry is unchanged, an unregistered name gets a new cloud. -/
theorem getCloud_spec (v : VisualizerData) (name : CloudName) (hwf : v.WellFormed) :
    ∃ (v1 : VisualizerData) (p : CloudPtr) (cloud : Cloud),
      v.getCloud name = (v1, p) ∧ mapFind? v1.mClouds name = some p ∧
      v1.heap[p]? = some cloud ∧
      (∀ c ∈ v1.heap, ∀ m ∈ c.mIndexedClouds, ∀ e ∈ m.2, e.2 < v1.heap.length) ∧
      (∀ (i : Int) (child : CloudName), v.indexedChild name i child = none →
        indexedFind? cloud.mIndexedClouds i child = none) ∧
      (∀ (i : Int) (child : CloudName) (p0 : CloudPtr), v.indexedChild name i child = some p0 →
        indexedFind? cloud.mIndexedClouds i child = some p0) ∧
      (∀ (q : CloudPtr) (c : Cloud), v.heap[q]? = some c → v1.heap[q]? = some c) := by
  cases hfind : mapFind? v.mClouds name with
  | some p =>
    have hp : p < v.heap.length := hwf.1 (name, p) (mem_of_mapFind? _ _ _ hfind)
    obtain ⟨cloud, hcloud⟩ : ∃ cloud, v.heap[p]? = some cloud :=
      ⟨_, List.getElem?_eq_getElem hp⟩
    refine ⟨v, p, cloud, ?_, hfind, hcloud, hwf.2, ?_, ?_, fun q c h => h⟩
    · simp only [VisualizerData.getCloud, hfind]
    · intro i child h
      simpa [VisualizerData.indexedChild, hfind, hcloud] using h
    · intro i child p0 h
      simpa [VisualizerData.indexedChild, hfind, hcloud] using h
  | none =>
    refine ⟨{ v with mClouds := mapSet name v.heap.length v.mClouds, heap := v.heap ++ [{}] },
      v.heap.length, {}, ?_, mapFind?_mapSet_self _ _ _, ?_, ?_, ?_, ?_, ?_⟩
    · simp only [VisualizerData.getCloud, hfind]
    · simp
    · intro c hc m hm e he
      simp only [List.length_append, List.length_singleton]
      rcases List.mem_append.mp hc with hc | hc
      · exact Nat.lt_succ_of_lt (hwf.2 c hc m hm e he)
      · simp only [List.mem_singleton] at hc
        subst hc
        simp at hm
    · intro i child _
      simp [indexedFind?, mapFind?]
    · intro i child p0 h
      simp [VisualizerData.indexedChild, hfind] at h
    · intro q c h
      rw [List.getElem?_append_left (lt_of_getElem?_eq_some _ _ _ h)]
      exact h

/-- C12 (amended): for every point index `i`, in range or not, and a child name
other than the parent's name, `addCloudIndexed(data, parentName, i, childName)`
has a result in which the cloud registered under `parentName` holds, in its index
map under `(i, childName)`, the very pointer registered under `childName`, and
the cloud it denotes is the result of `addCloud(data)` on the child that was
there before, or on a new cloud when there was none. -/
theorem addCloudIndexed_registers_child (v : VisualizerData) (data : PointCloud)
    (parentName : CloudName) (i : Int) (childName : CloudName) (viewport : ViewportIdx)
    (now : String) (hwf : v.WellFormed) (hne : parentName ≠ childName) :
    ∃ (v1 : VisualizerData) (pp cp : CloudPtr) (parent child0 child : Cloud),
      v.addCloudIndexed data parentName i childName viewport now = some v1 ∧
      mapFind? v1.mClouds parentName = some pp ∧ v1.heap[pp]? = some parent ∧
      indexedFind? parent.mIndexedClouds i childName = some cp ∧
      mapFind? v1.mClouds childName = some cp ∧ v1.heap[cp]? = some child ∧
      child0.addCloud data viewport now = some child ∧
      (v.indexedChild parentName i childName = none → child0 = {}) ∧
      (∀ p0, v.indexedChild parentName i childName = some p0 → v.heap[p0]? = some child0) := by
  obtain ⟨v0, pp, parent0, hget, hreg, hheap, hwf0, hnone, hsome, hkeep⟩ :=
    getCloud_spec v parentName hwf
  obtain ⟨heap1, parent1, cp, child0, child, hrun, hparent1, hidx, hchild, hadd, hc0, hc1⟩ :=
    cloud_addCloudIndexed_spec v0.heap pp parent0 data i childName viewport now hheap hwf0
  have hfound : mapFind? (mapSet childName cp v0.mClouds) childName = some cp :=
    mapFind?_mapSet_self _ _ _
  refine ⟨{ v0 with heap := heap1, mClouds := mapSet childName cp v0.mClouds }, pp, cp, parent1,
    child0, child, ?_, ?_, hparent1, hidx, hfound, hchild, hadd, ?_, ?_⟩
  · unfold VisualizerData.addCloudIndexed
    simp only [hget, hrun, hparent1, hidx]
    simp only [VisualizerData.getCloud, hfound]
  · show mapFind? (mapSet childName cp v0.mClouds) parentName = some pp
    rw [mapFind?_mapSet_ne childName parentName cp hne]
    exact hreg
  · intro h
    exact hc0 (hnone i childName h)
  · intro p0 h
    have h1 := hc1 p0 (hsome i childName p0 h)
    cases hfind : mapFind? v.mClouds parentName with
    | none => simp [VisualizerData.indexedChild, hfind] at h
    | some q =>
      have : v.getCloud parentName = (v, q) := by
        simp only [VisualizerData.getCloud, hfind]
      rw [this] at hget
      cases hget
      exact h1

/-- C12 (as stated, refuted): when the child is given the name of its parent, the
registry entry "p" is overwritten with the child: the cloud registered as "p"
afterwards is the child, whose index map is empty, so no cloud is found under
(1, "p") in the index map of the cloud named "p"; the former parent, at address
0, is no longer registered. -/
theorem addCloudIndexed_same_name :
    (parentRegistry.addCloudIndexed (.xyz [⟨1, 2, 3⟩]) "p" 1 "p" (-1) "t").map
        (fun v1 => v1.mClouds) = some [("p", 1)] ∧
    (parentRegistry.addCloudIndexed (.xyz [⟨1, 2, 3⟩]) "p" 1 "p" (-1) "t").map
        (fun v1 => v1.heap.map (fun c => c.mIndexedClouds)) = some [[(1, [("p", 1)])], []] ∧
    (parentRegistry.addCloudIndexed (.xyz [⟨1, 2, 3⟩]) "p" 1 "p" (-1) "t").map
        (fun v1 => v1.indexedChild "p" 1 "p") = some none := by
  decide!

/-- Witness of C12: a child "child" attached to point 7 of the 3-point cloud "p". -/
theorem addCloudIndexed_registers_child_witness :
    (∃ (v1 : VisualizerData) (pp cp : CloudPtr) (parent child0 child : Cloud),
      parentRegistry.addCloudIndexed (.xyz [⟨1, 2, 3⟩]) "p" 7 "child" (-1) "t" = some v1 ∧
      mapFind? v1.mClouds "p" = some pp ∧ v1.heap[pp]? = some parent ∧
      indexedFind? parent.mIndexedClouds 7 "child" = some cp ∧
      mapFind? v1.mClouds "child" = some cp ∧ v1.heap[cp]? = some child ∧
      child0.addCloud (.xyz [⟨1, 2, 3⟩]) (-1) "t" = some child ∧
      (parentRegistry.indexedChild "p" 7 "child" = none → child0 = {}) ∧
      (∀ p0, parentRegistry.indexedChild "p" 7 "child" = some p0 →
        parentRegistry.heap[p0]? = some child0)) ∧
    (parentRegistry.addCloudIndexed (.xyz [⟨1, 2, 3⟩]) "p" 7 "child" (-1) "t").map
        (fun v1 => v1.mClouds) = some [("child", 1), ("p", 0)] ∧
    (parentRegistry.addCloudIndexed (.xyz [⟨1, 2, 3⟩]) "p" 7 "child" (-1) "t").map
        (fun v1 => v1.indexedChild "p" 7 "child") = some (some 1) ∧
    (parentRegistry.addCloudIndexed (.xyz [⟨1, 2, 3⟩]) "p" 7 "child" (-1) "t").map
        (fun v1 => v1.heap.map (fun c => c.mFeatures)) =
      some [redCloud.mFeatures, [("x", [1]), ("y", [2]), ("z", [3])]] :=
  ⟨addCloudIndexed_registers_child parentRegistry (.xyz [⟨1, 2, 3⟩]) "p" 7 "child" (-1) "t"
      (by unfold VisualizerData.WellFormed; decide) (by decide),
    by decide!, by decide!, by decide!⟩


/-! ## Point count, last label, packed rows -/

/-- C21: `getNbPoints` is 0 for a cloud without features and otherwise the length
of the first entry of the feature list, whatever the later entries are. -/
theorem getNbPoints_eq (c : Cloud) (f : Feature) (fs : List Feature) :
    ({ c with mFeatures := [] } : Cloud).getNbPoints = 0 ∧
    ({ c with mFeatures := f :: fs } : Cloud).getNbPoints = f.2.length := by
  constructor
  · simp [Cloud.getNbPoints, Cloud.getNbFeatures]
  · simp [Cloud.getNbPoints, Cloud.getNbFeatures]

/-- C29: on a cloud with `n > 0` points and arbitrary groups, `addLabelsFeature`
sets the feature `name` to `n` labels; point `i < n` gets the label `k` of the
last group in which `i` occurs (`i` occurs in group `k` and in no later group),
and `-1` when it occurs in no group. -/
theorem addLabelsFeature_last_group (c : Cloud) (groups : List (List Int)) (name : FeatureName)
    (v : ViewportIdx) (hn : 0 < c.getNbPoints) :
    ∃ labels : FeatureData,
      (c.addLabelsFeature groups name v).getFeatureData name = some labels ∧
      labels.length = c.getNbPoints ∧
      ∀ i : Nat, i < c.getNbPoints →
        (∀ (k : Nat) (g : List Int), groups[k]? = some g → (i : Int) ∈ g →
          (∀ (k1 : Nat) (g1 : List Int), k < k1 → groups[k1]? = some g1 → (i : Int) ∉ g1) →
          labels[i]? = some (k : ℚ)) ∧
        ((∀ g ∈ groups, (i : Int) ∉ g) → labels[i]? = some (-1)) := by
  refine ⟨Cloud.computeLabels c.getNbPoints groups, ?_, computeLabels_length _ _, ?_⟩
  · unfold Cloud.addLabelsFeature
    simp only [Nat.le_zero_eq, Nat.ne_of_gt hn, if_false]
    exact getFeatureData_addFeature _ _ _ _
  · intro i hi
    constructor
    · intro k g hk hmem hlast
      have := labelComponents_getElem?_of_last c.getNbPoints i hi groups 0
        (List.replicate c.getNbPoints (-1)) k g (by simpa using hi) hk hmem hlast
      simpa [Cloud.computeLabels] using this
    · intro hnot
      unfold Cloud.computeLabels
      rw [labelComponents_getElem?_of_not_mem _ _ _ _ _ hnot]
      simp [hi]

/-- Witness of C29: the overlapping groups `[[0, 1], [1, 2], [1]]` on a cloud of
4 points give the labels `[0, 2, 1, -1]`. -/
theorem addLabelsFeature_last_group_witness :
    (∃ labels : FeatureData,
      ((({} : Cloud).addFeature [7, 8, 9, 6] "x").addLabelsFeature [[0, 1], [1, 2], [1]]
        "labels" (-1)).getFeatureData "labels" = some labels ∧
      labels.length = (({} : Cloud).addFeature [7, 8, 9, 6] "x").getNbPoints ∧
      ∀ i : Nat, i < (({} : Cloud).addFeature [7, 8, 9, 6] "x").getNbPoints →
        (∀ (k : Nat) (g : List Int), [[0, 1], [1, 2], [1]][k]? = some g → (i : Int) ∈ g →
          (∀ (k1 : Nat) (g1 : List Int), k < k1 → [[0, 1], [1, 2], [1]][k1]? = some g1 →
            (i : Int) ∉ g1) →
          labels[i]? = some (k : ℚ)) ∧
        ((∀ g ∈ [[0, 1], [1, 2], [1]], (i : Int) ∉ g) → labels[i]? = some (-1))) ∧
    ((({} : Cloud).addFeature [7, 8, 9, 6] "x").addLabelsFeature [[0, 1], [1, 2], [1]]
        "labels").getFeatureData "labels" = some [0, 2, 1, -1] :=
  ⟨addLabelsFeature_last_group (({} : Cloud).addFeature [7, 8, 9, 6] "x")
      [[0, 1], [1, 2], [1]] "labels" (-1) (by decide),
    by decide!⟩

/-- C27: when the features `a`, `b`, `c` exist and have the same length `N`,
`addSpace(a, b, c)` returns the cloud with exactly one more Space, named
`(a, b, c)`, after the existing ones, everything else unchanged; the packing loop
runs to its end with every access in bounds, and its result, the data of the
index, has `N` rows, row `i` being `(a[i], b[i], c[i])`. -/
theorem addSpace_packs_rows (cloud : Cloud) (a b c : FeatureName) (va vb vc : FeatureData)
    (ha : cloud.getFeatureData a = some va) (hb : cloud.getFeatureData b = some vb)
    (hc : cloud.getFeatureData c = some vc)
    (hab : vb.length = va.length) (hac : vc.length = va.length) :
    ∃ rows : List Point3,
      cloud.addSpace a b c =
        some { cloud with mSpaces := cloud.mSpaces ++ [⟨a, b, c, rows⟩] } ∧
      packLoop va vb vc va.length = some rows ∧
      rows.length = va.length ∧
      ∀ i : Nat, i < va.length →
        ∃ x y z, va[i]? = some x ∧ vb[i]? = some y ∧ vc[i]? = some z ∧
          rows[i]? = some (x, y, z) := by
  obtain ⟨rows, hrows, hlen, hget⟩ :=
    packLoop_spec va vb vc va.length (le_refl _) (by omega) (by omega)
  have hfa := (getFeatureData_of_getFeature cloud a va).mp ha
  have hfb := (getFeatureData_of_getFeature cloud b vb).mp hb
  have hfc := (getFeatureData_of_getFeature cloud c vc).mp hc
  refine ⟨rows, ?_, hrows, hlen, hget⟩
  by_cases hN : va.length > 0
  · unfold Cloud.addSpace Space.build
    simp [Cloud.hasFeature, hfa, hfb, hfc, hN, hrows]
  · have h0 : va.length = 0 := by omega
    have hnil : rows = [] := List.eq_nil_of_length_eq_zero (by rw [hlen, h0])
    unfold Cloud.addSpace Space.build
    simp [Cloud.hasFeature, hfa, hfb, hfc, hN, hnil]

/-- Witness of C27: the space (x, y, z) on x = y = z = [0, 1, 2]. -/
theorem addSpace_packs_rows_witness :
    (∃ rows : List Point3,
      ({ redCloud with mSpaces := [] } : Cloud).addSpace "x" "y" "z" =
        some { ({ redCloud with mSpaces := [] } : Cloud) with
          mSpaces := ({ redCloud with mSpaces := [] } : Cloud).mSpaces ++
            [⟨"x", "y", "z", rows⟩] } ∧
      packLoop [0, 1, 2] [0, 1, 2] [0, 1, 2] ([0, 1, 2] : FeatureData).length = some rows ∧
      rows.length = ([0, 1, 2] : FeatureData).length ∧
      ∀ i : Nat, i < ([0, 1, 2] : FeatureData).length →
        ∃ x y z, ([0, 1, 2] : FeatureData)[i]? = some x ∧
          ([0, 1, 2] : FeatureData)[i]? = some y ∧ ([0, 1, 2] : FeatureData)[i]? = some z ∧
          rows[i]? = some (x, y, z)) ∧
    ({ redCloud with mSpaces := [] } : Cloud).addSpace "x" "y" "z" = some redCloud :=
  ⟨addSpace_packs_rows { redCloud with mSpaces := [] } "x" "y" "z" [0, 1, 2] [0, 1, 2] [0, 1, 2]
      (by decide!) (by decide!) (by decide!) (by decide) (by decide),
    by decide!⟩


/-! ## The saved file -/

theorem string_join_cons (x : String) (xs : List String) :
    String.join (x :: xs) = x ++ String.join xs := by
  rw [String.join_eq, String.join_eq]
  apply String.ext
  simp

theorem dataLine_eq_pointLine (fmt : ℚ → String) (i : Nat) :
    ∀ fs : List Feature, (∀ f ∈ fs, i < f.2.length) →
      Cloud.dataLine fmt i fs = some (pointLine fmt fs i) := by
  intro fs
  induction fs with
  | nil => intro _; rfl
  | cons f fs ih =>
    intro h
    have hi : i < f.2.length := h f (List.mem_cons_self _ _)
    have hv : f.2[i]? = some (f.2.getD i 0) := by
      rw [List.getD_eq_getElem?_getD, List.getElem?_eq_getElem hi]
      rfl
    unfold Cloud.dataLine
    rw [hv, ih (fun g hg => h g (List.mem_cons_of_mem _ hg))]
    simp only [pointLine, List.map_cons, string_join_cons, String.append_assoc]

theorem dataLines_eq_pointLines (fmt : ℚ → String) (c : Cloud) :
    ∀ n : Nat, (∀ f ∈ c.mFeatures, n ≤ f.2.length) →
      Cloud.dataLines fmt c n = some ((List.range n).map (pointLine fmt c.mFeatures)) := by
  intro n
  induction n with
  | zero => intro _; rfl
  | succ n ih =>
    intro h
    unfold Cloud.dataLines
    rw [ih (fun f hf => Nat.le_of_succ_le (h f hf)),
      dataLine_eq_pointLine fmt n c.mFeatures (fun f hf => h f hf)]
    simp [List.range_succ]

theorem save_eq_of_uniform (fmt : ℚ → String) (c : Cloud)
    (h : ∀ f ∈ c.mFeatures, f.2.length = c.getNbPoints) :
    c.save fmt =
      some (c.saveHeader ++ (List.range c.getNbPoints).map (pointLine fmt c.mFeatures)) := by
  unfold Cloud.save
  rw [dataLines_eq_pointLines fmt c c.getNbPoints (fun f hf => le_of_eq (h f hf).symm)]
  rfl

/-- C22: the header written by `save`: the FIELDS, SIZE, TYPE and COUNT lines
carry one entry per feature, in insertion order (`getNbFeatures` entries each):
the names, "4", "U" for a field named "rgb" and "F" otherwise, and "1"; WIDTH and
POINTS carry `getNbPoints`. Whatever `save` writes begins with this header, and
it writes it when all features hold `getNbPoints` values. -/
theorem save_header (fmt : ℚ → String) (c : Cloud) :
    c.saveHeader =
      [ "# .PCD v.7 - Point Cloud Data file format",
        "VERSION .7",
        "FIELDS" ++ String.join ((c.mFeatures.map Prod.fst).map (fun e => " " ++ e)),
        "SIZE" ++ String.join ((List.replicate c.getNbFeatures "4").map (fun e => " " ++ e)),
        "TYPE" ++ String.join (((c.mFeatures.map Prod.fst).map
          (fun n => if n = "rgb" then "U" else "F")).map (fun e => " " ++ e)),
        "COUNT" ++ String.join ((List.replicate c.getNbFeatures "1").map (fun e => " " ++ e)),
        "WIDTH " ++ toString c.getNbPoints,
        "HEIGHT 1",
        "VIEWPOINT 0 0 0 1 0 0 0",
        "POINTS " ++ toString c.getNbPoints,
        "DATA ascii" ] ∧
    (c.mFeatures.map Prod.fst).length = c.getNbFeatures ∧
    ((c.mFeatures.map Prod.fst).map (fun n => if n = "rgb" then "U" else "F")).length =
      c.getNbFeatures ∧
    (∀ lines, c.save fmt = some lines → ∃ data, lines = c.saveHeader ++ data) ∧
    ((∀ f ∈ c.mFeatures, f.2.length = c.getNbPoints) →
      ∃ data, c.save fmt = some (c.saveHeader ++ data)) := by
  refine ⟨?_, by simp [Cloud.getNbFeatures], by simp [Cloud.getNbFeatures], ?_, ?_⟩
  · simp only [Cloud.saveHeader, Cloud.fieldsLine, Cloud.sizeLine, Cloud.typeLine,
      Cloud.countLine, List.map_map, List.map_replicate, Function.comp_def]
    have htype : c.mFeatures.map (fun f => if (f.1 == "rgb") = true then " U" else " F") =
        c.mFeatures.map (fun x => " " ++ if x.1 = "rgb" then "U" else "F") := by
      apply List.map_congr_left
      intro f _
      by_cases h : f.1 = "rgb"
      · simp only [h, beq_self_eq_true, if_true]; decide
      · have hb : (f.1 == "rgb") = false := by simpa using h
        simp only [hb, h, Bool.false_eq_true, if_false]; decide
    rw [htype, show (" " ++ "4" : String) = " 4" from by decide,
      show (" " ++ "1" : String) = " 1" from by decide]
  · intro lines h
    unfold Cloud.save at h
    cases hd : Cloud.dataLines fmt c c.getNbPoints with
    | none => rw [hd] at h; simp at h
    | some ls =>
      rw [hd] at h
      simp only [Option.map_some', Option.some.injEq] at h
      exact ⟨ls, h.symm⟩
  · intro h
    exact ⟨_, save_eq_of_uniform fmt c h⟩

/-- Witness of C22: the header of the example cloud after the colour step. -/
theorem save_header_witness :
    ((prepareColor redCloud).saveHeader =
      [ "# .PCD v.7 - Point Cloud Data file format",
        "VERSION .7",
        "FIELDS" ++ String.join (((prepareColor redCloud).mFeatures.map Prod.fst).map
          (fun e => " " ++ e)),
        "SIZE" ++ String.join ((List.replicate (prepareColor redCloud).getNbFeatures "4").map
          (fun e => " " ++ e)),
        "TYPE" ++ String.join ((((prepareColor redCloud).mFeatures.map Prod.fst).map
          (fun n => if n = "rgb" then "U" else "F")).map (fun e => " " ++ e)),
        "COUNT" ++ String.join ((List.replicate (prepareColor redCloud).getNbFeatures "1").map
          (fun e => " " ++ e)),
        "WIDTH " ++ toString (prepareColor redCloud).getNbPoints,
        "HEIGHT 1",
        "VIEWPOINT 0 0 0 1 0 0 0",
        "POINTS " ++ toString (prepareColor redCloud).getNbPoints,
        "DATA ascii" ] ∧
    ((prepareColor redCloud).mFeatures.map Prod.fst).length =
      (prepareColor redCloud).getNbFeatures ∧
    (((prepareColor redCloud).mFeatures.map Prod.fst).map
      (fun n => if n = "rgb" then "U" else "F")).length = (prepareColor redCloud).getNbFeatures ∧
    (∀ lines, (prepareColor redCloud).save (fun q => toString q.num) = some lines →
      ∃ data, lines = (prepareColor redCloud).saveHeader ++ data) ∧
    ((∀ f ∈ (prepareColor redCloud).mFeatures,
        f.2.length = (prepareColor redCloud).getNbPoints) →
      ∃ data, (prepareColor redCloud).save (fun q => toString q.num) =
        some ((prepareColor redCloud).saveHeader ++ data))) ∧
    (prepareColor redCloud).save (fun q => toString q.num) =
      some [ "# .PCD v.7 - Point Cloud Data file format",
        "VERSION .7",
        "FIELDS x y z rgb",
        "SIZE 4 4 4 4",
        "TYPE F F F U",
        "COUNT 1 1 1 1",
        "WIDTH 3",
        "HEIGHT 1",
        "VIEWPOINT 0 0 0 1 0 0 0",
        "POINTS 3",
        "DATA ascii",
        "0 0 0 16711680 ",
        "1 1 1 16711680 ",
        "2 2 2 16711680 " ] :=
  ⟨save_header (fun q => toString q.num) (prepareColor redCloud), by decide!⟩

/-- C23: in a cloud in which every feature has `getNbPoints` values, `save`
writes the header followed by exactly `getNbPoints` data lines; line `i` holds,
for every feature in insertion order, its `i`-th value followed by a blank, and
every access `feature.second[i]` is within bounds. -/
theorem save_data_lines (fmt : ℚ → String) (c : Cloud)
    (h : ∀ f ∈ c.mFeatures, f.2.length = c.getNbPoints) :
    ∃ data : List String,
      c.save fmt = some (c.saveHeader ++ data) ∧ data.length = c.getNbPoints ∧
      (∀ i : Nat, i < c.getNbPoints →
        data[i]? = some (String.join (c.mFeatures.map (fun f =>
          (if f.1 == "rgb" then toString (toUInt32 (f.2.getD i 0)) else fmt (f.2.getD i 0)) ++
            " ")))) ∧
      ∀ i : Nat, i < c.getNbPoints → ∀ f ∈ c.mFeatures, f.2[i]? = some (f.2.getD i 0) := by
  refine ⟨(List.range c.getNbPoints).map (pointLine fmt c.mFeatures),
    save_eq_of_uniform fmt c h, by simp, ?_, ?_⟩
  · intro i hi
    rw [List.getElem?_map, List.getElem?_range hi]
    rfl
  · intro i hi f hf
    have hlt : i < f.2.length := by rw [h f hf]; exact hi
    rw [List.getD_eq_getElem?_getD, List.getElem?_eq_getElem hlt]
    rfl

/-- Witness of C23: the data lines of the example cloud after the colour step. -/
theorem save_data_lines_witness :
    (∃ data : List String,
      (prepareColor redCloud).save (fun q => toString q.num) =
        some ((prepareColor redCloud).saveHeader ++ data) ∧
      data.length = (prepareColor redCloud).getNbPoints ∧
      (∀ i : Nat, i < (prepareColor redCloud).getNbPoints →
        data[i]? = some (String.join ((prepareColor redCloud).mFeatures.map (fun f =>
          (if f.1 == "rgb" then toString (toUInt32 (f.2.getD i 0))
            else (fun q : ℚ => toString q.num) (f.2.getD i 0)) ++ " ")))) ∧
      ∀ i : Nat, i < (prepareColor redCloud).getNbPoints →
        ∀ f ∈ (prepareColor redCloud).mFeatures, f.2[i]? = some (f.2.getD i 0)) ∧
    ((prepareColor redCloud).save (fun q => toString q.num)).map (fun lines => lines.drop 11) =
      some ["0 0 0 16711680 ", "1 1 1 16711680 ", "2 2 2 16711680 "] :=
  ⟨save_data_lines (fun q => toString q.num) (prepareColor redCloud) (by decide!), by decide!⟩


/-! ## What `addCloud` leaves -/

theorem addFeature_names (c : Cloud) (data : FeatureData) (name : FeatureName)
    (v : ViewportIdx) :
    (c.addFeature data name v).mFeatures.map Prod.fst =
      c.mFeatures.map Prod.fst ++ (if c.hasFeature name then [] else [name]) := by
  rw [addFeature_mFeatures]
  by_cases h : c.hasFeature name = true
  · simp [h, assignFeatureData_names]
  · simp [h]

theorem hasFeature_addFeature_ne (c : Cloud) (data : FeatureData) (name name1 : FeatureName)
    (v : ViewportIdx) (hne : name1 ≠ name) :
    (c.addFeature data name v).hasFeature name1 = c.hasFeature name1 := by
  have h := getFeatureData_addFeature_ne c data name name1 v hne
  unfold Cloud.getFeatureData at h
  unfold Cloud.hasFeature
  cases h1 : (c.addFeature data name v).getFeature name1 <;>
    cases h2 : c.getFeature name1 <;> simp [h1, h2] at h ⊢

/-- The names after additions under pairwise distinct names: the names of the
cloud, followed by the added names that were not present, in order. -/
theorem addFeatures_names (adds : List (FeatureData × FeatureName × ViewportIdx)) :
    ∀ c : Cloud, (adds.map (fun a => a.2.1)).Nodup →
      (addFeatures c adds).mFeatures.map Prod.fst =
        c.mFeatures.map Prod.fst ++ (adds.map (fun a => a.2.1)).filter (fun n => !c.hasFeature n) := by
  induction adds with
  | nil => intro c _; simp [addFeatures]
  | cons a adds ih =>
    intro c hnd
    rw [List.map_cons, List.nodup_cons] at hnd
    show (addFeatures (c.addFeature a.1 a.2.1 a.2.2) adds).mFeatures.map Prod.fst = _
    rw [ih _ hnd.2, addFeature_names]
    have hfilter :
        (adds.map (fun a => a.2.1)).filter
            (fun n => !(c.addFeature a.1 a.2.1 a.2.2).hasFeature n) =
          (adds.map (fun a => a.2.1)).filter (fun n => !c.hasFeature n) := by
      apply List.filter_congr
      intro n hn
      have hne : n ≠ a.2.1 := by
        intro he
        rw [he] at hn
        exact hnd.1 hn
      rw [hasFeature_addFeature_ne c a.1 a.2.1 n a.2.2 hne]
    rw [hfilter, List.map_cons]
    by_cases h : c.hasFeature a.2.1 = true
    · simp [h]
    · simp [h]

theorem packLoop_map {T : Type} (ps : List T) (fa fb fc : T → ℚ) :
    packLoop (ps.map fa) (ps.map fb) (ps.map fc) (ps.map fa).length =
      some (ps.map (fun p => (fa p, fb p, fc p))) := by
  obtain ⟨data, hdata, hlen, hrows⟩ :=
    packLoop_spec (ps.map fa) (ps.map fb) (ps.map fc) (ps.map fa).length (le_refl _)
      (by simp) (by simp)
  rw [hdata]
  congr 1
  apply List.ext_getElem?
  intro k
  by_cases hk : k < (ps.map fa).length
  · obtain ⟨x, y, z, h1, h2, h3, h4⟩ := hrows k hk
    rw [h4]
    rw [List.getElem?_map] at h1 h2 h3 ⊢
    cases hp : ps[k]? with
    | none => rw [hp] at h1; simp at h1
    | some p =>
      rw [hp] at h1 h2 h3
      simp only [Option.map_some', Option.some.injEq] at h1 h2 h3 ⊢
      rw [h1, h2, h3]
  · rw [List.getElem?_eq_none (by omega), List.getElem?_eq_none (by simp at hk ⊢; omega)]

/-- `addSpace` on three features that hold fields of the same records. -/
theorem addSpace_of_maps {T : Type} (cloud : Cloud) (a b c : FeatureName) (ps : List T)
    (fa fb fc : T → ℚ) (ha : cloud.getFeatureData a = some (ps.map fa))
    (hb : cloud.getFeatureData b = some (ps.map fb))
    (hc : cloud.getFeatureData c = some (ps.map fc)) :
    cloud.addSpace a b c =
      some { cloud with
        mSpaces := cloud.mSpaces ++ [⟨a, b, c, ps.map (fun p => (fa p, fb p, fc p))⟩] } := by
  have hfa := (getFeatureData_of_getFeature cloud a _).mp ha
  have hfb := (getFeatureData_of_getFeature cloud b _).mp hb
  have hfc := (getFeatureData_of_getFeature cloud c _).mp hc
  have hpack := packLoop_map ps fa fb fc
  by_cases hN : (ps.map fa).length > 0
  · unfold Cloud.addSpace Space.build
    simp only [Cloud.hasFeature, hfa, hfb, hfc, Option.isSome_some, Bool.not_true,
      Bool.false_eq_true, if_false, hN, if_true, hpack, Option.map_some']
  · have h0 : ps = [] := by
      cases ps with
      | nil => rfl
      | cons p ps => simp at hN
    subst h0
    unfold Cloud.addSpace Space.build
    simp [Cloud.hasFeature, hfa, hfb, hfc]

/-- The `addSpace` calls of `addCloud` on a cloud that holds the features of the
point cloud: the spaces of the point cloud are appended. -/
theorem addSpaces_builtSpaces (c1 : Cloud) (data : PointCloud)
    (hget : ∀ f ∈ data.features, c1.getFeatureData f.1 = some f.2) :
    addSpaces c1 data.spaces =
      some { c1 with mSpaces := c1.mSpaces ++ data.builtSpaces } := by
  cases data with
  | xyz ps =>
    have hx : c1.getFeatureData "x" = some (ps.map (fun p => p.x)) :=
      hget ("x", ps.map (fun p => p.x)) (by simp [PointCloud.features])
    have hy : c1.getFeatureData "y" = some (ps.map (fun p => p.y)) :=
      hget ("y", ps.map (fun p => p.y)) (by simp [PointCloud.features])
    have hz : c1.getFeatureData "z" = some (ps.map (fun p => p.z)) :=
      hget ("z", ps.map (fun p => p.z)) (by simp [PointCloud.features])
    simp only [PointCloud.spaces, addSpaces, PointCloud.builtSpaces]
    rw [addSpace_of_maps c1 "x" "y" "z" ps _ _ _ hx hy hz]
    rfl
  | normal ps =>
    have hx : c1.getFeatureData "normal_x" = some (ps.map (fun p => p.normal_x)) :=
      hget ("normal_x", ps.map (fun p => p.normal_x)) (by simp [PointCloud.features])
    have hy : c1.getFeatureData "normal_y" = some (ps.map (fun p => p.normal_y)) :=
      hget ("normal_y", ps.map (fun p => p.normal_y)) (by simp [PointCloud.features])
    have hz : c1.getFeatureData "normal_z" = some (ps.map (fun p => p.normal_z)) :=
      hget ("normal_z", ps.map (fun p => p.normal_z)) (by simp [PointCloud.features])
    simp only [PointCloud.spaces, addSpaces, PointCloud.builtSpaces]
    rw [addSpace_of_maps c1 "normal_x" "normal_y" "normal_z" ps _ _ _ hx hy hz]
    rfl
  | pointNormal ps =>
    have hx : c1.getFeatureData "x" = some (ps.map (fun p => p.x)) :=
      hget ("x", ps.map (fun p => p.x)) (by simp [PointCloud.features])
    have hy : c1.getFeatureData "y" = some (ps.map (fun p => p.y)) :=
      hget ("y", ps.map (fun p => p.y)) (by simp [PointCloud.features])
    have hz : c1.getFeatureData "z" = some (ps.map (fun p => p.z)) :=
      hget ("z", ps.map (fun p => p.z)) (by simp [PointCloud.features])
    have hnx : c1.getFeatureData "normal_x" = some (ps.map (fun p => p.normal_x)) :=
      hget ("normal_x", ps.map (fun p => p.normal_x)) (by simp [PointCloud.features])
    have hny : c1.getFeatureData "normal_y" = some (ps.map (fun p => p.normal_y)) :=
      hget ("normal_y", ps.map (fun p => p.normal_y)) (by simp [PointCloud.features])
    have hnz : c1.getFeatureData "normal_z" = some (ps.map (fun p => p.normal_z)) :=
      hget ("normal_z", ps.map (fun p => p.normal_z)) (by simp [PointCloud.features])
    have h2 : ∀ sp : List Space,
        Cloud.addSpace { c1 with mSpaces := sp } "normal_x" "normal_y" "normal_z" =
          some { c1 with
            mSpaces := sp ++ [⟨"normal_x", "normal_y", "normal_z",
              ps.map (fun p => (p.normal_x, p.normal_y, p.normal_z))⟩] } :=
      fun sp => addSpace_of_maps { c1 with mSpaces := sp } "normal_x" "normal_y" "normal_z"
        ps _ _ _ hnx hny hnz
    simp only [PointCloud.spaces, addSpaces, PointCloud.builtSpaces]
    rw [addSpace_of_maps c1 "x" "y" "z" ps _ _ _ hx hy hz]
    simp only [Option.some_bind]
    rw [h2]
    simp
  | principalCurvatures ps =>
    have hx : c1.getFeatureData "principal_curvature_x" =
        some (ps.map (fun p => p.principal_curvature_x)) :=
      hget ("principal_curvature_x", ps.map (fun p => p.principal_curvature_x))
        (by simp [PointCloud.features])
    have hy : c1.getFeatureData "principal_curvature_y" =
        some (ps.map (fun p => p.principal_curvature_y)) :=
      hget ("principal_curvature_y", ps.map (fun p => p.principal_curvature_y))
        (by simp [PointCloud.features])
    have hz : c1.getFeatureData "principal_curvature_z" =
        some (ps.map (fun p => p.principal_curvature_z)) :=
      hget ("principal_curvature_z", ps.map (fun p => p.principal_curvature_z))
        (by simp [PointCloud.features])
    simp only [PointCloud.spaces, addSpaces, PointCloud.builtSpaces]
    rw [addSpace_of_maps c1 "principal_curvature_x" "principal_curvature_y"
      "principal_curvature_z" ps _ _ _ hx hy hz]
    rfl

/-- The result of `addCloud`: the features of the point cloud are set, present
names keeping their place and new names being appended in order, the spaces of
the point cloud are appended, and the timestamp is `now`. -/
theorem addCloud_result (c : Cloud) (data : PointCloud) (v : ViewportIdx) (now : String) :
    ∃ c1 : Cloud, c.addCloud data v now = some c1 ∧
      (∀ f ∈ data.features, c1.getFeatureData f.1 = some f.2) ∧
      c1.mFeatures.map Prod.fst =
        c.mFeatures.map Prod.fst ++
          (data.features.map Prod.fst).filter (fun n => !c.hasFeature n) ∧
      c1.mSpaces = c.mSpaces ++ data.builtSpaces ∧ c1.mTimestamp = now := by
  have hnd : ((data.features.map (fun f => (f.2, f.1, v))).map (fun a => a.2.1)).Nodup := by
    rw [List.map_map]
    exact features_names_nodup data
  have hmap : (data.features.map (fun f => (f.2, f.1, v))).map (fun a => a.2.1) =
      data.features.map Prod.fst := by
    rw [List.map_map]
    rfl
  obtain ⟨c0, hc0⟩ : ∃ c0, c0 = addFeatures c (data.features.map (fun f => (f.2, f.1, v))) :=
    ⟨_, rfl⟩
  have hget : ∀ f ∈ data.features, c0.getFeatureData f.1 = some f.2 := by
    intro f hf
    rw [hc0]
    exact getFeatureData_addFeatures _ c hnd (f.2, f.1, v) (List.mem_map.mpr ⟨f, hf, rfl⟩)
  have hnames := addFeatures_names _ c hnd
  rw [hmap, ← hc0] at hnames
  have hspaces : c0.mSpaces = c.mSpaces := by rw [hc0, addFeatures_mSpaces]
  have hrun : c.addCloud data v now =
      some (({ c0 with mSpaces := c0.mSpaces ++ data.builtSpaces } : Cloud).addCloudCommon
        v now) := by
    rw [addCloud_eq, ← hc0, addSpaces_builtSpaces c0 data hget]
    rfl
  have hfeat : ∀ c2 : Cloud, (c2.addCloudCommon v now).mFeatures = c2.mFeatures := by
    intro c2
    unfold Cloud.addCloudCommon Cloud.setViewport
    split <;> rfl
  have hsp : ∀ c2 : Cloud, (c2.addCloudCommon v now).mSpaces = c2.mSpaces := by
    intro c2
    unfold Cloud.addCloudCommon Cloud.setViewport
    split <;> rfl
  refine ⟨_, hrun, ?_, ?_, ?_, rfl⟩
  · intro f hf
    have := hget f hf
    simp only [Cloud.getFeatureData, Cloud.getFeature, hfeat] at this ⊢
    exact this
  · rw [hfeat]
    exact hnames
  · rw [hsp]
    show c0.mSpaces ++ data.builtSpaces = _
    rw [hspaces]

/-- C26: for every cloud, `addCloud` on `N` XYZ records leaves the features "x",
"y", "z" holding the coordinates of the records in record order, the names
already present keeping their place and the new ones being appended in that
order, and leaves the previous spaces followed by exactly one Space
("x", "y", "z") over the `N` rows, whether or not such a space was there; on
XYZ+normal records it sets the 7 features x, y, z, normal_x, normal_y, normal_z,
curvature in the same way and appends the two spaces (x, y, z) and
(normal_x, normal_y, normal_z). -/
theorem addCloud_features_spaces (c : Cloud) (v : ViewportIdx) (now : String) :
    (∀ ps : List PointXYZ, ∃ c1 : Cloud,
      c.addCloud (.xyz ps) v now = some c1 ∧
      c1.getFeatureData "x" = some (ps.map (fun p => p.x)) ∧
      c1.getFeatureData "y" = some (ps.map (fun p => p.y)) ∧
      c1.getFeatureData "z" = some (ps.map (fun p => p.z)) ∧
      c1.mFeatures.map Prod.fst =
        c.mFeatures.map Prod.fst ++ ["x", "y", "z"].filter (fun n => !c.hasFeature n) ∧
      c1.mSpaces = c.mSpaces ++ [⟨"x", "y", "z", ps.map (fun p => (p.x, p.y, p.z))⟩]) ∧
    (∀ ps : List PointNormal, ∃ c1 : Cloud,
      c.addCloud (.pointNormal ps) v now = some c1 ∧
      c1.getFeatureData "x" = some (ps.map (fun p => p.x)) ∧
      c1.getFeatureData "y" = some (ps.map (fun p => p.y)) ∧
      c1.getFeatureData "z" = some (ps.map (fun p => p.z)) ∧
      c1.getFeatureData "normal_x" = some (ps.map (fun p => p.normal_x)) ∧
      c1.getFeatureData "normal_y" = some (ps.map (fun p => p.normal_y)) ∧
      c1.getFeatureData "normal_z" = some (ps.map (fun p => p.normal_z)) ∧
      c1.getFeatureData "curvature" = some (ps.map (fun p => p.curvature)) ∧
      c1.mFeatures.map Prod.fst =
        c.mFeatures.map Prod.fst ++
          ["x", "y", "z", "normal_x", "normal_y", "normal_z", "curvature"].filter
            (fun n => !c.hasFeature n) ∧
      c1.mSpaces = c.mSpaces ++
        [⟨"x", "y", "z", ps.map (fun p => (p.x, p.y, p.z))⟩,
         ⟨"normal_x", "normal_y", "normal_z",
          ps.map (fun p => (p.normal_x, p.normal_y, p.normal_z))⟩]) := by
  constructor
  · intro ps
    obtain ⟨c1, hrun, hget, hnames, hspaces, _⟩ := addCloud_result c (.xyz ps) v now
    exact ⟨c1, hrun,
      hget ("x", ps.map (fun p => p.x)) (by simp [PointCloud.features]),
      hget ("y", ps.map (fun p => p.y)) (by simp [PointCloud.features]),
      hget ("z", ps.map (fun p => p.z)) (by simp [PointCloud.features]),
      hnames, hspaces⟩
  · intro ps
    obtain ⟨c1, hrun, hget, hnames, hspaces, _⟩ := addCloud_result c (.pointNormal ps) v now
    exact ⟨c1, hrun,
      hget ("x", ps.map (fun p => p.x)) (by simp [PointCloud.features]),
      hget ("y", ps.map (fun p => p.y)) (by simp [PointCloud.features]),
      hget ("z", ps.map (fun p => p.z)) (by simp [PointCloud.features]),
      hget ("normal_x", ps.map (fun p => p.normal_x)) (by simp [PointCloud.features]),
      hget ("normal_y", ps.map (fun p => p.normal_y)) (by simp [PointCloud.features]),
      hget ("normal_z", ps.map (fun p => p.normal_z)) (by simp [PointCloud.features]),
      hget ("curvature", ps.map (fun p => p.curvature)) (by simp [PointCloud.features]),
      hnames, hspaces⟩

/-- Witness of C26: two XYZ records added to the example cloud, which already has
the features x, y, z and the space (x, y, z); and one XYZ+normal record added to
a cloud that has the feature "y" only. -/
theorem addCloud_features_spaces_witness :
    (∃ c1 : Cloud,
      redCloud.addCloud (.xyz [⟨5, 6, 7⟩, ⟨1, 2, 3⟩]) 1 "20240101.120000.000" = some c1 ∧
      c1.getFeatureData "x" = some (([⟨5, 6, 7⟩, ⟨1, 2, 3⟩] : List PointXYZ).map (fun p => p.x)) ∧
      c1.getFeatureData "y" = some (([⟨5, 6, 7⟩, ⟨1, 2, 3⟩] : List PointXYZ).map (fun p => p.y)) ∧
      c1.getFeatureData "z" = some (([⟨5, 6, 7⟩, ⟨1, 2, 3⟩] : List PointXYZ).map (fun p => p.z)) ∧
      c1.mFeatures.map Prod.fst =
        redCloud.mFeatures.map Prod.fst ++
          ["x", "y", "z"].filter (fun n => !redCloud.hasFeature n) ∧
      c1.mSpaces = redCloud.mSpaces ++
        [⟨"x", "y", "z",
          ([⟨5, 6, 7⟩, ⟨1, 2, 3⟩] : List PointXYZ).map (fun p => (p.x, p.y, p.z))⟩]) ∧
    (redCloud.addCloud (.xyz [⟨5, 6, 7⟩, ⟨1, 2, 3⟩]) 1 "20240101.120000.000").map
        (fun c1 => (c1.mFeatures, c1.mSpaces)) =
      some ([("x", [5, 1]), ("y", [6, 2]), ("z", [7, 3])],
        [⟨"x", "y", "z", [(0, 0, 0), (1, 1, 1), (2, 2, 2)]⟩,
         ⟨"x", "y", "z", [(5, 6, 7), (1, 2, 3)]⟩]) ∧
    ((({} : Cloud).addFeature [9] "y").addCloud (.pointNormal [⟨1, 2, 3, 4, 5, 6, 7⟩]) (-1)
        "20240101.120000.000").map (fun c1 => (c1.mFeatures, c1.mSpaces)) =
      some ([("y", [2]), ("x", [1]), ("z", [3]), ("normal_x", [4]), ("normal_y", [5]),
          ("normal_z", [6]), ("curvature", [7])],
        [⟨"x", "y", "z", [(1, 2, 3)]⟩, ⟨"normal_x", "normal_y", "normal_z", [(4, 5, 6)]⟩]) :=
  ⟨(addCloud_features_spaces redCloud 1 "20240101.120000.000").1 [⟨5, 6, 7⟩, ⟨1, 2, 3⟩],
    by decide!, by decide!⟩

/-! ## Timestamps -/

theorem toDigitsCore_lt (f n : Nat) (ds : List Char) (h : n < 10) :
    Nat.toDigitsCore 10 (f + 1) n ds = Nat.digitChar n :: ds := by
  simp [Nat.toDigitsCore, Nat.div_eq_of_lt h, Nat.mod_eq_of_lt h]

theorem toDigitsCore_ge (f n : Nat) (ds : List Char) (h : 10 ≤ n) :
    Nat.toDigitsCore 10 (f + 1) n ds =
      Nat.toDigitsCore 10 f (n / 10) (Nat.digitChar (n % 10) :: ds) := by
  have : n / 10 ≠ 0 := by omega
  simp [Nat.toDigitsCore, this]

theorem toString_one_digit (n : Nat) (h : n < 10) :
    toString n = ⟨[Nat.digitChar n]⟩ := by
  show Nat.repr n = _
  unfold Nat.repr Nat.toDigits
  rw [toDigitsCore_lt _ _ _ h]
  rfl

theorem toString_two_digits (n : Nat) (h1 : 10 ≤ n) (h2 : n < 100) :
    toString n = ⟨[Nat.digitChar (n / 10), Nat.digitChar (n % 10)]⟩ := by
  obtain ⟨k, rfl⟩ : ∃ k, n = k + 2 := ⟨n - 2, by omega⟩
  show Nat.repr (k + 2) = _
  unfold Nat.repr Nat.toDigits
  rw [toDigitsCore_ge _ _ _ (by omega), toDigitsCore_lt _ _ _ (by omega)]
  rfl

theorem toString_three_digits (n : Nat) (h1 : 100 ≤ n) (h2 : n < 1000) :
    toString n =
      ⟨[Nat.digitChar (n / 100), Nat.digitChar (n / 10 % 10), Nat.digitChar (n % 10)]⟩ := by
  obtain ⟨k, rfl⟩ : ∃ k, n = k + 3 := ⟨n - 3, by omega⟩
  show Nat.repr (k + 3) = _
  unfold Nat.repr Nat.toDigits
  rw [toDigitsCore_ge _ _ _ (by omega), toDigitsCore_ge _ _ _ (by omega),
    toDigitsCore_lt _ _ _ (by omega)]
  have e : (k + 3) / 10 / 10 = (k + 3) / 100 := by omega
  rw [e]
  rfl

theorem toString_four_digits (n : Nat) (h1 : 1000 ≤ n) (h2 : n < 10000) :
    toString n = ⟨[Nat.digitChar (n / 1000), Nat.digitChar (n / 100 % 10),
      Nat.digitChar (n / 10 % 10), Nat.digitChar (n % 10)]⟩ := by
  obtain ⟨k, rfl⟩ : ∃ k, n = k + 4 := ⟨n - 4, by omega⟩
  show Nat.repr (k + 4) = _
  unfold Nat.repr Nat.toDigits
  rw [toDigitsCore_ge _ _ _ (by omega), toDigitsCore_ge _ _ _ (by omega),
    toDigitsCore_ge _ _ _ (by omega), toDigitsCore_lt _ _ _ (by omega)]
  have e1 : (k + 4) / 10 / 10 / 10 = (k + 4) / 1000 := by omega
  have e2 : (k + 4) / 10 / 10 = (k + 4) / 100 := by omega
  rw [e1, e2]
  rfl

theorem zeroPad_two (n : Nat) (h : n < 100) :
    zeroPad 2 (toString n) = ⟨[Nat.digitChar (n / 10), Nat.digitChar (n % 10)]⟩ := by
  unfold zeroPad
  by_cases h1 : n < 10
  · rw [toString_one_digit n h1, Nat.div_eq_of_lt h1, Nat.mod_eq_of_lt h1]
    rfl
  · rw [toString_two_digits n (by omega) h]
    rfl

theorem zeroPad_three (n : Nat) (h : n < 1000) :
    zeroPad 3 (toString n) =
      ⟨[Nat.digitChar (n / 100), Nat.digitChar (n / 10 % 10), Nat.digitChar (n % 10)]⟩ := by
  unfold zeroPad
  by_cases h1 : n < 10
  · rw [toString_one_digit n h1, Nat.div_eq_of_lt (by omega : n < 100),
      Nat.div_eq_of_lt h1, Nat.mod_eq_of_lt h1]
    rfl
  · by_cases h2 : n < 100
    · rw [toString_two_digits n (by omega) h2, Nat.div_eq_of_lt h2,
        Nat.mod_eq_of_lt (by omega : n / 10 < 10)]
      rfl
    · rw [toString_three_digits n (by omega) h]
      rfl

/-- The characters of a timestamp written at or after the epoch, block by block. -/
theorem timestampAt_data (localtime : Int → Tm) (t : Int) (ht : 0 ≤ t)
    (hr : (localtime (t.tdiv 1000)).InRange) :
    ∃ y ms : Nat, (localtime (t.tdiv 1000)).year = (y : Int) ∧ t.tmod 1000 = (ms : Int) ∧
      y < 10000 ∧ ms < 1000 ∧
      (timestampAt localtime t).data =
        [Nat.digitChar (y / 1000), Nat.digitChar (y / 100 % 10),
          Nat.digitChar (y / 10 % 10), Nat.digitChar (y % 10)] ++
        ([Nat.digitChar ((localtime (t.tdiv 1000)).month / 10),
          Nat.digitChar ((localtime (t.tdiv 1000)).month % 10)] ++
        ([Nat.digitChar ((localtime (t.tdiv 1000)).day / 10),
          Nat.digitChar ((localtime (t.tdiv 1000)).day % 10)] ++
        (['.'] ++
        ([Nat.digitChar ((localtime (t.tdiv 1000)).hour / 10),
          Nat.digitChar ((localtime (t.tdiv 1000)).hour % 10)] ++
        ([Nat.digitChar ((localtime (t.tdiv 1000)).minute / 10),
          Nat.digitChar ((localtime (t.tdiv 1000)).minute % 10)] ++
        ([Nat.digitChar ((localtime (t.tdiv 1000)).second / 10),
          Nat.digitChar ((localtime (t.tdiv 1000)).second % 10)] ++
        (['.'] ++
        [Nat.digitChar (ms / 100), Nat.digitChar (ms / 10 % 10),
          Nat.digitChar (ms % 10)]))))))) := by
  obtain ⟨h1, h2, h3, h4, h5, h6, h7, h8, h9⟩ := hr
  have hms0 : 0 ≤ t.tmod 1000 := Int.tmod_nonneg 1000 ht
  have hms1 : t.tmod 1000 < 1000 := Int.tmod_lt_of_pos t (by decide)
  obtain ⟨y, hy⟩ : ∃ y : Nat, (localtime (t.tdiv 1000)).year = (y : Int) :=
    ⟨(localtime (t.tdiv 1000)).year.toNat, (Int.toNat_of_nonneg (by omega)).symm⟩
  obtain ⟨ms, hms⟩ : ∃ ms : Nat, t.tmod 1000 = (ms : Int) :=
    ⟨(t.tmod 1000).toNat, (Int.toNat_of_nonneg hms0).symm⟩
  refine ⟨y, ms, hy, hms, by omega, by omega, ?_⟩
  unfold timestampAt putTime
  simp only []
  rw [hy, hms]
  have hys : toString (y : Int) = toString y := rfl
  have hmss : toString (ms : Int) = toString ms := rfl
  rw [hys, hmss, toString_four_digits y (by omega) (by omega),
    zeroPad_two _ (by omega : (localtime (t.tdiv 1000)).month < 100),
    zeroPad_two _ (by omega : (localtime (t.tdiv 1000)).day < 100),
    zeroPad_two _ (by omega : (localtime (t.tdiv 1000)).hour < 100),
    zeroPad_two _ (by omega : (localtime (t.tdiv 1000)).minute < 100),
    zeroPad_two _ (by omega : (localtime (t.tdiv 1000)).second < 100),
    zeroPad_three ms (by omega)]
  simp only [String.data_append]
  rfl

theorem timestampAt_length (localtime : Int → Tm) (t : Int) (ht : 0 ≤ t)
    (hr : (localtime (t.tdiv 1000)).InRange) :
    (timestampAt localtime t).length = 19 := by
  obtain ⟨y, ms, -, -, -, -, hdata⟩ := timestampAt_data localtime t ht hr
  show (timestampAt localtime t).data.length = 19
  rw [hdata]
  rfl

theorem createTimestampString_zero (localtime : Int → Tm) (now : Int) :
    createTimestampString localtime now 0 = timestampAt localtime now := by
  unfold createTimestampString
  simp

/-- After `addCloud` at an instant at or after the epoch whose local calendar
time is in range, the file name of the cloud holds the 19 characters of the
timestamp of that instant. -/
theorem getCloudFilename_addCloud (c : Cloud) (data : PointCloud) (v : ViewportIdx)
    (localtime : Int → Tm) (now : Int) (hnow : 0 ≤ now)
    (hr : (localtime (now.tdiv 1000)).InRange) (mName : String) (cloudName : CloudName) :
    ∃ c1 : Cloud, c.addCloud data v (createTimestampString localtime now 0) = some c1 ∧
      c1.mTimestamp.length = 19 ∧
      getCloudFilename mName c1 cloudName =
        "VisualizerData/visualizer." ++ createTimestampString localtime now 0 ++ "." ++
          mName ++ "." ++ toString c1.mViewport ++ "-view." ++ cloudName ++ ".pcd" := by
  obtain ⟨c1, h1, -, -, -, hts⟩ := addCloud_result c data v (createTimestampString localtime now 0)
  refine ⟨c1, h1, ?_, ?_⟩
  · rw [hts, createTimestampString_zero]
    exact timestampAt_length localtime now hnow hr
  · unfold getCloudFilename
    rw [hts]
    rfl

/-- C25: a cloud built with `addFeature` and `addSpace` only has the empty
timestamp, and render-preparation serialises it under a file name in which the
timestamp part is empty instead of 19 characters long. -/
theorem getCloudFilename_without_timestamp (fmt : ℚ → String) :
    ∃ c : Cloud, featuresOnlyCloud = some c ∧ c.mSpaces.length = 1 ∧
      c.mTimestamp.length = 0 ∧
      (prepareCloudForRender fmt "session" true "cloud" c).2.map Prod.fst =
        some "VisualizerData/visualizer..session.0-view.cloud.pcd" ∧
      getCloudFilename "session" c "cloud" =
        "VisualizerData/visualizer." ++ "" ++ "." ++ "session" ++ "." ++ "0" ++ "-view." ++
          "cloud" ++ ".pcd" := by
  refine ⟨{ mRGB := ⟨1, 0, 0⟩
            mSpaces := [⟨"x", "y", "z", [(0, 0, 0), (1, 1, 1), (2, 2, 2)]⟩]
            mFeatures := [("x", [0, 1, 2]), ("y", [0, 1, 2]), ("z", [0, 1, 2])] },
    by decide!, by decide, by decide, ?_, by decide⟩
  simp [prepareCloudForRender, prepareColor, getCloudFilename, Cloud.addFeature,
    Cloud.setViewport, Cloud.hasFeature, Cloud.getFeature, sFolder, sFilePrefix]
  decide

/-! ## Removal of old files -/

theorem toDigitsCore_no_separator : ∀ (f n : Nat) (ds : List Char),
    (∀ ch ∈ ds, isSeparator ch = false) →
    ∀ ch ∈ Nat.toDigitsCore 10 f n ds, isSeparator ch = false
  | 0, _, ds, h => by simpa [Nat.toDigitsCore] using h
  | f + 1, n, ds, h => by
    have hd : isSeparator (Nat.digitChar (n % 10)) = false := by
      have hlt : n % 10 < 10 := Nat.mod_lt _ (by decide)
      generalize n % 10 = d at hlt
      interval_cases d <;> decide
    have h1 : ∀ ch ∈ Nat.digitChar (n % 10) :: ds, isSeparator ch = false := by
      intro ch hch
      rcases List.mem_cons.mp hch with rfl | hch
      · exact hd
      · exact h ch hch
    unfold Nat.toDigitsCore
    by_cases h0 : n / 10 = 0
    · simpa [h0] using h1
    · simpa [h0] using toDigitsCore_no_separator f (n / 10) _ h1

theorem toString_nat_no_separator (n : Nat) :
    ∀ ch ∈ (toString n).data, isSeparator ch = false :=
  toDigitsCore_no_separator (n + 1) n [] (by simp)

theorem toString_int_no_separator (v : Int) :
    ∀ ch ∈ (toString v).data, isSeparator ch = false := by
  cases v with
  | ofNat n => exact toString_nat_no_separator n
  | negSucc n =>
    intro ch hch
    have hd : (toString (Int.negSucc n)).data = '-' :: (toString (n + 1)).data := rfl
    rw [hd] at hch
    rcases List.mem_cons.mp hch with rfl | hch
    · decide
    · exact toString_nat_no_separator (n + 1) ch hch

end pcv
